import Mathlib

/-!
# Admiral: service-entry reconciliation and the address store

A shallow embedding of `admiral/pkg/clusters/serviceentry.go`.

Conventions of the embedding.

* Go structs reached through pointers are Lean values; a function that mutates its
  argument returns the new value.
* A Go `map[string]V` is a `GoMap V`: the list of its bindings, one per key, in the order
  in which a `range` loop of the run visits them.  Go leaves that order unspecified, so a
  statement about a loop over a map is proved for every list.
* A Go `error` is an `Option String`; `none` is `nil`.
* Go `int` indices are `Nat` where the code only counts upwards.
* Logging, sleeping and elapsed-time bookkeeping have no effect on the values computed
  and are left out.
-/

set_option autoImplicit false

namespace Admiral

/-! ## Go maps -/

/-- A Go `map[string]V` as the list of its bindings in iteration order. -/
abbrev GoMap (V : Type) := List (String × V)

/-- The comma-ok read `v, ok := m[k]`. -/
def GoMap.lookup {V : Type} : GoMap V → String → Option V
  | [], _ => none
  | (k', v) :: t, k => if k' = k then some v else GoMap.lookup t k

/-- The assignment `m[k] = v`: an existing binding is overwritten, a new one is added. -/
def GoMap.insert {V : Type} : GoMap V → String → V → GoMap V
  | [], k, v => [(k, v)]
  | (k', v') :: t, k, v => if k' = k then (k, v) :: t else (k', v') :: GoMap.insert t k v

/-- The keys of a map, in iteration order. -/
def GoMap.keys {V : Type} (m : GoMap V) : List String := m.map Prod.fst

/-- The values of a map, in iteration order. -/
def GoMap.values {V : Type} (m : GoMap V) : List V := m.map Prod.snd

/-- The statement `delete(m, k)`: no binding under the key is left. -/
def GoMap.erase {V : Type} : GoMap V → String → GoMap V
  | [], _ => []
  | (k', v) :: t, k => if k' = k then GoMap.erase t k else (k', v) :: GoMap.erase t k

/-- A Go `error`; `none` is `nil`. -/
abbrev GoError := Option String

/-! ## Constants of package `common` -/

/-- Modelled from the spec: the separator `common.Sep` (`sep = '.'`). -/
def Sep : String := "."

/-- Modelled from the spec: the suffix `common.DotLocalDomainSuffix` of the local name
`<service>.<ns>.svc.cluster.local`. -/
def DotLocalDomainSuffix : String := ".svc.cluster.local"

/-- Modelled from the spec: the constant `common.BlueGreenRolloutPreviewPrefix`; preview
hosts start with `preview.`. -/
def BlueGreenRolloutPreviewPrefix : String := "preview"

/-- Modelled from the spec: the protocol name `common.Http`. -/
def Http : String := "http"

/-- Modelled from the spec: the dns prefix `common.Default`. -/
def Default : String := "default"

/-- The port `common.DefaultServiceEntryPort`.  The constant is declared outside the
sources; no statement below depends on its value. -/
def DefaultServiceEntryPort : Nat := 80

/-! ## The address store and its ConfigMap -/

/-- Modelled from the spec: the struct `ServiceEntryAddressStore` is declared outside the
sources.  It holds the VIP of every service-entry name and the ordered list of the VIPs in
use. -/
structure ServiceEntryAddressStore where
  EntryAddresses : GoMap String
  Addresses : List String
deriving DecidableEq, Repr

/-- The ConfigMap that persists the address store.  `Data` is what the text under the key
`serviceEntryAddressStore` unmarshals to; `none` is a text that is not valid YAML for the
store.  Marshalling a store and unmarshalling the text gives the store back. -/
structure ConfigMap where
  Data : Option ServiceEntryAddressStore
deriving DecidableEq, Repr

/-- The `ConfigMapControllerInterface` together with the API server behind it: the address
prefix, the ConfigMap the server holds, and the errors that the coming `GetConfigMap` and
`PutConfigMap` calls return (`none`, or a schedule that has run out, is a call that
succeeds). -/
structure ConfigMapController where
  IPPrefix : String
  Server : ConfigMap
  GetErrors : List GoError := []
  PutErrors : List GoError := []
deriving DecidableEq, Repr

/-- The call `GetConfigMap()`. -/
def ConfigMapController.GetConfigMap (c : ConfigMapController) :
    (Admiral.ConfigMap × GoError) × ConfigMapController :=
  match c.GetErrors with
  | [] => ((c.Server, none), c)
  | none :: rest => ((c.Server, none), { c with GetErrors := rest })
  | some e :: rest => ((c.Server, some e), { c with GetErrors := rest })

/-- The call `PutConfigMap(cm)`: the server stores `cm` unless the call fails. -/
def ConfigMapController.PutConfigMap (c : ConfigMapController) (cm : Admiral.ConfigMap) :
    GoError × ConfigMapController :=
  match c.PutErrors with
  | [] => (none, { c with Server := cm })
  | none :: rest => (none, { c with Server := cm, PutErrors := rest })
  | some e :: rest => (some e, { c with PutErrors := rest })

/-- The call `GetIPPrefixForServiceEntries()`. -/
def ConfigMapController.GetIPPrefixForServiceEntries (c : ConfigMapController) : String :=
  c.IPPrefix

/-- Modelled from the spec: `GetServiceEntryStateFromConfigmap` is not among the sources.
It parses the store out of the ConfigMap and returns `nil` when the text does not
unmarshal. -/
def GetServiceEntryStateFromConfigmap (cm : ConfigMap) : Option ServiceEntryAddressStore :=
  cm.Data

/-- Modelled from the spec: `ValidateConfigmapBeforePutting` is not among the sources.
"Rejects CMs with mismatched list/map sizes or duplicate VIPs." -/
def ValidateConfigmapBeforePutting (cm : ConfigMap) : GoError :=
  match GetServiceEntryStateFromConfigmap cm with
  | none => some "could not unmarshall configmap yaml"
  | some store =>
    if store.EntryAddresses.length ≠ store.Addresses.length then
      some "address cache length mismatch"
    else if ¬ store.Addresses.Nodup then
      some "duplicate address in the address cache"
    else none

/-- The function `putServiceEntryStateFromConfigmap`.  `yaml.Marshal` does not fail on a
store, so its error branch is not taken. -/
def putServiceEntryStateFromConfigmap (c : ConfigMapController)
    (originalConfigmap : Option ConfigMap) (data : ServiceEntryAddressStore) :
    GoError × ConfigMapController :=
  match originalConfigmap with
  | none => (some "configmap must not be nil", c)
  | some cm =>
    let updated : ConfigMap := { cm with Data := some data }
    match ValidateConfigmapBeforePutting updated with
    | some e => (some e, c)
    | none => c.PutConfigMap updated

/-- The address `prefix.secondIndex.firstIndex`; `strconv.Itoa` is `toString` on `Nat`. -/
def renderAddress (pfx : String) (secondIndex firstIndex : Nat) : String :=
  pfx ++ Sep ++ toString secondIndex ++ Sep ++ toString firstIndex

/-- One round of the body of the scan loop of `GenerateNewAddressAndAddToConfigMap`. -/
def nextIndex (p : Nat × Nat) : Nat × Nat :=
  if p.2 < 255 then (p.1, p.2 + 1) else (p.1 + 1, 0)

/-- The loop `for util.Contains(addresses, address) { ... }`, run for at most `fuel` tests
of its condition; `none` is a loop that is still running when the fuel is spent. -/
def scanAddress (pfx : String) (addresses : List String) : Nat → Nat × Nat → Option String
  | 0, _ => none
  | fuel + 1, p =>
    if renderAddress pfx p.1 p.2 ∈ addresses then
      scanAddress pfx addresses fuel (nextIndex p)
    else some (renderAddress pfx p.1 p.2)

/-- The function `GenerateNewAddressAndAddToConfigMap`.  The scan is given one test more
than there are addresses, which `scanAddress_isSome` shows is enough, so the first branch
of the last `match` is never taken. -/
def GenerateNewAddressAndAddToConfigMap (seName : String) (c : ConfigMapController) :
    (String × GoError) × ConfigMapController :=
  match c.GetConfigMap with
  | ((_, some err), c1) => (("", some err), c1)
  | ((cm, none), c1) =>
    match GetServiceEntryStateFromConfigmap cm with
    | none => (("", some "could not unmarshall configmap yaml"), c1)
    | some newAddressState =>
      match GoMap.lookup newAddressState.EntryAddresses seName with
      | some val => ((val, none), c1)
      | none =>
        let secondIndex := newAddressState.Addresses.length / 255 + 10
        let firstIndex := newAddressState.Addresses.length % 255 + 1
        match scanAddress c1.GetIPPrefixForServiceEntries newAddressState.Addresses
            (newAddressState.Addresses.length + 1) (secondIndex, firstIndex) with
        | none => (("", some "address scan still running"), c1)
        | some address =>
          let written : ServiceEntryAddressStore :=
            { EntryAddresses := GoMap.insert newAddressState.EntryAddresses seName address
              Addresses := newAddressState.Addresses ++ [address] }
          match putServiceEntryStateFromConfigmap c1 (some cm) written with
          | (some err, c2) => (("", some err), c2)
          | (none, c2) => ((address, none), c2)

/-- The function `GetLocalAddressForSe`: the address, whether the ConfigMap was asked, and
the error. -/
def GetLocalAddressForSe (seName : String) (seAddressCache : ServiceEntryAddressStore)
    (configMapController : ConfigMapController) :
    (String × Bool × GoError) × ConfigMapController :=
  let address := (GoMap.lookup seAddressCache.EntryAddresses seName).getD ""
  if address.length = 0 then
    match GenerateNewAddressAndAddToConfigMap seName configMapController with
    | ((address, err), c) => ((address, true, err), c)
  else ((address, false, none), configMapController)

/-! ## Resources kept in the caches -/

/-- One element of `GlobalTrafficPolicy.Spec.Policy`.  `Settings` stands for the fields
that only `getDestinationRule` reads (load-balancer type, targets, outlier detection). -/
structure TrafficPolicy where
  Dns : String
  DnsPrefix : String
  Settings : String := ""
deriving DecidableEq, Repr

/-- The resource `v1.GlobalTrafficPolicy`; the creation timestamp is an instant on the
time line. -/
structure GlobalTrafficPolicy where
  Name : String
  Namespace : String := ""
  Labels : GoMap String := []
  CreationTimestamp : Int := 0
  Policy : List TrafficPolicy := []
deriving DecidableEq, Repr

/-- A call on the global traffic cache. -/
inductive GtpCacheOp where
  | Put (gtp : GlobalTrafficPolicy)
  | Delete (identity env : String)
deriving DecidableEq, Repr

/-- The struct `common.SidecarEgress`. -/
structure SidecarEgress where
  Namespace : String
  FQDN : String
  CNAMEs : GoMap String := []
deriving DecidableEq, Repr

/-! ## The in-memory cache and `getUniqueAddress` -/

/-- Modelled from the spec: `getIstioResourceName` is not among the sources.  The names
are `<host>-se`, `<host>-default-dr` and `<host>-dr`: the host followed by the suffix. -/
def getIstioResourceName (host : String) (suffix : String) : String :=
  host ++ suffix

/-- Modelled from the spec: the method `Put` of the map-of-maps caches is not among the
sources.  `CnameClusterCache` maps a cname to the set of its cluster ids. -/
def MapOfMaps.Put (m : GoMap (GoMap String)) (pkey key value : String) : GoMap (GoMap String) :=
  GoMap.insert m pkey (GoMap.insert ((GoMap.lookup m pkey).getD []) key value)

/-- The part of the struct `AdmiralCache` that the functions below read or write.  The
map-of-maps caches are maps of maps, `CnameIdentityCache` is the `sync.Map` from cname to
identity, `DependencyNamespaceCache` maps an identity to its egress entry in every
namespace, and `GlobalTrafficCache` is kept as the calls made on it so far, oldest first. -/
structure AdmiralCache where
  ServiceEntryAddressStore : ServiceEntryAddressStore
  ConfigMapController : ConfigMapController
  CnameClusterCache : GoMap (GoMap String) := []
  IdentityClusterCache : GoMap (GoMap String) := []
  CnameDependentClusterCache : GoMap (GoMap String) := []
  CnameIdentityCache : GoMap String := []
  IdentityDependencyCache : GoMap (GoMap String) := []
  DependencyNamespaceCache : GoMap (GoMap SidecarEgress) := []
  GlobalTrafficCache : List GtpCacheOp := []
  SeClusterCache : GoMap (GoMap String) := []
deriving DecidableEq, Repr

/-- The function `loadServiceEntryCacheData`, called on the cache's own controller. -/
def loadServiceEntryCacheData (admiralCache : AdmiralCache) : AdmiralCache :=
  match admiralCache.ConfigMapController.GetConfigMap with
  | ((_, some _), c) => { admiralCache with ConfigMapController := c }
  | ((configmap, none), c) =>
    match GetServiceEntryStateFromConfigmap configmap with
    | some entryCache =>
      { admiralCache with ServiceEntryAddressStore := entryCache, ConfigMapController := c }
    | none => { admiralCache with ConfigMapController := c }

/-- The loop `for err == nil && counter < maxRetries` of `getUniqueAddress`; the first
argument is `maxRetries - counter`.  It returns the last values of `address`,
`needsCacheUpdate` and `err`. -/
def getUniqueAddressLoop (seName : String) (seAddressCache : ServiceEntryAddressStore) :
    Nat → ConfigMapController → String → Bool →
      (String × Bool × GoError) × ConfigMapController
  | 0, c, address, needsCacheUpdate => ((address, needsCacheUpdate, none), c)
  | remaining + 1, c, _, _ =>
    match GetLocalAddressForSe seName seAddressCache c with
    | ((address, needsCacheUpdate, some err), c1) =>
      ((address, needsCacheUpdate, some err), c1)
    | ((address, needsCacheUpdate, none), c1) =>
      getUniqueAddressLoop seName seAddressCache remaining c1 address needsCacheUpdate

/-- The function `getUniqueAddress`. -/
def getUniqueAddress (admiralCache : AdmiralCache) (globalFqdn : String) :
    String × AdmiralCache :=
  let maxRetries := 3
  match getUniqueAddressLoop (getIstioResourceName globalFqdn "-se")
      admiralCache.ServiceEntryAddressStore maxRetries admiralCache.ConfigMapController
      "" false with
  | ((address, _, some _), c) => (address, { admiralCache with ConfigMapController := c })
  | ((address, needsCacheUpdate, none), c) =>
    if needsCacheUpdate then
      (address, loadServiceEntryCacheData { admiralCache with ConfigMapController := c })
    else (address, { admiralCache with ConfigMapController := c })

/-! ## Global traffic policies -/

/-- The white space `strings.TrimSpace` removes (`unicode.IsSpace`). -/
def isSpace (c : Char) : Bool :=
  c.toNat ∈ [9, 10, 11, 12, 13, 32, 133, 160, 5760, 8232, 8233, 8239, 8287, 12288] ||
    (8192 ≤ c.toNat && c.toNat ≤ 8202)

/-- The library function `strings.TrimSpace`, on the characters of the string. -/
def TrimSpace (s : List Char) : List Char :=
  ((s.dropWhile isSpace).reverse.dropWhile isSpace).reverse

/-- The number written by a non-empty run of the digits `0` to `9`. -/
def parseDigits : List Char → Option Nat
  | [] => none
  | cs => if cs.all Char.isDigit then some (cs.foldl (fun a c => a * 10 + (c.toNat - 48)) 0)
    else none

/-- The library function `strconv.Atoi`: an optional sign and decimal digits; a text that
is not a number, or a number outside the 64-bit `int`, is an error (`none`). -/
def Atoi (s : List Char) : Option Int :=
  let v : Option Int :=
    match s with
    | '-' :: ds => (parseDigits ds).map (fun n => - (n : Int))
    | '+' :: ds => (parseDigits ds).map (fun n => (n : Int))
    | ds => (parseDigits ds).map (fun n => (n : Int))
  match v with
  | some i => if -9223372036854775808 ≤ i ∧ i ≤ 9223372036854775807 then some i else none
  | none => none

/-- The function `getGtpPriority`; `priorityKey` is
`common.GetAdmiralParams().LabelSet.PriorityKey`. -/
def getGtpPriority (priorityKey : String) (gtp : GlobalTrafficPolicy) : Int :=
  match GoMap.lookup gtp.Labels priorityKey with
  | some val =>
    match Atoi (TrimSpace val.data) with
    | some convertedValue => convertedValue
    | none => 0
  | none => 0

/-- The comparator that `sortGtpsByPriorityAndCreationTime` hands to `sort.Slice`. -/
def gtpLess (priorityKey : String) (gi gj : GlobalTrafficPolicy) : Bool :=
  let iPriority := getGtpPriority priorityKey gi
  let jPriority := getGtpPriority priorityKey gj
  let iTime := gi.CreationTimestamp
  let jTime := gj.CreationTimestamp
  if iPriority ≠ jPriority then decide (iPriority > jPriority)
  else decide (iTime > jTime)

/-- What the library function `sort.Slice` is documented to do, for the comparator of
`sortGtpsByPriorityAndCreationTime`: the slice is rearranged so that no element is less
than one before it.  The sort is not stable, so this is all that is known of it. -/
def SortsGtps (priorityKey : String)
    (sortSlice : List GlobalTrafficPolicy → List GlobalTrafficPolicy) : Prop :=
  ∀ l, (sortSlice l).Perm l ∧
    (sortSlice l).Pairwise (fun a b => gtpLess priorityKey b a = false)

/-- The function `updateGlobalGtpCache`, returning the calls it makes on
`cache.GlobalTrafficCache` in order.  `sortSlice` is `sort.Slice` with the comparator
`gtpLess`.  The last branch is the index panic of `gtpsOrdered[0]`. -/
def updateGlobalGtpCache (sortSlice : List GlobalTrafficPolicy → List GlobalTrafficPolicy)
    (identity env : String) (gtps : GoMap (List GlobalTrafficPolicy)) : List GtpCacheOp :=
  let gtpsOrdered := gtps.foldl (fun acc gtpsInCluster => acc ++ gtpsInCluster.2) []
  if gtpsOrdered.length = 0 then [GtpCacheOp.Delete identity env]
  else
    let gtpsOrdered := if gtpsOrdered.length > 1 then sortSlice gtpsOrdered else gtpsOrdered
    match gtpsOrdered with
    | mostRecentGtp :: _ => [GtpCacheOp.Put mostRecentGtp]
    | [] => []

/-- Insertion of one element into a list sorted by `gtpLess`. -/
def gtpInsert (priorityKey : String) (g : GlobalTrafficPolicy) :
    List GlobalTrafficPolicy → List GlobalTrafficPolicy
  | [] => [g]
  | h :: t => if gtpLess priorityKey h g then h :: gtpInsert priorityKey g t else g :: h :: t

/-- An insertion sort with the comparator `gtpLess`: one function that does what
`sort.Slice` is documented to do. -/
def gtpInsertionSort (priorityKey : String) :
    List GlobalTrafficPolicy → List GlobalTrafficPolicy
  | [] => []
  | g :: t => gtpInsert priorityKey g (gtpInsertionSort priorityKey t)

/-! ## Service entries -/

/-- The conversion `uint32(i)` of a Go `int` or `int32`. -/
def uint32 (i : Int) : Nat := (i % 4294967296).toNat

/-- The message `networking.ServiceEntry_Endpoint`.  `Labels` is `none` for a nil map,
which `reflect.DeepEqual` tells apart from an empty one; the bookkeeping fields of the
generated code are left out. -/
structure Endpoint where
  Address : String
  Ports : GoMap Nat := []
  Labels : Option (GoMap String) := none
  Network : String := ""
  Locality : String := ""
  Weight : Nat := 0
deriving DecidableEq, Repr

/-- The message `networking.Port`. -/
structure Port where
  Number : Nat
  Protocol : String
  Name : String
deriving DecidableEq, Repr

/-- The enumeration `networking.ServiceEntry_Location`. -/
inductive Location where
  | MESH_EXTERNAL
  | MESH_INTERNAL
deriving DecidableEq, Repr

/-- The enumeration `networking.ServiceEntry_Resolution`. -/
inductive Resolution where
  | NONE
  | STATIC
  | DNS
deriving DecidableEq, Repr

/-- The message `networking.ServiceEntry`. -/
structure ServiceEntry where
  Hosts : List String
  Addresses : List String
  Ports : List Port := []
  Location : Location := Location.MESH_EXTERNAL
  Resolution : Resolution := Resolution.NONE
  Endpoints : List Endpoint := []
  ExportTo : List String := []
  SubjectAltNames : List String := []
deriving DecidableEq, Repr

/-- The type `admiral.EventType`. -/
inductive EventType where
  | Add
  | Update
  | Delete
deriving DecidableEq, Repr

/-! ## Workloads and their controllers -/

/-- The fields of `k8sV1.Service` that the rewrites read. -/
structure Service where
  Name : String
  Namespace : String
deriving DecidableEq, Repr

/-- The struct `WeightedService`; the weight is an `int32`. -/
structure WeightedService where
  Weight : Int
  Service : Service
deriving DecidableEq, Repr

/-- The struct `argo.BlueGreenStrategy`. -/
structure BlueGreenStrategy where
  ActiveService : String
  PreviewService : String := ""
deriving DecidableEq, Repr

/-- The fields of `argo.Rollout` that the functions here read: `BlueGreen` is
`Spec.Strategy.BlueGreen` (`none` for nil), `TemplateLabels` and `TemplateAnnotations` are
the labels and annotations of `Spec.Template`. -/
structure Rollout where
  Name : String
  Namespace : String
  BlueGreen : Option BlueGreenStrategy
  Annotations : GoMap String := []
  TemplateLabels : GoMap String := []
  TemplateAnnotations : GoMap String := []
deriving DecidableEq, Repr

/-- The fields of `k8sAppsV1.Deployment` that the functions here read. -/
structure Deployment where
  Name : String
  Namespace : String
deriving DecidableEq, Repr

/-- The struct `common.LabelSet`, with the constant `common.AdmiralIgnoreAnnotation` as a
further field. -/
structure LabelSet where
  AdmiralIgnoreLabel : String
  DeploymentAnnotation : String
  AdmiralIgnoreAnnotation : String
deriving DecidableEq, Repr

/-- The struct `RolloutClusterEntry` of `rollouts.go`.  `Rollouts` is `none` for the nil
map of an entry made without one: a nil map reads as an empty map and a `delete` on it
does nothing, but an assignment to one of its keys panics. -/
structure RolloutClusterEntry where
  Identity : String
  Rollouts : Option (GoMap Rollout)
deriving DecidableEq, Repr

/-- The struct `RolloutController` of `rollouts.go`: `Namespaces` is what the Kubernetes
client knows, the annotations of every namespace it can get (a namespace that is missing
is one whose `Get` returns an error), `Cache` is the map of the `rolloutCache`.  The
handler is the receiver of the events the functions below return. -/
structure RolloutController where
  Namespaces : GoMap (GoMap String) := []
  Cache : GoMap RolloutClusterEntry := []
  labelSet : LabelSet
deriving DecidableEq, Repr

/-- The message `networking.IstioEgressListener`; `Settings` stands for the fields other
than the hosts. -/
structure IstioEgressListener where
  Hosts : List String
  Settings : String := ""
deriving DecidableEq, Repr

/-- The message `networking.Sidecar`; `Egress` is `none` for a nil slice, `Selector` and
`Ingress` stand for the workload selector and the ingress listeners. -/
structure SidecarSpec where
  Selector : String := ""
  Ingress : String := ""
  Egress : Option (List IstioEgressListener)
deriving DecidableEq, Repr

/-- The resource `v1alpha3.Sidecar`. -/
structure Sidecar where
  Name : String
  Namespace : String
  Labels : GoMap String := []
  Annotations : GoMap String := []
  Spec : SidecarSpec
deriving DecidableEq, Repr

/-- The struct `common.Locality` held by the node controller. -/
structure Locality where
  Region : String
deriving DecidableEq, Repr

/-- The part of the struct `RemoteController` that the functions here read.
`LoadBalancer` is what `ServiceController.Cache.GetLoadBalancer` returns for the gateway
application in the Istio system namespace; `Locality` is `NodeController.Locality`
(`none` for nil; the node controller itself is there); `DeploymentController` is the
cache of the deployment controller, identity to env to deployment (`none` for a nil
controller); `GlobalTraffic` is the cache of the policies, key to namespace to policies;
`SidecarController` is the sidecar of the workload in every namespace that has one, as the
Istio client returns it (`none` for a nil controller). -/
structure RemoteController where
  ClusterID : String
  LoadBalancer : String × Int
  Locality : Option Locality
  DeploymentController : Option (GoMap (GoMap Deployment)) := none
  RolloutController : Option RolloutController := none
  GlobalTraffic : GoMap (GoMap (List GlobalTrafficPolicy)) := []
  SidecarController : Option (GoMap Sidecar) := none
deriving DecidableEq, Repr

/-- The function `makeRemoteEndpointForServiceEntry`. -/
def makeRemoteEndpointForServiceEntry (address : String) (locality : String)
    (portName : String) (portNumber : Int) : Endpoint :=
  { Address := address
    Locality := locality
    Ports := [(portName, uint32 portNumber)] }

/-- The function `generateServiceEntry`: the entry it returns, the `serviceEntries` map
and the cache after the call. -/
def generateServiceEntry (event : EventType) (admiralCache : AdmiralCache)
    (meshPorts : GoMap Nat) (globalFqdn : String) (rc : RemoteController)
    (serviceEntries : GoMap ServiceEntry) (address : String) (san : List String) :
    ServiceEntry × GoMap ServiceEntry × AdmiralCache :=
  let admiralCache := { admiralCache with
    CnameClusterCache :=
      MapOfMaps.Put admiralCache.CnameClusterCache globalFqdn rc.ClusterID rc.ClusterID }
  let init : List Port × String :=
    ([{ Number := DefaultServiceEntryPort, Name := Http, Protocol := Http }], Http)
  let (sePorts, finalProtocol) := meshPorts.foldl
    (fun _ kv => ([{ Number := DefaultServiceEntryPort, Name := kv.1, Protocol := kv.1 }], kv.1))
    init
  let tmpSe : ServiceEntry :=
    match GoMap.lookup serviceEntries globalFqdn with
    | some se => se
    | none =>
      { Hosts := [globalFqdn]
        Ports := sePorts
        Location := Location.MESH_INTERNAL
        Resolution := Resolution.DNS
        Addresses := [address]
        SubjectAltNames := san
        Endpoints := [] }
  let (endpointAddress, port) := rc.LoadBalancer
  let locality : String :=
    match rc.Locality with
    | some l => l.Region
    | none => ""
  let seEndpoint := makeRemoteEndpointForServiceEntry endpointAddress locality finalProtocol port
  let tmpSe : ServiceEntry :=
    if event = EventType.Add ∨ event = EventType.Update then
      { tmpSe with Endpoints := tmpSe.Endpoints ++ [seEndpoint] }
    else if event = EventType.Delete then
      { tmpSe with Endpoints := tmpSe.Endpoints.filter (fun existingEndpoint =>
          !decide (existingEndpoint = seEndpoint)) }
    else tmpSe
  (tmpSe, GoMap.insert serviceEntries globalFqdn tmpSe, admiralCache)

/-! ## Rollouts and the endpoint rewrites -/

/-- The library function `strings.HasPrefix`. -/
def HasPrefix (s pre : String) : Bool := pre.data.isPrefixOf s.data

/-- The local name `<name>.<namespace>.svc.cluster.local` of a service. -/
def localFqdnOf (s : Service) : String :=
  s.Name ++ Sep ++ s.Namespace ++ DotLocalDomainSuffix

/-- The function `updateEndpointsForBlueGreen`: the `cnames` set and the endpoint after
the call, or `none` when `rollout.Spec.Strategy.BlueGreen` is nil and the call panics.
`GetMeshPortsForRollout` is not among the sources and is a parameter. -/
def updateEndpointsForBlueGreen
    (GetMeshPortsForRollout : String → Service → Rollout → GoMap Nat)
    (rollout : Rollout) (weightedServices : GoMap WeightedService) (cnames : GoMap String)
    (ep : Endpoint) (sourceCluster : String) (meshHost : String) :
    Option (GoMap String × Endpoint) :=
  match rollout.BlueGreen with
  | none => none
  | some blueGreen =>
    let activeServiceName := blueGreen.ActiveService
    let previewServiceName := blueGreen.PreviewService
    match GoMap.lookup weightedServices previewServiceName,
      HasPrefix meshHost (BlueGreenRolloutPreviewPrefix ++ Sep) with
    | some previewService, true =>
      let previewServiceInstance := previewService.Service
      let localFqdn := localFqdnOf previewServiceInstance
      some (GoMap.insert cnames localFqdn "1",
        { ep with
          Address := localFqdn
          Ports := GetMeshPortsForRollout sourceCluster previewServiceInstance rollout })
    | _, _ =>
      match GoMap.lookup weightedServices activeServiceName with
      | some activeService =>
        let activeServiceInstance := activeService.Service
        let localFqdn := localFqdnOf activeServiceInstance
        some (GoMap.insert cnames localFqdn "1",
          { ep with
            Address := localFqdn
            Ports := GetMeshPortsForRollout sourceCluster activeServiceInstance rollout })
      | none => some (cnames, ep)

/-- The function `copyEndpoint` is not among the sources; it returns a deep copy, which
for a value is the value. -/
def copyEndpoint (e : Endpoint) : Endpoint := e

/-- The first loop of `updateEndpointsForWeightedServices`: the endpoints kept and the
last endpoint that matched, if any. -/
def splitEndpoints (clusterIngress : String) (eps : List Endpoint) :
    List Endpoint × Option Endpoint :=
  eps.foldl (fun (acc : List Endpoint × Option Endpoint) ep =>
    if ep.Address = clusterIngress ∨ ep.Address = "" then (acc.1, some ep)
    else (acc.1 ++ [ep], acc.2)) ([], none)

/-- The function `updateEndpointsForWeightedServices`. -/
def updateEndpointsForWeightedServices (serviceEntry : ServiceEntry)
    (weightedServices : GoMap WeightedService) (clusterIngress : String)
    (meshPorts : GoMap Nat) : ServiceEntry :=
  match splitEndpoints clusterIngress serviceEntry.Endpoints with
  | (_, none) => serviceEntry
  | (endpoints, some endpointToReplace) =>
    let endpoints := weightedServices.foldl (fun (endpoints : List Endpoint) kv =>
      let serviceInstance := kv.2
      if serviceInstance.Weight ≤ 0 then endpoints
      else
        let ep := copyEndpoint endpointToReplace
        endpoints ++ [{ ep with
          Ports := meshPorts
          Address := localFqdnOf serviceInstance.Service
          Weight := uint32 serviceInstance.Weight }]) endpoints
    { serviceEntry with Endpoints := endpoints }

/-! ## The service-entry and destination-rule set of a host -/

/-- The struct `SeDrTuple`.  The destination rule is built by `getDestinationRule`, which
is not among the sources, so its type `DR` is left open. -/
structure SeDrTuple (DR : Type) where
  SeName : String
  DrName : String
  ServiceEntry : ServiceEntry
  DestinationRule : DR
deriving DecidableEq

/-- Modelled from the spec: `common.GetCnameVal` is not among the sources.  The new host
is `<prefix>.<host>`: the parts joined by the separator. -/
def GetCnameVal (vals : List String) : String :=
  Sep.intercalate vals

/-- The function `copyServiceEntry`: a deep copy, which for a value is the value. -/
def copyServiceEntry (se : ServiceEntry) : ServiceEntry := se

/-- The body of the loop over `gtp.Policy` in `createSeAndDrSetFromGtp`, for one policy:
the key and the tuple it stores and the cache afterwards, or `none` when the assignment
`modifiedSe.Addresses[0] = ...` panics because the entry has no address. -/
def seDrForPolicy {DR : Type}
    (getDestinationRule : ServiceEntry → String → Option TrafficPolicy → DR)
    (env region : String) (se : ServiceEntry) (defaultHost : String) (cache : AdmiralCache)
    (gtpTrafficPolicy : TrafficPolicy) : Option (String × SeDrTuple DR × AdmiralCache) :=
  if gtpTrafficPolicy.DnsPrefix ≠ env ∧ gtpTrafficPolicy.DnsPrefix ≠ Default ∧
      gtpTrafficPolicy.Dns ≠ defaultHost then
    let host := GetCnameVal [gtpTrafficPolicy.DnsPrefix, defaultHost]
    let modifiedSe := copyServiceEntry se
    let modifiedSe := { modifiedSe with Hosts := modifiedSe.Hosts.set 0 host }
    match getUniqueAddress cache host with
    | (address, cache) =>
      match modifiedSe.Addresses with
      | [] => none
      | _ :: rest =>
        let modifiedSe := { modifiedSe with Addresses := address :: rest }
        some (host,
          { DrName := getIstioResourceName host "-dr"
            SeName := getIstioResourceName host "-se"
            DestinationRule := getDestinationRule modifiedSe region (some gtpTrafficPolicy)
            ServiceEntry := modifiedSe }, cache)
  else
    some (defaultHost,
      { DrName := getIstioResourceName defaultHost "-default-dr"
        SeName := getIstioResourceName defaultHost "-se"
        DestinationRule := getDestinationRule se region (some gtpTrafficPolicy)
        ServiceEntry := se }, cache)

/-- The loop `for _, gtpTrafficPolicy := range gtp.Policy` of `createSeAndDrSetFromGtp`. -/
def seDrPolicyLoop {DR : Type}
    (getDestinationRule : ServiceEntry → String → Option TrafficPolicy → DR)
    (env region : String) (se : ServiceEntry) (defaultHost : String) :
    List TrafficPolicy → GoMap (SeDrTuple DR) → AdmiralCache →
      Option (GoMap (SeDrTuple DR) × AdmiralCache)
  | [], seDrSet, cache => some (seDrSet, cache)
  | gtpTrafficPolicy :: rest, seDrSet, cache =>
    match seDrForPolicy getDestinationRule env region se defaultHost cache gtpTrafficPolicy with
    | none => none
    | some (host, seDr, cache) =>
      seDrPolicyLoop getDestinationRule env region se defaultHost rest
        (GoMap.insert seDrSet host seDr) cache

/-- The function `createSeAndDrSetFromGtp`: the set and the cache after the call, or
`none` when the call panics (`se.Hosts[0]` on an entry without hosts, or the panic of
`seDrForPolicy`). -/
def createSeAndDrSetFromGtp {DR : Type}
    (getDestinationRule : ServiceEntry → String → Option TrafficPolicy → DR)
    (env region : String) (se : ServiceEntry)
    (globalTrafficPolicy : Option GlobalTrafficPolicy) (cache : AdmiralCache) :
    Option (GoMap (SeDrTuple DR) × AdmiralCache) :=
  match se.Hosts with
  | [] => none
  | defaultHost :: _ =>
    let looped : Option (GoMap (SeDrTuple DR) × AdmiralCache) :=
      match globalTrafficPolicy with
      | none => some ([], cache)
      | some gtp =>
        seDrPolicyLoop getDestinationRule env region se defaultHost gtp.Policy [] cache
    match looped with
    | none => none
    | some (seDrSet, cache) =>
      match GoMap.lookup seDrSet defaultHost with
      | some _ => some (seDrSet, cache)
      | none =>
        some (GoMap.insert seDrSet defaultHost
          { DrName := getIstioResourceName defaultHost "-default-dr"
            SeName := getIstioResourceName defaultHost "-se"
            DestinationRule := getDestinationRule se region none
            ServiceEntry := se }, cache)

/-! ### The same function with its pointers

The definitions above take the service entry as a value, which no assignment to a copy can
change.  The code holds pointers: `modifiedSe` starts as the pointer `se` and is pointed at
the object `copyServiceEntry` makes before the two assignments through it.  The definitions
below keep the pointers, so that the object passed can change, and return it as it is at
the end. -/

/-- A pointer to a service entry as `createSeAndDrSetFromGtp` holds it: the pointer `se`
that was passed, or the pointer to an object that `copyServiceEntry` made, which only its
holder has. -/
inductive SePointer where
  | passed
  | made (object : ServiceEntry)
deriving DecidableEq, Repr

/-- The object a pointer points at, given the object passed as it is now. -/
def SePointer.read (p : SePointer) (passed : ServiceEntry) : ServiceEntry :=
  match p with
  | SePointer.passed => passed
  | SePointer.made object => object

/-- An assignment to a field through a pointer: the pointer and the object passed
afterwards.  Through the pointer `se` it changes the object passed. -/
def SePointer.assign (p : SePointer) (passed : ServiceEntry)
    (f : ServiceEntry → ServiceEntry) : SePointer × ServiceEntry :=
  match p with
  | SePointer.passed => (SePointer.passed, f passed)
  | SePointer.made object => (SePointer.made (f object), passed)

/-- The function `copyServiceEntry` on a pointer: `DeepCopyInto` fills a new object, slices
included, with the content of the object pointed at, and the pointer to it is returned. -/
def copyServiceEntryOf (p : SePointer) (passed : ServiceEntry) : SePointer :=
  SePointer.made (copyServiceEntry (p.read passed))

/-- The struct `SeDrTuple` with the pointer it holds to its service entry. -/
structure SeDrPointers (DR : Type) where
  SeName : String
  DrName : String
  ServiceEntry : SePointer
  DestinationRule : DR
deriving DecidableEq

/-- The tuple read through its pointer. -/
def readSeDr {DR : Type} (t : SeDrPointers DR) (passed : ServiceEntry) :
    SeDrTuple DR :=
  { SeName := t.SeName
    DrName := t.DrName
    ServiceEntry := t.ServiceEntry.read passed
    DestinationRule := t.DestinationRule }

/-- The body of the loop over `gtp.Policy` with its pointers: the key, the tuple, the
object passed and the cache afterwards; `none` is a panic.  `defaultDrName` and
`defaultSeName` were made before the loop; the host is read from the object passed anew. -/
def seDrForPolicyOnPointers {DR : Type}
    (getDestinationRule : ServiceEntry → String → Option TrafficPolicy → DR)
    (env region : String) (defaultDrName defaultSeName : String) (passed : ServiceEntry)
    (cache : AdmiralCache) (gtpTrafficPolicy : TrafficPolicy) :
    Option (String × SeDrPointers DR × ServiceEntry × AdmiralCache) :=
  match passed.Hosts with
  | [] => none
  | host :: _ =>
    if gtpTrafficPolicy.DnsPrefix ≠ env ∧ gtpTrafficPolicy.DnsPrefix ≠ Default ∧
        gtpTrafficPolicy.Dns ≠ host then
      let host := GetCnameVal [gtpTrafficPolicy.DnsPrefix, host]
      let modifiedSe := copyServiceEntryOf SePointer.passed passed
      match modifiedSe.assign passed (fun o => { o with Hosts := o.Hosts.set 0 host }) with
      | (modifiedSe, passed) =>
        match getUniqueAddress cache host with
        | (address, cache) =>
          match (modifiedSe.read passed).Addresses with
          | [] => none
          | _ :: rest =>
            match modifiedSe.assign passed
                (fun o => { o with Addresses := address :: rest }) with
            | (modifiedSe, passed) =>
              some (host,
                { DrName := getIstioResourceName host "-dr"
                  SeName := getIstioResourceName host "-se"
                  DestinationRule :=
                    getDestinationRule (modifiedSe.read passed) region (some gtpTrafficPolicy)
                  ServiceEntry := modifiedSe }, passed, cache)
    else
      some (host,
        { DrName := defaultDrName
          SeName := defaultSeName
          DestinationRule := getDestinationRule passed region (some gtpTrafficPolicy)
          ServiceEntry := SePointer.passed }, passed, cache)

/-- The loop over `gtp.Policy` with its pointers. -/
def seDrPolicyLoopOnPointers {DR : Type}
    (getDestinationRule : ServiceEntry → String → Option TrafficPolicy → DR)
    (env region : String) (defaultDrName defaultSeName : String) :
    List TrafficPolicy → GoMap (SeDrPointers DR) → ServiceEntry → AdmiralCache →
      Option (GoMap (SeDrPointers DR) × ServiceEntry × AdmiralCache)
  | [], seDrSet, passed, cache => some (seDrSet, passed, cache)
  | gtpTrafficPolicy :: rest, seDrSet, passed, cache =>
    match seDrForPolicyOnPointers getDestinationRule env region defaultDrName defaultSeName
        passed cache gtpTrafficPolicy with
    | none => none
    | some (host, seDr, passed, cache) =>
      seDrPolicyLoopOnPointers getDestinationRule env region defaultDrName defaultSeName rest
        (GoMap.insert seDrSet host seDr) passed cache

/-- The function `createSeAndDrSetFromGtp` with its pointers: the set, the object that was
passed as it is when the function returns, and the cache; `none` is a panic. -/
def createSeAndDrSetFromGtpOnPointers {DR : Type}
    (getDestinationRule : ServiceEntry → String → Option TrafficPolicy → DR)
    (env region : String) (se : ServiceEntry)
    (globalTrafficPolicy : Option GlobalTrafficPolicy) (cache : AdmiralCache) :
    Option (GoMap (SeDrPointers DR) × ServiceEntry × AdmiralCache) :=
  match se.Hosts with
  | [] => none
  | defaultHost :: _ =>
    let defaultDrName := getIstioResourceName defaultHost "-default-dr"
    let defaultSeName := getIstioResourceName defaultHost "-se"
    let looped : Option (GoMap (SeDrPointers DR) × ServiceEntry × AdmiralCache) :=
      match globalTrafficPolicy with
      | none => some ([], se, cache)
      | some gtp =>
        seDrPolicyLoopOnPointers getDestinationRule env region defaultDrName defaultSeName
          gtp.Policy [] se cache
    match looped with
    | none => none
    | some (seDrSet, passed, cache) =>
      match passed.Hosts with
      | [] => none
      | host :: _ =>
        match GoMap.lookup seDrSet host with
        | some _ => some (seDrSet, passed, cache)
        | none =>
          some (GoMap.insert seDrSet host
            { DrName := defaultDrName
              SeName := defaultSeName
              DestinationRule := getDestinationRule passed region none
              ServiceEntry := SePointer.passed }, passed, cache)

/-! ## The rollout controller (`rollouts.go`) -/

/-- The method `rolloutCache.Put`. -/
def rolloutCache.Put (cache : GoMap RolloutClusterEntry) (rolloutEntry : RolloutClusterEntry) :
    GoMap RolloutClusterEntry :=
  GoMap.insert cache rolloutEntry.Identity rolloutEntry

/-- The method `rolloutCache.Get`; `none` is nil.  The read `rce.Rollouts[env]` of a nil
map gives nil. -/
def rolloutCache.Get (cache : GoMap RolloutClusterEntry) (key : String) (env : String) :
    Option Rollout :=
  match GoMap.lookup cache key with
  | none => none
  | some rce =>
    match rce.Rollouts with
    | none => none
    | some rollouts => GoMap.lookup rollouts env

/-- The method `rolloutCache.Delete`. -/
def rolloutCache.Delete (cache : GoMap RolloutClusterEntry) (pod : RolloutClusterEntry) :
    GoMap RolloutClusterEntry :=
  GoMap.erase cache pod.Identity

/-- The method `rolloutCache.UpdateRolloutToClusterCache`: the cache afterwards, or `none`
when the assignment `rce.Rollouts[env] = rollout` panics because the entry found under the
key has a nil map.  `GetEnvForRollout` is `common.GetEnvForRollout`, which is not among the
sources.  An entry found under the key is changed where it is and then stored under its
own identity as well; an entry that is made has the map of `make`. -/
def rolloutCache.UpdateRolloutToClusterCache (GetEnvForRollout : Rollout → String)
    (cache : GoMap RolloutClusterEntry) (key : String) (rollout : Rollout) :
    Option (GoMap RolloutClusterEntry) :=
  let env := GetEnvForRollout rollout
  match GoMap.lookup cache key with
  | none =>
    let rce : RolloutClusterEntry := { Identity := key, Rollouts := some [] }
    let rce := { rce with Rollouts := some (GoMap.insert [] env rollout) }
    some (GoMap.insert cache rce.Identity rce)
  | some rce =>
    match rce.Rollouts with
    | none => none
    | some rollouts =>
      let rce := { rce with Rollouts := some (GoMap.insert rollouts env rollout) }
      some (GoMap.insert (GoMap.insert cache key rce) rce.Identity rce)

/-- The method `rolloutCache.DeleteFromRolloutToClusterCache`; the `delete` on a nil map
does nothing. -/
def rolloutCache.DeleteFromRolloutToClusterCache (GetEnvForRollout : Rollout → String)
    (cache : GoMap RolloutClusterEntry) (key : String) (rollout : Rollout) :
    GoMap RolloutClusterEntry :=
  let env := GetEnvForRollout rollout
  match GoMap.lookup cache key with
  | some rce =>
    GoMap.insert cache key
      { rce with Rollouts := rce.Rollouts.map (fun rollouts => GoMap.erase rollouts env) }
  | none => cache

/-- The method `shouldIgnoreBasedOnLabelsForRollout`. -/
def shouldIgnoreBasedOnLabelsForRollout (d : RolloutController) (rollout : Rollout) : Bool :=
  if (GoMap.lookup rollout.TemplateLabels d.labelSet.AdmiralIgnoreLabel).getD "" = "true" then
    true
  else if (GoMap.lookup rollout.TemplateAnnotations d.labelSet.DeploymentAnnotation).getD ""
      ≠ "true" then
    true
  else if (GoMap.lookup rollout.Annotations d.labelSet.AdmiralIgnoreAnnotation).getD ""
      = "true" then
    true
  else
    match GoMap.lookup d.Namespaces rollout.Namespace with
    | none => false
    | some ns =>
      if (GoMap.lookup ns d.labelSet.AdmiralIgnoreAnnotation).getD "" = "true" then true
      else false

/-- A call on the `RolloutHandler`. -/
inductive RolloutEvent where
  | Added (obj : Rollout)
  | Updated (obj : Rollout)
  | Deleted (obj : Rollout)
deriving DecidableEq, Repr

/-- The function `HandleAddUpdateRollout`: the controller afterwards and the calls made on
the handler, or `none` when `UpdateRolloutToClusterCache` panics, which is before the
handler is called.  `GetRolloutGlobalIdentifier` is `common.GetRolloutGlobalIdentifier`,
which gives the key of the cache and is not among the sources. -/
def HandleAddUpdateRollout (GetRolloutGlobalIdentifier GetEnvForRollout : Rollout → String)
    (rollout : Rollout) (roc : RolloutController) :
    Option (RolloutController × List RolloutEvent) :=
  let key := GetRolloutGlobalIdentifier rollout
  if key.length > 0 then
    if !shouldIgnoreBasedOnLabelsForRollout roc rollout then
      match rolloutCache.UpdateRolloutToClusterCache GetEnvForRollout roc.Cache key
          rollout with
      | none => none
      | some cache => some ({ roc with Cache := cache }, [RolloutEvent.Added rollout])
    else
      some ({ roc with
          Cache := rolloutCache.DeleteFromRolloutToClusterCache GetEnvForRollout roc.Cache key
            rollout },
        [])
  else some (roc, [])

/-- The method `RolloutController.Deleted`. -/
def RolloutController.Deleted (GetRolloutGlobalIdentifier GetEnvForRollout : Rollout → String)
    (roc : RolloutController) (rollout : Rollout) : RolloutController × List RolloutEvent :=
  let key := GetRolloutGlobalIdentifier rollout
  if key.length > 0 then
    ({ roc with
        Cache := rolloutCache.DeleteFromRolloutToClusterCache GetEnvForRollout roc.Cache key
          rollout },
      [RolloutEvent.Deleted rollout])
  else (roc, [RolloutEvent.Deleted rollout])

/-! ## The egress hosts of the workload sidecar -/

/-- The function `copySidecar`: a new object with the selector, the ingress and the egress
of the sidecar passed. -/
def copySidecar (sidecar : Sidecar) : Sidecar :=
  { Name := ""
    Namespace := ""
    Spec :=
      { Selector := sidecar.Spec.Selector
        Ingress := sidecar.Spec.Ingress
        Egress := sidecar.Spec.Egress } }

/-- Modelled from the spec: `createSidecarSkeletion` is not among the sources.  It makes
the Sidecar object of a name and namespace around the spec; the result is never nil. -/
def createSidecarSkeletion (spec : SidecarSpec) (name : String) (ns : String) :
    Option Sidecar :=
  some { Name := name, Namespace := ns, Spec := spec }

/-- The function `addUpdateSidecar`: the object it passes to `Update`. -/
def addUpdateSidecar (obj : Sidecar) (exist : Sidecar) : Sidecar :=
  { exist with Labels := obj.Labels, Annotations := obj.Annotations, Spec := obj.Spec }

/-- The first loop of `modifySidecarForLocalClusterCommunication`: the map `egressHosts`. -/
def collectEgressHosts (sidecarEgressMap : GoMap SidecarEgress) : GoMap String :=
  sidecarEgressMap.foldl (fun (egressHosts : GoMap String) kv =>
    let sidecarEgress := kv.2
    let egressHost := sidecarEgress.Namespace ++ "/" ++ sidecarEgress.FQDN
    let egressHosts := GoMap.insert egressHosts egressHost egressHost
    sidecarEgress.CNAMEs.foldl (fun (egressHosts : GoMap String) cname =>
      let scopedCname := sidecarEgress.Namespace ++ "/" ++ cname.1
      GoMap.insert egressHosts scopedCname scopedCname) egressHosts) []

/-- The body of the second loop of `modifySidecarForLocalClusterCommunication` for one
host; `none` is the index panic of `Egress[0]` on an empty slice. -/
def appendEgressHost (egress : Option (List IstioEgressListener)) (egressHost : String) :
    Option (List IstioEgressListener) :=
  match egress with
  | none => none
  | some [] => none
  | some (first :: rest) =>
    if ¬ egressHost ∈ first.Hosts then
      some ({ first with Hosts := first.Hosts ++ [egressHost] } :: rest)
    else some (first :: rest)

/-- What a call of `modifySidecarForLocalClusterCommunication` does: it returns early, it
panics, or it passes a sidecar to `Update`. -/
inductive SidecarOutcome where
  | skipped
  | panicked
  | updated (sidecar : Sidecar)
deriving DecidableEq, Repr

/-- The function `modifySidecarForLocalClusterCommunication`.  `Range` gives the order in
which the loop visits the map `egressHosts`; `workloadSidecarName` is
`common.GetWorkloadSidecarName()`; a nil egress map is `none`. -/
def modifySidecarForLocalClusterCommunication (Range : GoMap String → GoMap String)
    (workloadSidecarName : String) (sidecarNamespace : String)
    (sidecarEgressMap : Option (GoMap SidecarEgress)) (rc : RemoteController) :
    SidecarOutcome :=
  match rc.SidecarController, sidecarEgressMap with
  | none, _ => SidecarOutcome.skipped
  | some _, none => SidecarOutcome.skipped
  | some sidecarConfig, some sidecarEgressMap =>
    match GoMap.lookup sidecarConfig sidecarNamespace with
    | none => SidecarOutcome.skipped
    | some sidecar =>
      match sidecar.Spec.Egress with
      | none => SidecarOutcome.skipped
      | some egress =>
        let newSidecar := copySidecar sidecar
        let egressHosts := collectEgressHosts sidecarEgressMap
        match (Range egressHosts).foldl
            (fun (e : Option (List IstioEgressListener)) kv => appendEgressHost e kv.1)
            (some egress) with
        | none => SidecarOutcome.panicked
        | some egress' =>
          let newSidecar :=
            { newSidecar with Spec := { newSidecar.Spec with Egress := some egress' } }
          match createSidecarSkeletion newSidecar.Spec workloadSidecarName sidecarNamespace with
          | some newSidecarConfig =>
            SidecarOutcome.updated (addUpdateSidecar newSidecarConfig sidecar)
          | none => SidecarOutcome.skipped

/-! ## The writer -/

/-- Modelled from the spec: the method `Delete` of the map-of-maps caches is not among the
sources.  It removes a key with the set under it. -/
def MapOfMaps.Delete (m : GoMap (GoMap String)) (pkey : String) : GoMap (GoMap String) :=
  GoMap.erase m pkey

/-- The struct `RemoteRegistry`: the ids `GetClusterIds()` returns and the controller
`GetRemoteController` returns for an id (nil for an id without binding).  The cache of the
registry is passed to the functions on its own. -/
structure RemoteRegistry where
  ClusterIds : List String
  RemoteControllers : GoMap RemoteController
deriving DecidableEq, Repr

/-- The method `RemoteRegistry.GetRemoteController`. -/
def RemoteRegistry.GetRemoteController (rr : RemoteRegistry) (clusterId : String) :
    Option RemoteController :=
  GoMap.lookup rr.RemoteControllers clusterId

/-- A call of one of the helpers that write to a cluster, none of which is among the
sources: `deleteServiceEntry` and `deleteDestinationRule`, called with the object that
was fetched under the name (nil when there is none), `addUpdateServiceEntry` and
`addUpdateDestinationRule`, called with the skeleton of the name around the spec, with
that object, and, for a service entry, with the labels, and the `Update` of a sidecar. -/
inductive ClusterOp (DR : Type) where
  | deleteServiceEntry (cluster seName : String)
  | deleteDestinationRule (cluster drName : String)
  | addUpdateServiceEntry (cluster seName : String) (spec : ServiceEntry)
      (labels : GoMap String)
  | addUpdateDestinationRule (cluster drName : String) (spec : DR)
  | updateSidecar (cluster : String) (sidecar : Sidecar)
deriving DecidableEq

/-- The functions and settings that the writer and the resolver use and that are not among
the sources.  `GetFromIdentity` is the method of the global traffic cache, as a function
of the calls made on the cache so far; `Range*` give the order in which a loop visits a
map that the code has built; `sortSlice` is `sort.Slice` with the comparator of the
policies; `ReadOnly` is `CurrentAdmiralState.ReadOnly` and `CacheWarmup` is what
`IsCacheWarmupTime` returns. -/
structure Helpers (DR : Type) where
  getDestinationRule : ServiceEntry → String → Option TrafficPolicy → DR
  GetFromIdentity : List GtpCacheOp → String → String → Option GlobalTrafficPolicy
  WorkloadIdentifier : String
  getServiceForDeployment : RemoteController → Deployment → Option Service
  getServiceForRollout : RemoteController → Rollout → GoMap WeightedService
  GetMeshPorts : String → Service → Option Deployment → GoMap Nat
  GetMeshPortsForRollout : String → Service → Option Rollout → GoMap Nat
  GetCname : Deployment → String
  GetCnameForRollout : Rollout → String
  EnableSAN : Bool
  GetSAN : Deployment → String
  GetSANForRollout : Rollout → String
  ConstructGtpKey : String → String → String
  getDependentClusters : GoMap String → GoMap (GoMap String) → GoMap Service → GoMap String
  WorkloadSidecarUpdate : String
  WorkloadSidecarName : String
  RangeServices : GoMap Service → GoMap Service
  RangeEntries : GoMap ServiceEntry → GoMap ServiceEntry
  RangeHosts : GoMap String → GoMap String
  RangeSeDr : GoMap (SeDrTuple DR) → GoMap (SeDrTuple DR)
  RangeGtps : GoMap (List GlobalTrafficPolicy) → GoMap (List GlobalTrafficPolicy)
  sortSlice : List GlobalTrafficPolicy → List GlobalTrafficPolicy
  ReadOnly : Bool
  CacheWarmup : RemoteRegistry → Bool

/-- The first element of `strings.Split(s, ".")`: the text before the first dot. -/
def firstLabel (s : String) : String :=
  String.mk (s.data.takeWhile (fun c => c ≠ '.'))

/-- The body of the loop `for _, seDr := range seDrSet` of `AddServiceEntriesWithDr`: the
calls of the write helpers and the cache afterwards; `none` is the index panic of
`Hosts[0]`.  `createServiceEntrySkeletion` is not among the sources; modelled from the
spec, it makes the object of a name around the spec and is never nil. -/
def writeSeDr {DR : Type} (H : Helpers DR) (identityId : String) (rc : RemoteController)
    (cache : AdmiralCache) (seDr : SeDrTuple DR) :
    Option (List (ClusterOp DR) × AdmiralCache) :=
  if seDr.ServiceEntry.Endpoints.length = 0 then
    match seDr.ServiceEntry.Hosts with
    | [] => none
    | host :: _ =>
      some ([ClusterOp.deleteServiceEntry rc.ClusterID seDr.SeName,
          ClusterOp.deleteDestinationRule rc.ClusterID seDr.DrName],
        { cache with SeClusterCache := MapOfMaps.Delete cache.SeClusterCache host })
  else
    match seDr.ServiceEntry.Hosts with
    | [] => none
    | host :: _ =>
      some ([ClusterOp.addUpdateServiceEntry rc.ClusterID seDr.SeName seDr.ServiceEntry
            [(H.WorkloadIdentifier, identityId)],
          ClusterOp.addUpdateDestinationRule rc.ClusterID seDr.DrName seDr.DestinationRule],
        { cache with
          SeClusterCache := MapOfMaps.Put cache.SeClusterCache host rc.ClusterID rc.ClusterID })

/-- The loop `for _, seDr := range seDrSet` of `AddServiceEntriesWithDr`. -/
def writeSeDrSet {DR : Type} (H : Helpers DR) (identityId : String) (rc : RemoteController) :
    List (String × SeDrTuple DR) → AdmiralCache → Option (List (ClusterOp DR) × AdmiralCache)
  | [], cache => some ([], cache)
  | kv :: rest, cache =>
    match writeSeDr H identityId rc cache kv.2 with
    | none => none
    | some (ops, cache) =>
      match writeSeDrSet H identityId rc rest cache with
      | none => none
      | some (ops', cache) => some (ops ++ ops', cache)

/-- The body of the loop `for _, sourceCluster := range sourceClusters` of
`AddServiceEntriesWithDr`. -/
def writeToCluster {DR : Type} (H : Helpers DR) (rr : RemoteRegistry) (env identityId : String)
    (se : ServiceEntry) (globalTrafficPolicy : Option GlobalTrafficPolicy)
    (sourceCluster : String) (cache : AdmiralCache) :
    Option (List (ClusterOp DR) × AdmiralCache) :=
  match rr.GetRemoteController sourceCluster with
  | none => some ([], cache)
  | some rc =>
    match rc.Locality with
    | none => some ([], cache)
    | some locality =>
      match createSeAndDrSetFromGtp H.getDestinationRule env locality.Region se
          globalTrafficPolicy cache with
      | none => none
      | some (seDrSet, cache) => writeSeDrSet H identityId rc (H.RangeSeDr seDrSet) cache

/-- The loop `for _, sourceCluster := range sourceClusters` of `AddServiceEntriesWithDr`. -/
def writeToClusters {DR : Type} (H : Helpers DR) (rr : RemoteRegistry) (env identityId : String)
    (se : ServiceEntry) (globalTrafficPolicy : Option GlobalTrafficPolicy) :
    List (String × String) → AdmiralCache → Option (List (ClusterOp DR) × AdmiralCache)
  | [], cache => some ([], cache)
  | kv :: rest, cache =>
    match writeToCluster H rr env identityId se globalTrafficPolicy kv.2 cache with
    | none => none
    | some (ops, cache) =>
      match writeToClusters H rr env identityId se globalTrafficPolicy rest cache with
      | none => none
      | some (ops', cache) => some (ops ++ ops', cache)

/-- The body of the loop `for _, se := range serviceEntries` of `AddServiceEntriesWithDr`;
`none` is the index panic of `se.Hosts[0]`. -/
def writeServiceEntry {DR : Type} (H : Helpers DR) (rr : RemoteRegistry)
    (sourceClusters : GoMap String) (se : ServiceEntry) (cache : AdmiralCache) :
    Option (List (ClusterOp DR) × AdmiralCache) :=
  match se.Hosts with
  | [] => none
  | host :: _ =>
    let identityId := (GoMap.lookup cache.CnameIdentityCache host).getD ""
    let env := firstLabel host
    let globalTrafficPolicy := H.GetFromIdentity cache.GlobalTrafficCache identityId env
    writeToClusters H rr env identityId se globalTrafficPolicy sourceClusters cache

/-- The function `AddServiceEntriesWithDr`: the calls of the write helpers, in order, and
the cache afterwards; `none` is a panic. -/
def AddServiceEntriesWithDr {DR : Type} (H : Helpers DR) (rr : RemoteRegistry)
    (sourceClusters : GoMap String) :
    GoMap ServiceEntry → AdmiralCache → Option (List (ClusterOp DR) × AdmiralCache)
  | [], cache => some ([], cache)
  | kv :: rest, cache =>
    match writeServiceEntry H rr sourceClusters kv.2 cache with
    | none => none
    | some (ops, cache) =>
      match AddServiceEntriesWithDr H rr sourceClusters rest cache with
      | none => none
      | some (ops', cache) => some (ops ++ ops', cache)

/-! ## The resolver -/

/-- The function `getSanForDeployment`; nil is the empty list. -/
def getSanForDeployment {DR : Type} (H : Helpers DR) (destDeployment : Deployment) :
    List String :=
  if H.EnableSAN then
    let tmpSan := H.GetSAN destDeployment
    if tmpSan.length > 0 then [H.GetSAN destDeployment] else []
  else []

/-- The function `getSanForRollout`; nil is the empty list. -/
def getSanForRollout {DR : Type} (H : Helpers DR) (destRollout : Rollout) : List String :=
  if H.EnableSAN then
    let tmpSan := H.GetSANForRollout destRollout
    if tmpSan.length > 0 then [H.GetSANForRollout destRollout] else []
  else []

/-- The function `createServiceEntry`: the entry returned (`none` for nil), the map
`serviceEntries` and the cache afterwards. -/
def createServiceEntry {DR : Type} (H : Helpers DR) (event : EventType)
    (rc : RemoteController) (admiralCache : AdmiralCache) (meshPorts : GoMap Nat)
    (destDeployment : Deployment) (serviceEntries : GoMap ServiceEntry) :
    Option ServiceEntry × GoMap ServiceEntry × AdmiralCache :=
  let globalFqdn := H.GetCname destDeployment
  match getUniqueAddress admiralCache globalFqdn with
  | (address, admiralCache) =>
    if globalFqdn.length = 0 ∨ address.length = 0 then (none, serviceEntries, admiralCache)
    else
      let san := getSanForDeployment H destDeployment
      match generateServiceEntry event admiralCache meshPorts globalFqdn rc serviceEntries
          address san with
      | (tmpSe, serviceEntries, admiralCache) => (some tmpSe, serviceEntries, admiralCache)

/-- The function `createServiceEntryForRollout`. -/
def createServiceEntryForRollout {DR : Type} (H : Helpers DR) (event : EventType)
    (rc : RemoteController) (admiralCache : AdmiralCache) (meshPorts : GoMap Nat)
    (destRollout : Rollout) (serviceEntries : GoMap ServiceEntry) :
    Option ServiceEntry × GoMap ServiceEntry × AdmiralCache :=
  let globalFqdn := H.GetCnameForRollout destRollout
  match getUniqueAddress admiralCache globalFqdn with
  | (address, admiralCache) =>
    if globalFqdn.length = 0 ∨ address.length = 0 then (none, serviceEntries, admiralCache)
    else
      let san := getSanForRollout H destRollout
      let preview : GoMap ServiceEntry × AdmiralCache :=
        match destRollout.BlueGreen with
        | none => (serviceEntries, admiralCache)
        | some blueGreen =>
          if blueGreen.PreviewService ≠ "" then
            let rolloutServices := H.getServiceForRollout rc destRollout
            match GoMap.lookup rolloutServices blueGreen.PreviewService with
            | none => (serviceEntries, admiralCache)
            | some _ =>
              let previewGlobalFqdn :=
                BlueGreenRolloutPreviewPrefix ++ Sep ++ H.GetCnameForRollout destRollout
              match getUniqueAddress admiralCache previewGlobalFqdn with
              | (previewAddress, admiralCache) =>
                if previewGlobalFqdn.length ≠ 0 ∧ previewAddress.length ≠ 0 then
                  match generateServiceEntry event admiralCache meshPorts previewGlobalFqdn rc
                      serviceEntries previewAddress san with
                  | (_, serviceEntries, admiralCache) => (serviceEntries, admiralCache)
                else (serviceEntries, admiralCache)
          else (serviceEntries, admiralCache)
      match generateServiceEntry event preview.2 meshPorts globalFqdn rc preview.1
          address san with
      | (tmpSe, serviceEntries, admiralCache) => (some tmpSe, serviceEntries, admiralCache)

/-- The function `isBlueGreenStrategy`: a rollout whose strategy has a blue-green part. -/
def isBlueGreenStrategy (rollout : Option Rollout) : Bool :=
  match rollout with
  | some r => r.BlueGreen.isSome
  | none => false

/-- The variables of `modifyServiceEntryForNewServiceOrPod` that its first loop reads and
writes; they are declared before the loop and so keep their values from one cluster to
the next. -/
structure ResolveState where
  serviceEntries : GoMap ServiceEntry := []
  cname : String := ""
  cnames : GoMap String := []
  serviceInstance : Option Service := none
  weightedServices : GoMap WeightedService := []
  rollout : Option Rollout := none
  deployment : Option Deployment := none
  gtps : GoMap (List GlobalTrafficPolicy) := []
  ns : String := ""
  sourceServices : GoMap Service := []
  sourceWeightedServices : GoMap (GoMap WeightedService) := []
  sourceDeployments : GoMap Deployment := []
  sourceRollouts : GoMap Rollout := []
  cache : AdmiralCache
deriving DecidableEq, Repr

/-- Modelled from the spec: the method `Get` of the deployment cache is not among the
sources; like the rollout cache it maps an identity and an env to a deployment. -/
def deploymentCacheGet (cache : GoMap (GoMap Deployment)) (key env : String) :
    Option Deployment :=
  match GoMap.lookup cache key with
  | none => none
  | some m => GoMap.lookup m env

/-- The end of the body of the first loop, from the lookup of the policies on. -/
def recordSource {DR : Type} (H : Helpers DR) (env sourceIdentity : String)
    (rc : RemoteController) (serviceInstance : Service) (st : ResolveState) : ResolveState :=
  let gtpKey := H.ConstructGtpKey env sourceIdentity
  let gtpsInNamespace :=
    ((GoMap.lookup rc.GlobalTraffic gtpKey).bind (fun m => GoMap.lookup m st.ns)).getD []
  let gtps :=
    if gtpsInNamespace.length > 0 then GoMap.insert st.gtps rc.ClusterID gtpsInNamespace
    else st.gtps
  let cache := { st.cache with
    CnameClusterCache :=
      MapOfMaps.Put st.cache.CnameClusterCache st.cname rc.ClusterID rc.ClusterID
    CnameIdentityCache := GoMap.insert st.cache.CnameIdentityCache st.cname sourceIdentity }
  { st with
    gtps := gtps
    cache := cache
    sourceServices := GoMap.insert st.sourceServices rc.ClusterID serviceInstance
    sourceWeightedServices :=
      GoMap.insert st.sourceWeightedServices rc.ClusterID st.weightedServices }

/-- The body of the first loop of `modifyServiceEntryForNewServiceOrPod`, for one cluster
id. -/
def resolveCluster {DR : Type} (H : Helpers DR) (event : EventType)
    (env sourceIdentity : String) (rr : RemoteRegistry) (st : ResolveState)
    (clusterId : String) : ResolveState :=
  match rr.GetRemoteController clusterId with
  | none => st
  | some rc =>
    let st :=
      match rc.DeploymentController with
      | some cache => { st with deployment := deploymentCacheGet cache sourceIdentity env }
      | none => st
    let st :=
      match rc.RolloutController with
      | some roc => { st with rollout := rolloutCache.Get roc.Cache sourceIdentity env }
      | none => st
    match st.deployment, st.rollout with
    | some deployment, _ =>
      let st := { st with cache := { st.cache with
        IdentityClusterCache :=
          MapOfMaps.Put st.cache.IdentityClusterCache sourceIdentity rc.ClusterID
            rc.ClusterID } }
      let st := { st with serviceInstance := H.getServiceForDeployment rc deployment }
      match st.serviceInstance with
      | none => st
      | some serviceInstance =>
        let localMeshPorts := H.GetMeshPorts rc.ClusterID serviceInstance (some deployment)
        let st := { st with
          ns := deployment.Namespace
          cname := H.GetCname deployment
          sourceDeployments := GoMap.insert st.sourceDeployments rc.ClusterID deployment }
        match createServiceEntry H event rc st.cache localMeshPorts deployment
            st.serviceEntries with
        | (_, serviceEntries, cache) =>
          recordSource H env sourceIdentity rc serviceInstance
            { st with serviceEntries := serviceEntries, cache := cache }
    | none, some rollout =>
      let st := { st with cache := { st.cache with
        IdentityClusterCache :=
          MapOfMaps.Put st.cache.IdentityClusterCache sourceIdentity rc.ClusterID
            rc.ClusterID } }
      let st := { st with weightedServices := H.getServiceForRollout rc rollout }
      match st.weightedServices with
      | [] => st
      | sInstance :: _ =>
        let serviceInstance := sInstance.2.Service
        let localMeshPorts :=
          H.GetMeshPortsForRollout rc.ClusterID serviceInstance (some rollout)
        let st := { st with
          serviceInstance := some serviceInstance
          ns := rollout.Namespace
          cname := H.GetCnameForRollout rollout
          cnames := GoMap.insert st.cnames (H.GetCnameForRollout rollout) "1"
          sourceRollouts := GoMap.insert st.sourceRollouts rc.ClusterID rollout }
        match createServiceEntryForRollout H event rc st.cache localMeshPorts rollout
            st.serviceEntries with
        | (_, serviceEntries, cache) =>
          recordSource H env sourceIdentity rc serviceInstance
            { st with serviceEntries := serviceEntries, cache := cache }
    | none, none => st

/-- The service entry with the endpoint at index `i` replaced: a write through the pointer
`ep` that the slice `Endpoints` holds at that index. -/
def setEndpoint (se : ServiceEntry) (i : Nat) (ep : Endpoint) : ServiceEntry :=
  { se with Endpoints := se.Endpoints.set i ep }

/-- What the loops over the source clusters carry along: the shared service entry being
visited, the set `cnames`, the cache and the calls made on the clusters so far. -/
structure RewriteState (DR : Type) where
  serviceEntry : ServiceEntry
  cnames : GoMap String
  cache : AdmiralCache
  ops : List (ClusterOp DR)

/-- The write of the one entry `key: se` to the one cluster `sourceCluster`, as the three
branches of the rewrite call `AddServiceEntriesWithDr`; `shared` is the shared entry as
the call leaves it. -/
def writeToSource {DR : Type} (H : Helpers DR) (rr : RemoteRegistry)
    (sourceCluster key : String) (se shared : ServiceEntry) (cnames : GoMap String)
    (st : RewriteState DR) : Option (RewriteState DR) :=
  match AddServiceEntriesWithDr H rr [(sourceCluster, sourceCluster)] [(key, se)]
      st.cache with
  | none => none
  | some (ops, cache) =>
    some { serviceEntry := shared, cnames := cnames, cache := cache, ops := st.ops ++ ops }

/-- The body of the loop `for _, ep := range serviceEntry.Endpoints` of
`modifyServiceEntryForNewServiceOrPod`, for the endpoint at index `i`; `none` is a panic.
The entry is written while the endpoint holds the rewritten address and ports, and the
state afterwards holds the endpoint as the two assignments after the write leave it. -/
def rewriteEndpoint {DR : Type} (H : Helpers DR) (rr : RemoteRegistry)
    (sourceCluster clusterIngress localFqdn : String) (meshPorts : GoMap Nat)
    (blueGreenStrategy : Bool) (rollout : Option Rollout)
    (weightedServices : GoMap WeightedService) (key : String) (st : RewriteState DR)
    (i : Nat) : Option (RewriteState DR) :=
  match st.serviceEntry.Endpoints.get? i with
  | none => some st
  | some ep =>
    if ep.Address = clusterIngress ∨ ep.Address = "" then
      if blueGreenStrategy then
        let oldPorts := ep.Ports
        match rollout with
        | none => none
        | some r =>
          match updateEndpointsForBlueGreen
              (fun c s ro => H.GetMeshPortsForRollout c s (some ro)) r weightedServices
              st.cnames ep sourceCluster key with
          | none => none
          | some (cnames, ep) =>
            writeToSource H rr sourceCluster key (setEndpoint st.serviceEntry i ep)
              (setEndpoint st.serviceEntry i
                { ep with Address := clusterIngress, Ports := oldPorts })
              cnames st
      else if weightedServices.length > 1 then
        let se := copyServiceEntry st.serviceEntry
        let se := updateEndpointsForWeightedServices se weightedServices clusterIngress
          meshPorts
        writeToSource H rr sourceCluster key se st.serviceEntry st.cnames st
      else
        let oldPorts := ep.Ports
        let ep := { ep with Address := localFqdn, Ports := meshPorts }
        writeToSource H rr sourceCluster key (setEndpoint st.serviceEntry i ep)
          (setEndpoint st.serviceEntry i
            { ep with Address := clusterIngress, Ports := oldPorts })
          st.cnames st
    else some st

/-- The loop over the endpoints of one entry: the indices of the slice in order. -/
def rewriteEndpoints {DR : Type} (H : Helpers DR) (rr : RemoteRegistry)
    (sourceCluster clusterIngress localFqdn : String) (meshPorts : GoMap Nat)
    (blueGreenStrategy : Bool) (rollout : Option Rollout)
    (weightedServices : GoMap WeightedService) (key : String) :
    List Nat → RewriteState DR → Option (RewriteState DR)
  | [], st => some st
  | i :: rest, st =>
    match rewriteEndpoint H rr sourceCluster clusterIngress localFqdn meshPorts
        blueGreenStrategy rollout weightedServices key st i with
    | none => none
    | some st =>
      rewriteEndpoints H rr sourceCluster clusterIngress localFqdn meshPorts
        blueGreenStrategy rollout weightedServices key rest st

/-- The body of the loop `for key, serviceEntry := range serviceEntries`: an entry without
endpoints is written as it is, then every endpoint is visited.  A nil controller `rc`
panics at `rc.ServiceController`. -/
def rewriteEntry {DR : Type} (H : Helpers DR) (rr : RemoteRegistry)
    (sourceCluster : String) (rc : Option RemoteController) (localFqdn : String)
    (meshPorts : GoMap Nat) (blueGreenStrategy : Bool) (rollout : Option Rollout)
    (weightedServices : GoMap WeightedService) (key : String) (st : RewriteState DR) :
    Option (RewriteState DR) :=
  let first :=
    if st.serviceEntry.Endpoints.length = 0 then
      writeToSource H rr sourceCluster key st.serviceEntry st.serviceEntry st.cnames st
    else some st
  match first, rc with
  | none, _ => none
  | some _, none => none
  | some st, some rc =>
    let clusterIngress := rc.LoadBalancer.1
    rewriteEndpoints H rr sourceCluster clusterIngress localFqdn meshPorts
      blueGreenStrategy rollout weightedServices key
      (List.range st.serviceEntry.Endpoints.length) st

/-- What the second loop carries along: the shared entries, the set `cnames`, the cache
and the calls made on the clusters so far. -/
structure SourceState (DR : Type) where
  serviceEntries : GoMap ServiceEntry
  cnames : GoMap String
  cache : AdmiralCache
  ops : List (ClusterOp DR)

/-- The loop `for key, serviceEntry := range serviceEntries` for one source cluster, over
the keys in the order of the visit; the entry of a key is the shared one, as the visits
before left it. -/
def rewriteEntries {DR : Type} (H : Helpers DR) (rr : RemoteRegistry)
    (sourceCluster : String) (rc : Option RemoteController) (localFqdn : String)
    (meshPorts : GoMap Nat) (blueGreenStrategy : Bool) (rollout : Option Rollout)
    (weightedServices : GoMap WeightedService) :
    List String → SourceState DR → Option (SourceState DR)
  | [], st => some st
  | key :: rest, st =>
    match GoMap.lookup st.serviceEntries key with
    | none =>
      rewriteEntries H rr sourceCluster rc localFqdn meshPorts blueGreenStrategy rollout
        weightedServices rest st
    | some serviceEntry =>
      match rewriteEntry H rr sourceCluster rc localFqdn meshPorts blueGreenStrategy
          rollout weightedServices key
          { serviceEntry := serviceEntry, cnames := st.cnames, cache := st.cache,
            ops := st.ops } with
      | none => none
      | some r =>
        rewriteEntries H rr sourceCluster rc localFqdn meshPorts blueGreenStrategy rollout
          weightedServices rest
          { serviceEntries := GoMap.insert st.serviceEntries key r.serviceEntry,
            cnames := r.cnames, cache := r.cache, ops := r.ops }

/-- Modelled from the spec: the method `Put` of `DependencyNamespaceCache` is not among
the sources.  It stores, under the identity and the namespace, the egress entry of the
namespace, the local name and a copy of the cnames. -/
def SidecarEgressMap.Put (m : GoMap (GoMap SidecarEgress)) (identity ns fqdn : String)
    (cnames : GoMap String) : GoMap (GoMap SidecarEgress) :=
  GoMap.insert m identity
    (GoMap.insert ((GoMap.lookup m identity).getD []) ns
      { Namespace := ns, FQDN := fqdn, CNAMEs := cnames })

/-- The body of the second loop of `modifyServiceEntryForNewServiceOrPod`, for one source
cluster and its service; `none` is a panic. -/
def rewriteForSource {DR : Type} (H : Helpers DR) (sourceIdentity : String)
    (rr : RemoteRegistry) (rs : ResolveState) (dependents : GoMap String)
    (st : SourceState DR) (source : String × Service) : Option (SourceState DR) :=
  let sourceCluster := source.1
  let serviceInstance := source.2
  let localFqdn := serviceInstance.Name ++ Sep ++ serviceInstance.Namespace ++
    DotLocalDomainSuffix
  let rc := rr.GetRemoteController sourceCluster
  let blueGreenStrategy := isBlueGreenStrategy (GoMap.lookup rs.sourceRollouts sourceCluster)
  let meshPorts :=
    if rs.sourceDeployments.length > 0 then
      H.GetMeshPorts sourceCluster serviceInstance
        (GoMap.lookup rs.sourceDeployments sourceCluster)
    else
      H.GetMeshPortsForRollout sourceCluster serviceInstance
        (GoMap.lookup rs.sourceRollouts sourceCluster)
  match rewriteEntries H rr sourceCluster rc localFqdn meshPorts blueGreenStrategy
      (GoMap.lookup rs.sourceRollouts sourceCluster)
      ((GoMap.lookup rs.sourceWeightedServices sourceCluster).getD [])
      (GoMap.keys (H.RangeEntries st.serviceEntries)) st with
  | none => none
  | some st =>
    let sidecar : Option (List (ClusterOp DR)) :=
      if H.WorkloadSidecarUpdate = "enabled" then
        match rc with
        | none => none
        | some rc =>
          match modifySidecarForLocalClusterCommunication H.RangeHosts H.WorkloadSidecarName
              serviceInstance.Namespace
              (GoMap.lookup st.cache.DependencyNamespaceCache sourceIdentity) rc with
          | SidecarOutcome.skipped => some []
          | SidecarOutcome.panicked => none
          | SidecarOutcome.updated sidecar => some [ClusterOp.updateSidecar rc.ClusterID sidecar]
      else some []
    match sidecar with
    | none => none
    | some ops =>
      let cache := (H.RangeHosts dependents).foldl (fun (cache : AdmiralCache) kv =>
        let egress := SidecarEgressMap.Put cache.DependencyNamespaceCache kv.2
          serviceInstance.Namespace localFqdn st.cnames
        { cache with DependencyNamespaceCache := egress }) st.cache
      some { st with cache := cache, ops := st.ops ++ ops }

/-- The second loop of `modifyServiceEntryForNewServiceOrPod`. -/
def rewriteForSources {DR : Type} (H : Helpers DR) (sourceIdentity : String)
    (rr : RemoteRegistry) (rs : ResolveState) (dependents : GoMap String) :
    List (String × Service) → SourceState DR → Option (SourceState DR)
  | [], st => some st
  | source :: rest, st =>
    match rewriteForSource H sourceIdentity rr rs dependents st source with
    | none => none
    | some st => rewriteForSources H sourceIdentity rr rs dependents rest st

/-- The function `modifyServiceEntryForNewServiceOrPod`: the map it returns (`none` for
nil), the calls it made on the clusters and the cache afterwards; the outer `none` is a
panic.  The cache of the registry is the argument `cache`. -/
def modifyServiceEntryForNewServiceOrPod {DR : Type} (H : Helpers DR) (event : EventType)
    (env sourceIdentity : String) (rr : RemoteRegistry) (cache : AdmiralCache) :
    Option (Option (GoMap ServiceEntry) × List (ClusterOp DR) × AdmiralCache) :=
  if H.ReadOnly then some (none, [], cache)
  else if H.CacheWarmup rr then some (none, [], cache)
  else
    let rs := rr.ClusterIds.foldl (resolveCluster H event env sourceIdentity rr)
      { cache := cache }
    let calls := rs.cache.GlobalTrafficCache ++
      updateGlobalGtpCache H.sortSlice sourceIdentity env (H.RangeGtps rs.gtps)
    let cache := { rs.cache with GlobalTrafficCache := calls }
    let dependents := (GoMap.lookup cache.IdentityDependencyCache sourceIdentity).getD []
    match rewriteForSources H sourceIdentity rr rs dependents
        (H.RangeServices rs.sourceServices)
        { serviceEntries := rs.serviceEntries, cnames := rs.cnames, cache := cache,
          ops := [] } with
    | none => none
    | some st =>
      let dependentClusters :=
        H.getDependentClusters dependents st.cache.IdentityClusterCache rs.sourceServices
      let cache := (GoMap.keys dependentClusters).foldl (fun (cache : AdmiralCache) clusterId =>
        let clusters := MapOfMaps.Put cache.CnameDependentClusterCache rs.cname clusterId
          clusterId
        { cache with CnameDependentClusterCache := clusters }) st.cache
      match AddServiceEntriesWithDr H rr dependentClusters st.serviceEntries cache with
      | none => none
      | some (ops, cache) => some (some st.serviceEntries, st.ops ++ ops, cache)

/-! ## Auxiliary definitions of the proofs -/

/-- The number a list of decimal digits stands for, most significant digit first. -/
def decimalValue (l : List Char) : Nat :=
  l.foldl (fun a c => a * 10 + (c.toNat - 48)) 0


/-- The indices the scan holds in round `k` when round `0` holds `(0, 0)`. -/
def indexAt (k : Nat) : Nat × Nat := (k / 256, k % 256)

/-- The address the scan tests in round `j` when it starts from the indices `p`. -/
def candidate (pfx : String) (p : Nat × Nat) (j : Nat) : String :=
  renderAddress pfx (nextIndex^[j] p).1 (nextIndex^[j] p).2

/-- Every fetch and every write that is still to come succeeds. -/
def NoFailures (c : ConfigMapController) : Prop :=
  (∀ e ∈ c.GetErrors, e = none) ∧ (∀ e ∈ c.PutErrors, e = none)

/-- Every fetch that is still to come succeeds. -/
def GetsSucceed (c : ConfigMapController) : Prop :=
  ∀ e ∈ c.GetErrors, e = none

/-- The next fetch succeeds. -/
def NextGetSucceeds (c : ConfigMapController) : Prop :=
  ∀ e rest, c.GetErrors ≠ some e :: rest

/-- A store as the allocator leaves it: the map has one binding per key, its values are
the address list, in order, and no address occurs twice. -/
def StoreInv (st : ServiceEntryAddressStore) : Prop :=
  (GoMap.keys st.EntryAddresses).Nodup ∧ GoMap.values st.EntryAddresses = st.Addresses ∧
    st.Addresses.Nodup

/-- A run of `GenerateNewAddressAndAddToConfigMap`, one call per name, each against the
controller the call before left: the name, address and error of every call, and the
controller at the end. -/
def allocateAll : List String → ConfigMapController →
    List (String × String × GoError) × ConfigMapController
  | [], c => ([], c)
  | seName :: rest, c =>
    match GenerateNewAddressAndAddToConfigMap seName c with
    | ((address, err), c1) =>
      ((seName, address, err) :: (allocateAll rest c1).1, (allocateAll rest c1).2)

/-- A controller over an empty address store, with no failure scheduled. -/
def emptyController : ConfigMapController :=
  { IPPrefix := "240.0", Server := { Data := some { EntryAddresses := [], Addresses := [] } } }

/-- A store whose only address is the one the allocator would try next. -/
def crowdedStore : ServiceEntryAddressStore :=
  { EntryAddresses := [("a-se", "240.0.10.2")], Addresses := ["240.0.10.2"] }

/-- A controller over `crowdedStore`. -/
def crowdedController : ConfigMapController :=
  { IPPrefix := "240.0", Server := { Data := some crowdedStore } }

/-- The controller `crowdedController` after a second name has been given an address. -/
def crowdedControllerAfter : ConfigMapController :=
  { IPPrefix := "240.0"
    Server := ⟨some ⟨[("a-se", "240.0.10.2"), ("b-se", "240.0.10.3")],
      ["240.0.10.2", "240.0.10.3"]⟩⟩ }

/-- The in-memory store holds only bindings of the store in the ConfigMap: it is only ever
loaded from the ConfigMap, whose bindings the allocator neither changes nor removes. -/
def CacheCoherent (cache : AdmiralCache) : Prop :=
  ∀ st, cache.ConfigMapController.Server.Data = some st →
    ∀ k v, GoMap.lookup cache.ServiceEntryAddressStore.EntryAddresses k = some v →
      v.length ≠ 0 → GoMap.lookup st.EntryAddresses k = some v

/-- A cache whose in-memory store is still empty, over the controller `crowdedController`. -/
def coldCache : AdmiralCache :=
  { ServiceEntryAddressStore := { EntryAddresses := [], Addresses := [] }
    ConfigMapController := crowdedController }

/-- A cache over an empty address store whose first fetch fails and whose later fetches
succeed. -/
def flakyCache : AdmiralCache :=
  { ServiceEntryAddressStore := { EntryAddresses := [], Addresses := [] }
    ConfigMapController :=
      { IPPrefix := "240.0"
        Server := ⟨some ⟨[], []⟩⟩
        GetErrors := [some "timeout"] } }

/-- The three policies of the selection example, with the priority under the label
`priority`. -/
def gtpA : GlobalTrafficPolicy :=
  { Name := "A", Labels := [("priority", "5")], CreationTimestamp := 1 }

/-- The second policy of the selection example. -/
def gtpB : GlobalTrafficPolicy :=
  { Name := "B", Labels := [("priority", "10")], CreationTimestamp := 0 }

/-- The third policy of the selection example. -/
def gtpC : GlobalTrafficPolicy :=
  { Name := "C", Labels := [("priority", "10")], CreationTimestamp := 2 }

/-- The test of both loops over endpoints: the address is the cluster ingress or empty. -/
def matchesIngress (clusterIngress : String) (ep : Endpoint) : Bool :=
  decide (ep.Address = clusterIngress ∨ ep.Address = "")

/-- The endpoint `updateEndpointsForWeightedServices` makes for one weighted service out of
the endpoint it replaces. -/
def weightedEndpoint (replaced : Endpoint) (meshPorts : GoMap Nat) (ws : WeightedService) :
    Endpoint :=
  { replaced with
    Ports := meshPorts
    Address := ws.Service.Name ++ Sep ++ ws.Service.Namespace ++ DotLocalDomainSuffix
    Weight := ws.Weight.toNat }

/-- A service entry with an endpoint in another cluster and one at the ingress `10.0.0.1`
of the source cluster. -/
def canarySe : ServiceEntry :=
  { Hosts := ["stage.foo.global"]
    Addresses := ["240.0.10.1"]
    Endpoints :=
      [{ Address := "10.9.9.9", Ports := [("http", 15443)], Locality := "us-east-2" },
       { Address := "10.0.0.1", Ports := [("http", 15443)], Locality := "us-west-2" }] }

/-- The weighted services of the canary example, with a third service of weight `0`. -/
def canaryServices : GoMap WeightedService :=
  [("stable", { Weight := 80, Service := { Name := "stable", Namespace := "ns" } }),
   ("old", { Weight := 0, Service := { Name := "old", Namespace := "ns" } }),
   ("canary", { Weight := 20, Service := { Name := "canary", Namespace := "ns" } })]

/-- A mesh-port function for the examples: every service has the one port `http: 8080`. -/
def exampleMeshPorts (_ : String) (_ : Service) (_ : Rollout) : GoMap Nat :=
  [("http", 8080)]

/-- A rollout with the active service `foo-a` and the preview service `foo-p`. -/
def blueGreenRollout : Rollout :=
  { Name := "foo", Namespace := "ns"
    BlueGreen := some { ActiveService := "foo-a", PreviewService := "foo-p" } }

/-- The services of `blueGreenRollout` when both exist in the cluster. -/
def blueGreenServices : GoMap WeightedService :=
  [("foo-a", { Weight := 1, Service := { Name := "foo-a", Namespace := "ns" } }),
   ("foo-p", { Weight := 1, Service := { Name := "foo-p", Namespace := "ns" } })]

/-- The services of `blueGreenRollout` when only the preview service exists. -/
def previewOnlyServices : GoMap WeightedService :=
  [("foo-p", { Weight := 1, Service := { Name := "foo-p", Namespace := "ns" } })]

/-- An endpoint at the ingress `10.0.0.1`. -/
def ingressEndpoint : Endpoint :=
  { Address := "10.0.0.1", Ports := [("http", 15443)], Locality := "us-west-2" }

/-- The protocol `generateServiceEntry` ends its loop over the mesh ports with: the key
visited last, or `http` for an empty map. -/
def finalProtocolOf (meshPorts : GoMap Nat) : String :=
  match meshPorts.getLast? with
  | some kv => kv.1
  | none => Http

/-- The endpoint `generateServiceEntry` makes for the cluster of the remote controller. -/
def clusterEndpoint (rc : RemoteController) (meshPorts : GoMap Nat) : Endpoint :=
  makeRemoteEndpointForServiceEntry rc.LoadBalancer.1
    (match rc.Locality with
      | some l => l.Region
      | none => "")
    (finalProtocolOf meshPorts) rc.LoadBalancer.2

/-- The endpoints of the entry under a key, none when the key has no entry. -/
def endpointsUnder (serviceEntries : GoMap ServiceEntry) (globalFqdn : String) :
    List Endpoint :=
  match GoMap.lookup serviceEntries globalFqdn with
  | some se => se.Endpoints
  | none => []

/-- A cache for the examples of `generateServiceEntry`. -/
def plainCache : AdmiralCache :=
  { ServiceEntryAddressStore := { EntryAddresses := [], Addresses := [] }
    ConfigMapController := emptyController }

/-- A cluster in `us-west-2` with the ingress `10.0.0.1:15443`. -/
def westCluster : RemoteController :=
  { ClusterID := "west", LoadBalancer := ("10.0.0.1", 15443), Locality := some ⟨"us-west-2"⟩ }

/-- A cluster in `us-east-2` with the ingress `10.9.9.9:15443`. -/
def eastCluster : RemoteController :=
  { ClusterID := "east", LoadBalancer := ("10.9.9.9", 15443), Locality := some ⟨"us-east-2"⟩ }

/-- The port list of a new service entry for a protocol. -/
def portsFor (protocol : String) : List Port :=
  [{ Number := DefaultServiceEntryPort, Name := protocol, Protocol := protocol }]

/-- The entry `generateServiceEntry` starts from: the one under the key, or a new one. -/
def baseEntry (serviceEntries : GoMap ServiceEntry) (globalFqdn : String)
    (meshPorts : GoMap Nat) (address : String) (san : List String) : ServiceEntry :=
  match GoMap.lookup serviceEntries globalFqdn with
  | some se => se
  | none =>
    { Hosts := [globalFqdn]
      Ports := portsFor (finalProtocolOf meshPorts)
      Location := Location.MESH_INTERNAL
      Resolution := Resolution.DNS
      Addresses := [address]
      SubjectAltNames := san
      Endpoints := [] }

/-- The entries of a reconciliation after the east cluster has been handled. -/
def eastEntries : GoMap ServiceEntry :=
  (generateServiceEntry EventType.Add plainCache [("http", 8080)] "stage.foo.global"
    eastCluster [] "240.0.10.1" []).2.1

/-- The tuple `createSeAndDrSetFromGtp` stores for the default host when no policy took
its place. -/
def defaultSeDr {DR : Type}
    (getDestinationRule : ServiceEntry → String → Option TrafficPolicy → DR)
    (region : String) (se : ServiceEntry) (defaultHost : String) : SeDrTuple DR :=
  { SeName := defaultHost ++ "-se"
    DrName := defaultHost ++ "-default-dr"
    ServiceEntry := se
    DestinationRule := getDestinationRule se region none }

/-- The test of `createSeAndDrSetFromGtp` that sends a policy to a host of its own. -/
def opensNewHost (env defaultHost : String) (p : TrafficPolicy) : Prop :=
  p.DnsPrefix ≠ env ∧ p.DnsPrefix ≠ Default ∧ p.Dns ≠ defaultHost

/-- A stand-in for `getDestinationRule` in the examples: the region and the dns prefix of
the policy. -/
def exampleDestinationRule (_ : ServiceEntry) (region : String) (p : Option TrafficPolicy) :
    String × Option String :=
  (region, p.map (fun q => q.DnsPrefix))

/-- A policy set with one policy, for the dns prefix `canary`. -/
def canaryGtp : GlobalTrafficPolicy :=
  { Name := "gtp", Policy := [{ Dns := "", DnsPrefix := "canary" }] }

/-- A store whose map has a binding that its address list lacks: every store written from
it fails the validation. -/
def lopsidedStore : ServiceEntryAddressStore :=
  { EntryAddresses := [("a-se", "240.0.10.1")], Addresses := [] }

/-- A cache with an empty in-memory store over a ConfigMap that holds `lopsidedStore`. -/
def lopsidedCache : AdmiralCache :=
  { ServiceEntryAddressStore := { EntryAddresses := [], Addresses := [] }
    ConfigMapController := { IPPrefix := "240.0", Server := ⟨some lopsidedStore⟩ } }

/-- The tuple `createSeAndDrSetFromGtp` stores for a host that a policy opens: the names
`<host>-se` and `<host>-dr`, and the service entry with the host and the address in the
first places. -/
def newHostSeDr {DR : Type}
    (getDestinationRule : ServiceEntry → String → Option TrafficPolicy → DR)
    (region : String) (se : ServiceEntry) (host address : String) (q : TrafficPolicy) :
    SeDrTuple DR :=
  { SeName := host ++ "-se"
    DrName := host ++ "-dr"
    ServiceEntry :=
      { se with Hosts := se.Hosts.set 0 host, Addresses := address :: se.Addresses.tail }
    DestinationRule :=
      getDestinationRule
        { se with Hosts := se.Hosts.set 0 host, Addresses := address :: se.Addresses.tail }
        region (some q) }

/-- The tuple `createSeAndDrSetFromGtp` stores for the default host on behalf of a policy
that is applied to it. -/
def policySeDr {DR : Type}
    (getDestinationRule : ServiceEntry → String → Option TrafficPolicy → DR)
    (region : String) (se : ServiceEntry) (defaultHost : String) (q : TrafficPolicy) :
    SeDrTuple DR :=
  { SeName := defaultHost ++ "-se"
    DrName := defaultHost ++ "-default-dr"
    ServiceEntry := se
    DestinationRule := getDestinationRule se region (some q) }

/-- A binding of the set that the loop over the policies `U` can have made: the tuple of a
policy applied to the default host, under that host, or the tuple of a policy that opens a
host, under the host it opens, with an address that `getUniqueAddress` returned for it. -/
def ValidSeDr {DR : Type}
    (getDestinationRule : ServiceEntry → String → Option TrafficPolicy → DR)
    (env region : String) (se : ServiceEntry) (defaultHost : String)
    (U : List TrafficPolicy) (key : String) (t : SeDrTuple DR) : Prop :=
  (key = defaultHost ∧ ∃ q ∈ U, ¬ opensNewHost env defaultHost q ∧
      t = policySeDr getDestinationRule region se defaultHost q) ∨
    (∃ q ∈ U, opensNewHost env defaultHost q ∧
      key = q.DnsPrefix ++ "." ++ defaultHost ∧
      ∃ c, t = newHostSeDr getDestinationRule region se key (getUniqueAddress c key).1 q)

/-- The label set of the examples. -/
def exampleLabels : LabelSet :=
  { AdmiralIgnoreLabel := "admiral-ignore"
    DeploymentAnnotation := "sidecar.istio.io/inject"
    AdmiralIgnoreAnnotation := "admiral.io/ignore" }

/-- A rollout controller that knows the namespace `ns`, which is not to be ignored. -/
def exampleRolloutController : RolloutController :=
  { Namespaces := [("ns", [])], labelSet := exampleLabels }

/-- A rollout of the namespace `ns` with the sidecar injected. -/
def injectedRollout : Rollout :=
  { Name := "foo", Namespace := "ns", BlueGreen := none
    TemplateAnnotations := [("sidecar.istio.io/inject", "true")] }

/-- The rollout `injectedRollout` with the annotation that has it ignored. -/
def ignoredRollout : Rollout :=
  { injectedRollout with Annotations := [("admiral.io/ignore", "true")] }

/-- A host that the egress map asks for: `<namespace>/<fqdn>` of one of its entries, or
`<namespace>/<cname>` for a cname of one of its entries. -/
def WantedHost (sidecarEgressMap : GoMap SidecarEgress) (h : String) : Prop :=
  ∃ kv ∈ sidecarEgressMap,
    h = kv.2.Namespace ++ "/" ++ kv.2.FQDN ∨
      ∃ c ∈ kv.2.CNAMEs, h = kv.2.Namespace ++ "/" ++ c.1

/-- The hosts after the second loop of `modifySidecarForLocalClusterCommunication` has
visited the hosts `order`. -/
def addMissing (hosts : List String) (order : List String) : List String :=
  order.foldl (fun hs h => if h ∈ hs then hs else hs ++ [h]) hosts

/-- The sidecar passed to `Update` when the hosts `added` are appended to the hosts of the
first egress listener. -/
def sidecarWith (sidecar : Sidecar) (first : IstioEgressListener)
    (rest : List IstioEgressListener) (added : List String) : Sidecar :=
  { sidecar with
    Labels := []
    Annotations := []
    Spec :=
      { sidecar.Spec with
        Egress := some ({ first with Hosts := first.Hosts ++ added } :: rest) } }

/-- A sidecar of the namespace `bar` with one egress listener. -/
def barSidecar : Sidecar :=
  { Name := "default", Namespace := "bar"
    Spec := { Egress := some [{ Hosts := ["./*", "bar/foo.bar.svc.cluster.local"] }] } }

/-- A cluster whose sidecar controller knows `barSidecar`. -/
def sidecarCluster : RemoteController :=
  { westCluster with SidecarController := some [("bar", barSidecar)] }

/-- An egress map with one entry, whose host is in `barSidecar` and whose cname is not. -/
def barEgressMap : GoMap SidecarEgress :=
  [("bar", { Namespace := "bar", FQDN := "foo.bar.svc.cluster.local",
             CNAMEs := [("stage.foo.global", "1")] })]

/-- The hosts `modifySidecarForLocalClusterCommunication` appends: the keys of the map of
hosts, in the order the loop visits them, that the first listener does not have. -/
def addedHosts (Range : GoMap String → GoMap String) (sidecarEgressMap : GoMap SidecarEgress)
    (first : IstioEgressListener) : List String :=
  (GoMap.keys (Range (collectEgressHosts sidecarEgressMap))).filter
    (fun h => decide (h ∉ first.Hosts))

/-- The calls of the write helpers that `AddServiceEntriesWithDr` makes for one tuple in
one cluster: two deletes for a service entry without endpoints, two upserts otherwise. -/
def seDrOps {DR : Type} (H : Helpers DR) (identityId : String) (rc : RemoteController)
    (seDr : SeDrTuple DR) : List (ClusterOp DR) :=
  if seDr.ServiceEntry.Endpoints = [] then
    [ClusterOp.deleteServiceEntry rc.ClusterID seDr.SeName,
      ClusterOp.deleteDestinationRule rc.ClusterID seDr.DrName]
  else
    [ClusterOp.addUpdateServiceEntry rc.ClusterID seDr.SeName seDr.ServiceEntry
        [(H.WorkloadIdentifier, identityId)],
      ClusterOp.addUpdateDestinationRule rc.ClusterID seDr.DrName seDr.DestinationRule]

/-- Helpers for the examples: the destination rule is the stand-in of the examples, no
policy is active, an identity has no service and no dependent cluster, and maps are
visited in the order in which they were built. -/
def exampleHelpers : Helpers (String × Option String) :=
  { getDestinationRule := exampleDestinationRule
    GetFromIdentity := fun _ _ _ => none
    WorkloadIdentifier := "identity"
    getServiceForDeployment := fun _ _ => none
    getServiceForRollout := fun _ _ => []
    GetMeshPorts := fun _ _ _ => [("http", 8080)]
    GetMeshPortsForRollout := fun _ _ _ => [("http", 8080)]
    GetCname := fun d => "stage." ++ d.Name ++ ".global"
    GetCnameForRollout := fun r => "stage." ++ r.Name ++ ".global"
    EnableSAN := false
    GetSAN := fun _ => ""
    GetSANForRollout := fun _ => ""
    ConstructGtpKey := fun env identity => env ++ "." ++ identity
    getDependentClusters := fun _ _ _ => []
    WorkloadSidecarUpdate := "disabled"
    WorkloadSidecarName := "default"
    RangeServices := id
    RangeEntries := id
    RangeHosts := id
    RangeSeDr := id
    RangeGtps := id
    sortSlice := gtpInsertionSort "priority"
    ReadOnly := false
    CacheWarmup := fun _ => false }

/-- A registry of the west and the east cluster and of a cluster without locality. -/
def exampleRegistry : RemoteRegistry :=
  { ClusterIds := ["west", "east", "lost"]
    RemoteControllers :=
      [("west", westCluster), ("east", eastCluster),
        ("lost", { ClusterID := "lost", LoadBalancer := ("", 0), Locality := none })] }

/-- A service entry with no endpoint left. -/
def drainedSe : ServiceEntry :=
  { Hosts := ["stage.foo.global"], Addresses := ["240.0.10.1"] }

/-- The value of the variable `deployment` after the fetch at the head of the first loop of
`modifyServiceEntryForNewServiceOrPod`: what the cache of the deployment controller of the
cluster holds, or, for a cluster without that controller, the value the variable had. -/
def fetchedDeployment (env sourceIdentity : String) (rc : RemoteController)
    (st : ResolveState) : Option Deployment :=
  match rc.DeploymentController with
  | some cache => deploymentCacheGet cache sourceIdentity env
  | none => st.deployment

/-- The value of the variable `rollout` after the fetch at the head of the first loop. -/
def fetchedRollout (env sourceIdentity : String) (rc : RemoteController)
    (st : ResolveState) : Option Rollout :=
  match rc.RolloutController with
  | some roc => rolloutCache.Get roc.Cache sourceIdentity env
  | none => st.rollout

/-- The cache with the cluster recorded under the identity in `IdentityClusterCache`. -/
def withIdentityCluster (cache : AdmiralCache) (sourceIdentity clusterId : String) :
    AdmiralCache :=
  { cache with IdentityClusterCache :=
      MapOfMaps.Put cache.IdentityClusterCache sourceIdentity clusterId clusterId }

/-- The deployment `foo` of the namespace `ns`. -/
def fooDeployment : Deployment :=
  { Name := "foo", Namespace := "ns" }

/-- The west cluster with the deployment `foo` for the identity `foo` in `stage`. -/
def deployedCluster : RemoteController :=
  { westCluster with DeploymentController := some [("foo", [("stage", fooDeployment)])] }

/-- The west cluster with the rollout `foo` for the identity `foo` in `stage`. -/
def rolledOutCluster : RemoteController :=
  { westCluster with
    DeploymentController := some []
    RolloutController := some { exampleRolloutController with
      Cache :=
        [("foo", { Identity := "foo", Rollouts := some [("stage", injectedRollout)] })] } }

/-- A registry of the one cluster `west`. -/
def registryOf (rc : RemoteController) : RemoteRegistry :=
  { ClusterIds := ["west"], RemoteControllers := [("west", rc)] }

/-- The helpers of the examples in read-only mode. -/
def readOnlyHelpers : Helpers (String × Option String) :=
  { exampleHelpers with ReadOnly := true }

/-- The service entries that a run of calls on the clusters wrote with
`addUpdateServiceEntry`, in order. -/
def writtenEntries {DR : Type} (ops : List (ClusterOp DR)) : List ServiceEntry :=
  ops.filterMap (fun op =>
    match op with
    | ClusterOp.addUpdateServiceEntry _ _ spec _ => some spec
    | _ => none)

/-- The state of the rewrite at its start, for the examples: the shared entry `canarySe`,
no cname, the plain cache and no call made. -/
def rewriteStart : RewriteState (String × Option String) :=
  { serviceEntry := canarySe, cnames := [], cache := plainCache, ops := [] }

/-- The entry `canarySe` with its second endpoint at the address and the ports given. -/
def canarySeAt (address : String) (ports : GoMap Nat) : ServiceEntry :=
  setEndpoint canarySe 1 { ingressEndpoint with Address := address, Ports := ports }

/-- The entry `canarySe` with its second endpoint at an empty address: the ingress of the
west cluster was not known when the endpoint was made. -/
def pendingSe : ServiceEntry :=
  canarySeAt "" [("http", 15443)]

/-- A cache of rollouts in which every entry is kept under its own identity and has a map
that is not nil, as `UpdateRolloutToClusterCache` makes and leaves its entries. -/
def WellKept (cache : GoMap RolloutClusterEntry) : Prop :=
  ∀ k rce, GoMap.lookup cache k = some rce → rce.Identity = k ∧ rce.Rollouts ≠ none

/-- The env of a rollout in the examples: its annotation `env`, or `default`. -/
def exampleEnv (r : Rollout) : String :=
  (GoMap.lookup r.Annotations "env").getD "default"

/-- The rollout `bar` of the env `qal`. -/
def qalRollout : Rollout :=
  { Name := "bar", Namespace := "ns", BlueGreen := none, Annotations := [("env", "qal")] }

/-- A cache with the rollout `foo` of the env `default` under the identity `foo`. -/
def fooCache : GoMap RolloutClusterEntry :=
  [("foo", { Identity := "foo", Rollouts := some [("default", injectedRollout)] })]

/-- A cache in which the entry under `a` names the identity `b`, which has an entry of its
own: no run of the methods of the cache builds it. -/
def misfiledCache : GoMap RolloutClusterEntry :=
  [("a", { Identity := "b", Rollouts := some [] }),
   ("b", { Identity := "b", Rollouts := some [("default", injectedRollout)] })]

/-- The cache after `Put` of an entry for the identity `foo` that was made without a map. -/
def nilMapCache : GoMap RolloutClusterEntry :=
  rolloutCache.Put [] { Identity := "foo", Rollouts := none }

/-- The indices `(secondIndex, firstIndex)` the scan of
`GenerateNewAddressAndAddToConfigMap` starts from, for the address list read. -/
def scanStart (addresses : List String) : Nat × Nat :=
  (addresses.length / 255 + 10, addresses.length % 255 + 1)

/-- The order of the pairs `(secondIndex, firstIndex)`: by the second index, then by the
first. -/
def indexLess (p q : Nat × Nat) : Prop :=
  p.1 < q.1 ∨ (p.1 = q.1 ∧ p.2 < q.2)

/-- A map of service entries none of which has an endpoint. -/
def AllDrained (m : GoMap ServiceEntry) : Prop :=
  ∀ se ∈ GoMap.values m, se.Endpoints = []

/-- The arguments of one call of `generateServiceEntry` that differ from cluster to
cluster. -/
structure GenerateCall where
  meshPorts : GoMap Nat
  globalFqdn : String
  rc : RemoteController
  address : String
  san : List String

/-- A run of calls of `generateServiceEntry` for one event, each on the map and the cache
the call before left: the map and the cache at the end. -/
def generateAll (event : EventType) :
    List GenerateCall → GoMap ServiceEntry → AdmiralCache → GoMap ServiceEntry × AdmiralCache
  | [], serviceEntries, cache => (serviceEntries, cache)
  | call :: rest, serviceEntries, cache =>
    match generateServiceEntry event cache call.meshPorts call.globalFqdn call.rc
        serviceEntries call.address call.san with
    | (_, serviceEntries, cache) => generateAll event rest serviceEntries cache

/-- A call on a cluster that writes no service entry and no destination rule: a delete, or
the update of a sidecar. -/
def writesNothing {DR : Type} (op : ClusterOp DR) : Bool :=
  match op with
  | ClusterOp.addUpdateServiceEntry _ _ _ _ => false
  | ClusterOp.addUpdateDestinationRule _ _ _ => false
  | _ => true

/-- The two deletes the writer makes in a cluster for a tuple without endpoints. -/
def deletesOf {DR : Type} (rc : RemoteController) (seDr : SeDrTuple DR) :
    List (ClusterOp DR) :=
  [ClusterOp.deleteServiceEntry rc.ClusterID seDr.SeName,
    ClusterOp.deleteDestinationRule rc.ClusterID seDr.DrName]

/-- The helpers of the examples, with the service `foo` of the namespace `ns` found for
every deployment. -/
def servedHelpers : Helpers (String × Option String) :=
  { exampleHelpers with
    getServiceForDeployment := fun _ _ => some { Name := "foo", Namespace := "ns" } }

/-- The calls that a run of the resolver made on the clusters; none for a run that
panicked. -/
def opsOf {DR : Type}
    (r : Option (Option (GoMap ServiceEntry) × List (ClusterOp DR) × AdmiralCache)) :
    List (ClusterOp DR) :=
  match r with
  | some (_, ops, _) => ops
  | none => []

/-- The endpoints of the entries that a run of the resolver returned, key by key. -/
def endpointsOf {DR : Type}
    (r : Option (Option (GoMap ServiceEntry) × List (ClusterOp DR) × AdmiralCache)) :
    Option (List (String × List Endpoint)) :=
  match r with
  | some (some m, _, _) => some (m.map (fun kv => (kv.1, kv.2.Endpoints)))
  | _ => none

/-- A policy of priority `10`, written with blanks around the number, made before
`gtpA`. -/
def gtpPadded : GlobalTrafficPolicy :=
  { Name := "P", Labels := [("priority", " 10 ")], CreationTimestamp := 0 }

/-- A policy whose priority label is no number, made after all the others. -/
def gtpUnlabelled : GlobalTrafficPolicy :=
  { Name := "U", Labels := [("priority", "high")], CreationTimestamp := 9 }

/-- The helpers of the examples with the policy set `canaryGtp` active for the identity
`foo` in the env `stage`, and for no other identity or env. -/
def policyHelpers : Helpers (String × Option String) :=
  { exampleHelpers with
    GetFromIdentity := fun _ identity env =>
      if identity = "foo" ∧ env = "stage" then some canaryGtp else none }

/-- The plain cache with the host `stage.foo.global` known as that of the identity `foo`. -/
def identifiedCache : AdmiralCache :=
  { plainCache with CnameIdentityCache := [("stage.foo.global", "foo")] }

/-- A cluster with a deployment controller where a deployment for the identity and env is
found and no service for it, or no deployment is found, a rollout is, and no service for
it. -/
def FoundWithoutService {DR : Type} (H : Helpers DR) (env sourceIdentity : String)
    (rc : RemoteController) : Prop :=
  ∃ dc, rc.DeploymentController = some dc ∧
    ((∃ d, deploymentCacheGet dc sourceIdentity env = some d ∧
        H.getServiceForDeployment rc d = none) ∨
      (deploymentCacheGet dc sourceIdentity env = none ∧
        ∃ roc r, rc.RolloutController = some roc ∧
          rolloutCache.Get roc.Cache sourceIdentity env = some r ∧
          H.getServiceForRollout rc r = []))

/-- The map `IdentityClusterCache` after every cluster of the list that has a controller
was recorded under the identity. -/
def recordClusters (rr : RemoteRegistry) (sourceIdentity : String) (clusters : List String)
    (m : GoMap (GoMap String)) : GoMap (GoMap String) :=
  clusters.foldl (fun m clusterId =>
    match rr.GetRemoteController clusterId with
    | none => m
    | some rc => MapOfMaps.Put m sourceIdentity rc.ClusterID rc.ClusterID) m

/-- The cache after a run of `modifyServiceEntryForNewServiceOrPod` in which every cluster
was skipped for want of a service: the clusters are recorded under the identity, the
entry of the identity and env is deleted from the cache of the policies, and the clusters
of the dependents are recorded under the cname, which is still empty. -/
def cacheAfterSkips {DR : Type} (H : Helpers DR) (env sourceIdentity : String)
    (rr : RemoteRegistry) (cache : AdmiralCache) : AdmiralCache :=
  let recorded := recordClusters rr sourceIdentity rr.ClusterIds cache.IdentityClusterCache
  let dependents := (GoMap.lookup cache.IdentityDependencyCache sourceIdentity).getD []
  let dependentClusters := H.getDependentClusters dependents recorded []
  { cache with
    IdentityClusterCache := recorded
    GlobalTrafficCache := cache.GlobalTrafficCache ++ [GtpCacheOp.Delete sourceIdentity env]
    CnameDependentClusterCache :=
      (GoMap.keys dependentClusters).foldl
        (fun m clusterId => MapOfMaps.Put m "" clusterId clusterId)
        cache.CnameDependentClusterCache }

/-- The cache after `createSeAndDrSetFromGtp` has gone through the policies of a list: one
call of `getUniqueAddress`, for the host it opens, for every policy that opens a host. -/
def cacheAfterPolicies (env defaultHost : String) (policies : List TrafficPolicy)
    (cache : AdmiralCache) : AdmiralCache :=
  policies.foldl (fun c q =>
    if q.DnsPrefix ≠ env ∧ q.DnsPrefix ≠ "default" ∧ q.Dns ≠ defaultHost then
      (getUniqueAddress c (q.DnsPrefix ++ "." ++ defaultHost)).2
    else c) cache

/-- A set of tuples read through their pointers. -/
def readSeDrSet {DR : Type} (seDrSet : GoMap (SeDrPointers DR)) (passed : ServiceEntry) :
    GoMap (SeDrTuple DR) :=
  seDrSet.map (fun kv => (kv.1, readSeDr kv.2 passed))

/-- A policy set with two policies that open a host each, `canary` and `beta`. -/
def twoHostGtp : GlobalTrafficPolicy :=
  { Name := "gtp"
    Policy := [{ Dns := "", DnsPrefix := "canary" }, { Dns := "", DnsPrefix := "beta" }] }

/-! # Theorems -/

/-! ## Decimal rendering is injective -/

theorem decimalValue_snoc (l : List Char) (c : Char) :
    decimalValue (l ++ [c]) = decimalValue l * 10 + (c.toNat - 48) := by
  simp [decimalValue, List.foldl_append]

theorem digitChar_toNat (d : Nat) (h : d < 10) : (Nat.digitChar d).toNat - 48 = d := by
  interval_cases d <;> rfl

theorem digitChar_ne_dot (d : Nat) (h : d < 10) : Nat.digitChar d ≠ '.' := by
  interval_cases d <;> decide

theorem toDigitsCore_acc (fuel : Nat) : ∀ (n : Nat) (ds : List Char),
    Nat.toDigitsCore 10 fuel n ds = Nat.toDigitsCore 10 fuel n [] ++ ds := by
  induction fuel with
  | zero => intro n ds; simp [Nat.toDigitsCore]
  | succ fuel ih =>
    intro n ds
    simp only [Nat.toDigitsCore]
    split
    · simp
    · rw [ih (n / 10) (Nat.digitChar (n % 10) :: ds), ih (n / 10) [Nat.digitChar (n % 10)]]
      simp

theorem decimalValue_toDigitsCore (fuel : Nat) : ∀ n : Nat, n < fuel →
    decimalValue (Nat.toDigitsCore 10 fuel n []) = n := by
  induction fuel with
  | zero => intro n h; omega
  | succ fuel ih =>
    intro n h
    simp only [Nat.toDigitsCore]
    split
    · rename_i h0
      have hn : n % 10 = n := by omega
      have := decimalValue_snoc [] (Nat.digitChar (n % 10))
      simp only [List.nil_append] at this
      rw [this, digitChar_toNat _ (Nat.mod_lt _ (by decide))]
      simp [decimalValue, hn]
    · rename_i h0
      rw [toDigitsCore_acc, decimalValue_snoc, ih (n / 10) (by omega),
        digitChar_toNat _ (Nat.mod_lt _ (by decide))]
      omega

theorem toDigitsCore_no_dot (fuel : Nat) : ∀ (n : Nat) (ds : List Char),
    '.' ∉ ds → '.' ∉ Nat.toDigitsCore 10 fuel n ds := by
  induction fuel with
  | zero => intro n ds h; simpa [Nat.toDigitsCore] using h
  | succ fuel ih =>
    intro n ds h
    have hd : '.' ∉ Nat.digitChar (n % 10) :: ds := by
      intro hm
      rcases List.mem_cons.1 hm with h1 | h1
      · exact digitChar_ne_dot _ (Nat.mod_lt _ (by decide)) h1.symm
      · exact h h1
    simp only [Nat.toDigitsCore]
    split
    · exact hd
    · exact ih _ _ hd

theorem decimalValue_toString (n : Nat) : decimalValue (toString n).data = n := by
  show decimalValue (Nat.toDigitsCore 10 (n + 1) n []) = n
  exact decimalValue_toDigitsCore (n + 1) n (Nat.lt_succ_self n)

theorem toString_no_dot (n : Nat) : '.' ∉ (toString n).data := by
  show '.' ∉ Nat.toDigitsCore 10 (n + 1) n []
  exact toDigitsCore_no_dot (n + 1) n [] (by simp)

theorem split_at_dot : ∀ (l₁ l₂ r₁ r₂ : List Char), '.' ∉ l₁ → '.' ∉ l₂ →
    l₁ ++ '.' :: r₁ = l₂ ++ '.' :: r₂ → l₁ = l₂ ∧ r₁ = r₂ := by
  intro l₁
  induction l₁ with
  | nil =>
    intro l₂ r₁ r₂ _ h₂ h
    cases l₂ with
    | nil => simpa using h
    | cons c t =>
      simp only [List.nil_append, List.cons_append, List.cons.injEq] at h
      exact absurd (h.1 ▸ List.mem_cons_self _ _) h₂
  | cons a t ih =>
    intro l₂ r₁ r₂ h₁ h₂ h
    cases l₂ with
    | nil =>
      simp only [List.nil_append, List.cons_append, List.cons.injEq] at h
      exact absurd (h.1 ▸ List.mem_cons_self _ _) h₁
    | cons c t₂ =>
      simp only [List.cons_append, List.cons.injEq] at h
      have := ih t₂ r₁ r₂ (fun hm => h₁ (List.mem_cons_of_mem _ hm))
        (fun hm => h₂ (List.mem_cons_of_mem _ hm)) h.2
      exact ⟨by rw [h.1, this.1], this.2⟩

/-- Two addresses under one prefix are equal only if their indices are. -/
theorem renderAddress_inj (pfx : String) (a b a' b' : Nat)
    (h : renderAddress pfx a b = renderAddress pfx a' b') : a = a' ∧ b = b' := by
  have hd := congrArg String.data h
  simp only [renderAddress, Sep, String.data_append] at hd
  have hdot : (".": String).data = ['.'] := rfl
  simp only [hdot, List.append_assoc, List.singleton_append] at hd
  have h1 := List.append_cancel_left hd
  have h2 := List.cons.inj h1
  have h3 := split_at_dot _ _ _ _ (toString_no_dot a) (toString_no_dot a') h2.2
  constructor
  · have := congrArg decimalValue h3.1
    simpa [decimalValue_toString] using this
  · have := congrArg decimalValue h3.2
    simpa [decimalValue_toString] using this

/-! ## The scan of `GenerateNewAddressAndAddToConfigMap` -/

theorem nextIndex_indexAt (k : Nat) : nextIndex (indexAt k) = indexAt (k + 1) := by
  unfold nextIndex indexAt
  simp only
  split <;> (apply Prod.ext <;> simp only <;> omega)

theorem iterate_nextIndex (p : Nat × Nat) (h : p.2 ≤ 255) (j : Nat) :
    nextIndex^[j] p = indexAt (p.1 * 256 + p.2 + j) := by
  induction j with
  | zero =>
    unfold indexAt
    apply Prod.ext <;> simp only [Function.iterate_zero, id_eq] <;> omega
  | succ j ih =>
    rw [Function.iterate_succ_apply', ih, nextIndex_indexAt, Nat.add_assoc]

theorem candidate_inj (pfx : String) (p : Nat × Nat) (h : p.2 ≤ 255) (i j : Nat)
    (hc : candidate pfx p i = candidate pfx p j) : i = j := by
  unfold candidate at hc
  rw [iterate_nextIndex p h, iterate_nextIndex p h] at hc
  have := renderAddress_inj _ _ _ _ _ hc
  unfold indexAt at this
  simp only at this
  omega

theorem candidate_succ (pfx : String) (p : Nat × Nat) (j : Nat) :
    candidate pfx (nextIndex p) j = candidate pfx p (j + 1) := by
  simp [candidate, Function.iterate_succ_apply]

theorem scanAddress_eq_none (pfx : String) (addresses : List String) :
    ∀ (fuel : Nat) (p : Nat × Nat), scanAddress pfx addresses fuel p = none →
      ∀ j, j < fuel → candidate pfx p j ∈ addresses := by
  intro fuel
  induction fuel with
  | zero => intro p _ j hj; omega
  | succ fuel ih =>
    intro p h j hj
    simp only [scanAddress] at h
    split at h
    · rename_i hmem
      cases j with
      | zero => simpa [candidate] using hmem
      | succ j =>
        rw [← candidate_succ]
        exact ih _ h j (by omega)
    · cases h

theorem scanAddress_eq_some (pfx : String) (addresses : List String) :
    ∀ (fuel : Nat) (p : Nat × Nat) (a : String), scanAddress pfx addresses fuel p = some a →
      ∃ j, j < fuel ∧ a = candidate pfx p j ∧ a ∉ addresses ∧
        ∀ i, i < j → candidate pfx p i ∈ addresses := by
  intro fuel
  induction fuel with
  | zero => intro p a h; simp [scanAddress] at h
  | succ fuel ih =>
    intro p a h
    simp only [scanAddress] at h
    split at h
    · rename_i hmem
      obtain ⟨j, hj, ha, hn, hall⟩ := ih _ a h
      refine ⟨j + 1, by omega, by rw [ha, candidate_succ], hn, ?_⟩
      intro i hi
      cases i with
      | zero => simpa [candidate] using hmem
      | succ i =>
        rw [← candidate_succ]
        exact hall i (by omega)
    · rename_i hmem
      cases h
      exact ⟨0, by omega, by simp [candidate], hmem, by intro i hi; omega⟩

/-- One test more than there are addresses is enough for the scan to end. -/
theorem scanAddress_isSome (pfx : String) (addresses : List String) (p : Nat × Nat)
    (h : p.2 ≤ 255) :
    ∃ a, scanAddress pfx addresses (addresses.length + 1) p = some a := by
  cases hs : scanAddress pfx addresses (addresses.length + 1) p with
  | some a => exact ⟨a, rfl⟩
  | none =>
    exfalso
    have hall := scanAddress_eq_none pfx addresses _ p hs
    have hnd : ((List.range (addresses.length + 1)).map (candidate pfx p)).Nodup := by
      refine List.Nodup.map_on ?_ (List.nodup_range _)
      intro i _ j _ hij
      exact candidate_inj pfx p h i j hij
    have hsub : (List.range (addresses.length + 1)).map (candidate pfx p) ⊆ addresses := by
      intro a ha
      obtain ⟨j, hj, rfl⟩ := List.mem_map.1 ha
      exact hall j (List.mem_range.1 hj)
    have := (hnd.subperm hsub).length_le
    simp at this

/-! ## Go maps -/

theorem GoMap.lookup_insert_self {V : Type} (m : GoMap V) (k : String) (v : V) :
    GoMap.lookup (GoMap.insert m k v) k = some v := by
  induction m with
  | nil => simp [GoMap.insert, GoMap.lookup]
  | cons kv t ih =>
    obtain ⟨k', v'⟩ := kv
    by_cases h : k' = k <;> simp [GoMap.insert, GoMap.lookup, h, ih]

theorem GoMap.lookup_insert_ne {V : Type} (m : GoMap V) (k k' : String) (v : V)
    (h : k ≠ k') : GoMap.lookup (GoMap.insert m k v) k' = GoMap.lookup m k' := by
  induction m with
  | nil => simp [GoMap.insert, GoMap.lookup, h]
  | cons kv t ih =>
    obtain ⟨k₀, v₀⟩ := kv
    by_cases h0 : k₀ = k
    · subst h0
      simp [GoMap.insert, GoMap.lookup, h]
    · by_cases h1 : k₀ = k'
      · subst h1
        simp [GoMap.insert, GoMap.lookup, h0]
      · simp [GoMap.insert, GoMap.lookup, h0, h1, ih]

theorem GoMap.lookup_eq_none {V : Type} (m : GoMap V) (k : String) :
    GoMap.lookup m k = none ↔ k ∉ GoMap.keys m := by
  induction m with
  | nil => simp [GoMap.lookup, GoMap.keys]
  | cons kv t ih =>
    obtain ⟨k₀, v₀⟩ := kv
    by_cases h0 : k₀ = k
    · simp [GoMap.lookup, GoMap.keys, h0]
    · have h1 : ¬ k = k₀ := fun h => h0 h.symm
      simpa [GoMap.lookup, GoMap.keys, h0, h1] using ih

theorem GoMap.insert_of_lookup_none {V : Type} (m : GoMap V) (k : String) (v : V)
    (h : GoMap.lookup m k = none) : GoMap.insert m k v = m ++ [(k, v)] := by
  induction m with
  | nil => simp [GoMap.insert]
  | cons kv t ih =>
    obtain ⟨k₀, v₀⟩ := kv
    by_cases h0 : k₀ = k
    · simp [GoMap.lookup, h0] at h
    · simp only [GoMap.lookup, h0, if_false] at h
      simp [GoMap.insert, h0, ih h]

theorem GoMap.keys_insert_nodup {V : Type} (m : GoMap V) (k : String) (v : V)
    (h : (GoMap.keys m).Nodup) : (GoMap.keys (GoMap.insert m k v)).Nodup := by
  induction m with
  | nil => simp [GoMap.insert, GoMap.keys]
  | cons kv t ih =>
    obtain ⟨k₀, v₀⟩ := kv
    by_cases h0 : k₀ = k
    · subst h0
      simpa [GoMap.insert, GoMap.keys] using h
    · simp only [GoMap.keys, List.map_cons, List.nodup_cons] at h
      have ht := ih h.2
      have hk : k₀ ∉ GoMap.keys (GoMap.insert t k v) := by
        rw [← GoMap.lookup_eq_none, GoMap.lookup_insert_ne _ _ _ _ (fun e => h0 e.symm),
          GoMap.lookup_eq_none]
        exact h.1
      simp only [GoMap.insert, h0, if_false, GoMap.keys, List.map_cons, List.nodup_cons]
      exact ⟨hk, ht⟩

theorem GoMap.mem_values_of_lookup {V : Type} (m : GoMap V) (k : String) (v : V)
    (h : GoMap.lookup m k = some v) : v ∈ GoMap.values m := by
  induction m with
  | nil => simp [GoMap.lookup] at h
  | cons kv t ih =>
    obtain ⟨k₀, v₀⟩ := kv
    by_cases h0 : k₀ = k
    · simp only [GoMap.lookup, h0, if_true, Option.some.injEq] at h
      simp [GoMap.values, h]
    · simp only [GoMap.lookup, h0, if_false] at h
      have := ih h
      simp only [GoMap.values] at this
      simp [GoMap.values, this]

theorem GoMap.key_eq_of_lookup {V : Type} (m : GoMap V) (k k' : String) (v : V)
    (hv : (GoMap.values m).Nodup) (h : GoMap.lookup m k = some v)
    (h' : GoMap.lookup m k' = some v) : k = k' := by
  induction m with
  | nil => simp [GoMap.lookup] at h
  | cons kv t ih =>
    obtain ⟨k₀, v₀⟩ := kv
    simp only [GoMap.values, List.map_cons, List.nodup_cons] at hv
    by_cases h0 : k₀ = k <;> by_cases h1 : k₀ = k'
    · rw [← h0, ← h1]
    · subst h0
      simp only [GoMap.lookup, h1, if_true, if_false, Option.some.injEq] at h h'
      exact absurd (h ▸ GoMap.mem_values_of_lookup t k' v h') hv.1
    · subst h1
      simp only [GoMap.lookup, h0, if_true, if_false, Option.some.injEq] at h h'
      exact absurd (h' ▸ GoMap.mem_values_of_lookup t k v h) hv.1
    · simp only [GoMap.lookup, h0, h1, if_false] at h h'
      exact ih hv.2 h h'

/-! ## The fetch-modify-write of the address store -/

theorem GetConfigMap_eq (c : ConfigMapController) (cm : ConfigMap) (err : GoError)
    (c1 : ConfigMapController) (h : c.GetConfigMap = ((cm, err), c1)) :
    cm = c.Server ∧ c1.Server = c.Server ∧ c1.IPPrefix = c.IPPrefix ∧
      c1.PutErrors = c.PutErrors ∧ (∀ e ∈ c1.GetErrors, e ∈ c.GetErrors) ∧
      (∀ e, err = some e → ∃ rest, c.GetErrors = some e :: rest) := by
  unfold ConfigMapController.GetConfigMap at h
  split at h
  · rename_i hg
    simp only [Prod.mk.injEq] at h
    obtain ⟨⟨h1, h2⟩, h3⟩ := h
    subst h1 h2 h3
    simp
  · rename_i rest hg
    simp only [Prod.mk.injEq] at h
    obtain ⟨⟨h1, h2⟩, h3⟩ := h
    subst h1 h2 h3
    simp only [hg]
    simp
    intro e he
    exact Or.inr he
  · rename_i e rest hg
    simp only [Prod.mk.injEq] at h
    obtain ⟨⟨h1, h2⟩, h3⟩ := h
    subst h1 h2 h3
    simp only [hg]
    simp
    intro e he
    exact Or.inr he

theorem PutConfigMap_eq (c : ConfigMapController) (cm : ConfigMap) (err : GoError)
    (c1 : ConfigMapController) (h : c.PutConfigMap cm = (err, c1)) :
    c1.IPPrefix = c.IPPrefix ∧ c1.GetErrors = c.GetErrors ∧
      (∀ e ∈ c1.PutErrors, e ∈ c.PutErrors) ∧ (err = none → c1.Server = cm) ∧
      (∀ e, err = some e → some e ∈ c.PutErrors ∧ c1.Server = c.Server) := by
  unfold ConfigMapController.PutConfigMap at h
  split at h
  · rename_i hg
    simp only [Prod.mk.injEq] at h
    obtain ⟨h1, h2⟩ := h
    subst h1 h2
    simp
  · rename_i rest hg
    simp only [Prod.mk.injEq] at h
    obtain ⟨h1, h2⟩ := h
    subst h1 h2
    simp only [hg]
    simp
    intro e he
    exact Or.inr he
  · rename_i e rest hg
    simp only [Prod.mk.injEq] at h
    obtain ⟨h1, h2⟩ := h
    subst h1 h2
    simp only [hg]
    simp
    intro e he
    exact Or.inr he

/-- A call that returns no error read a store from the ConfigMap and either found the
name in it, or scanned for a free address and wrote the store with that address added. -/
theorem generate_success (seName : String) (c : ConfigMapController) (v : String)
    (c' : ConfigMapController)
    (h : GenerateNewAddressAndAddToConfigMap seName c = ((v, none), c')) :
    ∃ st, c.Server.Data = some st ∧
      ((GoMap.lookup st.EntryAddresses seName = some v ∧ c'.Server = c.Server) ∨
        (GoMap.lookup st.EntryAddresses seName = none ∧
          scanAddress c.IPPrefix st.Addresses (st.Addresses.length + 1)
            (st.Addresses.length / 255 + 10, st.Addresses.length % 255 + 1) = some v ∧
          ValidateConfigmapBeforePutting
            { Data := some { EntryAddresses := GoMap.insert st.EntryAddresses seName v
                             Addresses := st.Addresses ++ [v] } } = none ∧
          c'.Server.Data = some { EntryAddresses := GoMap.insert st.EntryAddresses seName v
                                  Addresses := st.Addresses ++ [v] })) ∧
      c'.IPPrefix = c.IPPrefix ∧ (∀ e ∈ c'.GetErrors, e ∈ c.GetErrors) ∧
      (∀ e ∈ c'.PutErrors, e ∈ c.PutErrors) := by
  unfold GenerateNewAddressAndAddToConfigMap at h
  split at h
  · simp at h
  · rename_i cm c1 hget
    obtain ⟨hcm, hs, hp, hpe, hge, -⟩ := GetConfigMap_eq _ _ _ _ hget
    subst hcm
    split at h
    · simp at h
    · rename_i st hst
      refine ⟨st, hst, ?_⟩
      split at h
      · rename_i val hval
        simp only [Prod.mk.injEq, and_true] at h
        obtain ⟨h1, h2⟩ := h
        subst h1 h2
        exact ⟨Or.inl ⟨hval, hs⟩, hp, hge, by simp [hpe]⟩
      · rename_i hnone
        simp only at h
        split at h
        · simp at h
        · rename_i address hscan
          split at h
          · simp at h
          · rename_i c2 hput
            simp only [Prod.mk.injEq, and_true] at h
            obtain ⟨h1, h2⟩ := h
            subst h1 h2
            unfold putServiceEntryStateFromConfigmap at hput
            simp only at hput
            split at hput
            · simp at hput
            · rename_i hval
              obtain ⟨q1, q2, q3, q4, -⟩ := PutConfigMap_eq _ _ _ _ hput
              refine ⟨Or.inr ⟨hnone, ?_, hval, ?_⟩, by rw [q1, hp], ?_, ?_⟩
              · simpa [ConfigMapController.GetIPPrefixForServiceEntries, hp] using hscan
              · rw [q4 rfl]
              · intro e he; rw [q2] at he; exact hge e he
              · intro e he; rw [← hpe]; exact q3 e he

theorem generate_present (seName : String) (c : ConfigMapController)
    (st : ServiceEntryAddressStore) (v : String) (hd : c.Server.Data = some st)
    (hl : GoMap.lookup st.EntryAddresses seName = some v) (hg : NextGetSucceeds c) :
    ∃ c', GenerateNewAddressAndAddToConfigMap seName c = ((v, none), c') ∧
      c'.Server = c.Server := by
  rcases hget : c.GetConfigMap with ⟨⟨cm, err⟩, c1⟩
  obtain ⟨hcm, hs, -, -, -, herr⟩ := GetConfigMap_eq _ _ _ _ hget
  subst hcm
  cases err with
  | some e =>
    obtain ⟨rest, hr⟩ := herr e rfl
    exact absurd hr (hg e rest)
  | none =>
    refine ⟨c1, ?_, hs⟩
    simp [GenerateNewAddressAndAddToConfigMap, hget, GetServiceEntryStateFromConfigmap, hd, hl]

theorem generate_eq_of_present (seName : String) (c c' : ConfigMapController)
    (st : ServiceEntryAddressStore) (v v' : String) (hd : c.Server.Data = some st)
    (hl : GoMap.lookup st.EntryAddresses seName = some v)
    (h : GenerateNewAddressAndAddToConfigMap seName c = ((v', none), c')) :
    v' = v ∧ c'.Server = c.Server := by
  obtain ⟨st', hst', hcase, -⟩ := generate_success _ _ _ _ h
  rw [hd] at hst'
  cases hst'
  rcases hcase with ⟨h1, h2⟩ | ⟨h1, -⟩
  · rw [hl] at h1
    exact ⟨(Option.some.inj h1).symm, h2⟩
  · rw [hl] at h1
    cases h1

theorem PutConfigMap_ok (c : ConfigMapController) (cm : ConfigMap)
    (h : ∀ e ∈ c.PutErrors, e = none) : (c.PutConfigMap cm).1 = none := by
  unfold ConfigMapController.PutConfigMap
  split
  · rfl
  · rfl
  · rename_i e rest hg
    have := h (some e) (by simp [hg])
    cases this

theorem validate_written (st : ServiceEntryAddressStore) (seName a : String)
    (hinv : StoreInv st) (hl : GoMap.lookup st.EntryAddresses seName = none)
    (ha : a ∉ st.Addresses) :
    ValidateConfigmapBeforePutting
      { Data := some { EntryAddresses := GoMap.insert st.EntryAddresses seName a
                       Addresses := st.Addresses ++ [a] } } = none := by
  obtain ⟨-, hv, hn⟩ := hinv
  have hlen : st.EntryAddresses.length = st.Addresses.length := by
    rw [← hv]; simp [GoMap.values]
  have hnd : (st.Addresses ++ [a]).Nodup := by
    rw [List.nodup_append]
    refine ⟨hn, by simp, ?_⟩
    intro x hx hx'
    simp only [List.mem_singleton] at hx'
    subst hx'
    exact ha hx
  simp [ValidateConfigmapBeforePutting, GetServiceEntryStateFromConfigmap,
    GoMap.insert_of_lookup_none _ _ _ hl, hlen, hnd]

/-- With no failure to come and a well-formed store in the ConfigMap, the call succeeds. -/
theorem generate_total (seName : String) (c : ConfigMapController)
    (st : ServiceEntryAddressStore) (hnf : NoFailures c) (hd : c.Server.Data = some st)
    (hinv : StoreInv st) :
    ∃ v c', GenerateNewAddressAndAddToConfigMap seName c = ((v, none), c') := by
  rcases hget : c.GetConfigMap with ⟨⟨cm, err⟩, c1⟩
  obtain ⟨hcm, hs, hp, hpe, -, herr⟩ := GetConfigMap_eq _ _ _ _ hget
  subst hcm
  cases err with
  | some e =>
    obtain ⟨rest, hr⟩ := herr e rfl
    have := hnf.1 (some e) (by simp [hr])
    cases this
  | none =>
    cases hl : GoMap.lookup st.EntryAddresses seName with
    | some v =>
      exact ⟨v, c1, by
        simp [GenerateNewAddressAndAddToConfigMap, hget, GetServiceEntryStateFromConfigmap,
          hd, hl]⟩
    | none =>
      obtain ⟨a, ha⟩ := scanAddress_isSome c1.IPPrefix st.Addresses
        (st.Addresses.length / 255 + 10, st.Addresses.length % 255 + 1)
        (by simp only; omega)
      obtain ⟨j, -, -, hnot, -⟩ := scanAddress_eq_some _ _ _ _ _ ha
      have hval := validate_written st seName a hinv hl hnot
      have hput := PutConfigMap_ok c1
        { Data := some { EntryAddresses := GoMap.insert st.EntryAddresses seName a
                         Addresses := st.Addresses ++ [a] } }
        (by rw [hpe]; exact hnf.2)
      rcases hp2 : c1.PutConfigMap
        { Data := some { EntryAddresses := GoMap.insert st.EntryAddresses seName a
                         Addresses := st.Addresses ++ [a] } } with ⟨perr, c2⟩
      rw [hp2] at hput
      simp only at hput
      subst hput
      refine ⟨a, c2, ?_⟩
      simp [GenerateNewAddressAndAddToConfigMap, hget, GetServiceEntryStateFromConfigmap,
        hd, hl, ConfigMapController.GetIPPrefixForServiceEntries, ha,
        putServiceEntryStateFromConfigmap, hval, hp2]

theorem generate_inv (seName : String) (c c' : ConfigMapController)
    (st : ServiceEntryAddressStore) (v : String) (hd : c.Server.Data = some st)
    (hinv : StoreInv st)
    (h : GenerateNewAddressAndAddToConfigMap seName c = ((v, none), c')) :
    ∃ st', c'.Server.Data = some st' ∧ StoreInv st' ∧
      GoMap.lookup st'.EntryAddresses seName = some v ∧
      ∀ k w, GoMap.lookup st.EntryAddresses k = some w →
        GoMap.lookup st'.EntryAddresses k = some w := by
  obtain ⟨st0, hst0, hcase, -⟩ := generate_success _ _ _ _ h
  rw [hd] at hst0
  cases hst0
  rcases hcase with ⟨h1, h2⟩ | ⟨h1, hscan, -, hw⟩
  · exact ⟨st, by rw [h2, hd], hinv, h1, fun _ _ hk => hk⟩
  · refine ⟨_, hw, ?_, GoMap.lookup_insert_self _ _ _, ?_⟩
    · obtain ⟨j, -, -, hnot, -⟩ := scanAddress_eq_some _ _ _ _ _ hscan
      obtain ⟨hk, hv, hn⟩ := hinv
      refine ⟨GoMap.keys_insert_nodup _ _ _ hk, ?_, ?_⟩
      · simp only [GoMap.insert_of_lookup_none _ _ _ h1]
        simp [GoMap.values, ← hv]
      · simp only
        rw [List.nodup_append]
        refine ⟨hn, by simp, ?_⟩
        intro x hx hx'
        simp only [List.mem_singleton] at hx'
        subst hx'
        exact hnot hx
    · intro k w hk
      have hne : seName ≠ k := by
        intro e
        subst e
        rw [h1] at hk
        cases hk
      simpa [GoMap.lookup_insert_ne _ _ _ _ hne] using hk

theorem noFailures_of_success (seName : String) (c c' : ConfigMapController) (v : String)
    (hnf : NoFailures c)
    (h : GenerateNewAddressAndAddToConfigMap seName c = ((v, none), c')) : NoFailures c' := by
  obtain ⟨_, -, -, -, hg, hp⟩ := generate_success _ _ _ _ h
  exact ⟨fun e he => hnf.1 e (hg e he), fun e he => hnf.2 e (hp e he)⟩

theorem allocateAll_spec : ∀ (names : List String) (c : ConfigMapController)
    (st : ServiceEntryAddressStore), NoFailures c → c.Server.Data = some st → StoreInv st →
    ∃ st', (allocateAll names c).2.Server.Data = some st' ∧ StoreInv st' ∧
      (∀ k w, GoMap.lookup st.EntryAddresses k = some w →
        GoMap.lookup st'.EntryAddresses k = some w) ∧
      ∀ r ∈ (allocateAll names c).1,
        r.2.2 = none ∧ GoMap.lookup st'.EntryAddresses r.1 = some r.2.1 := by
  intro names
  induction names with
  | nil =>
    intro c st _ hd hinv
    exact ⟨st, hd, hinv, fun _ _ h => h, by simp [allocateAll]⟩
  | cons seName rest ih =>
    intro c st hnf hd hinv
    obtain ⟨v, c1, hgen⟩ := generate_total seName c st hnf hd hinv
    obtain ⟨st1, hd1, hinv1, hl1, hmono1⟩ := generate_inv _ _ _ _ _ hd hinv hgen
    obtain ⟨st2, hd2, hinv2, hmono2, hall⟩ :=
      ih c1 st1 (noFailures_of_success _ _ _ _ hnf hgen) hd1 hinv1
    refine ⟨st2, by simpa [allocateAll, hgen] using hd2, hinv2,
      fun k w hk => hmono2 k w (hmono1 k w hk), ?_⟩
    intro r hr
    simp only [allocateAll, hgen, List.mem_cons] at hr
    rcases hr with rfl | hr
    · exact ⟨rfl, hmono2 _ _ hl1⟩
    · exact hall r hr

/-- C1: from an empty address store, when every fetch and every write succeeds, every call
of a run of `GenerateNewAddressAndAddToConfigMap` returns without error, every address
returned is in the `addresses` list the ConfigMap holds at the end, and calls for different
names return different addresses. -/
theorem allocate_vips_distinct (names : List String) (c : ConfigMapController)
    (hempty : c.Server.Data = some { EntryAddresses := [], Addresses := [] })
    (hnf : NoFailures c) :
    (∀ r ∈ (allocateAll names c).1, r.2.2 = none) ∧
    ∃ st, (allocateAll names c).2.Server.Data = some st ∧
      (∀ r ∈ (allocateAll names c).1, r.2.1 ∈ st.Addresses) ∧
      ∀ r ∈ (allocateAll names c).1, ∀ r' ∈ (allocateAll names c).1,
        r.1 ≠ r'.1 → r.2.1 ≠ r'.2.1 := by
  obtain ⟨st, hd, hinv, -, hall⟩ := allocateAll_spec names c _ hnf hempty
    ⟨by simp [GoMap.keys], by simp [GoMap.values], by simp⟩
  refine ⟨fun r hr => (hall r hr).1, st, hd, ?_, ?_⟩
  · intro r hr
    rw [← hinv.2.1]
    exact GoMap.mem_values_of_lookup _ _ _ (hall r hr).2
  · intro r hr r' hr' hne heq
    apply hne
    refine GoMap.key_eq_of_lookup st.EntryAddresses r.1 r'.1 r.2.1 ?_ (hall r hr).2 ?_
    · rw [hinv.2.1]; exact hinv.2.2
    · rw [heq]; exact (hall r' hr').2

/-- C1 at a run of three calls, two of them for the same name. -/
theorem allocate_vips_distinct_witness :
    (allocateAll ["a-se", "b-se", "a-se"] emptyController).1 =
        [("a-se", "240.0.10.1", none), ("b-se", "240.0.10.2", none),
          ("a-se", "240.0.10.1", none)] ∧
      ((∀ r ∈ (allocateAll ["a-se", "b-se", "a-se"] emptyController).1, r.2.2 = none) ∧
      ∃ st, (allocateAll ["a-se", "b-se", "a-se"] emptyController).2.Server.Data = some st ∧
        (∀ r ∈ (allocateAll ["a-se", "b-se", "a-se"] emptyController).1,
          r.2.1 ∈ st.Addresses) ∧
        ∀ r ∈ (allocateAll ["a-se", "b-se", "a-se"] emptyController).1,
          ∀ r' ∈ (allocateAll ["a-se", "b-se", "a-se"] emptyController).1,
            r.1 ≠ r'.1 → r.2.1 ≠ r'.2.1) :=
  ⟨by decide, allocate_vips_distinct ["a-se", "b-se", "a-se"] emptyController rfl
    ⟨by simp [emptyController], by simp [emptyController]⟩⟩

/-- C3: when the store read from the ConfigMap has `n` addresses and no binding for the
name, a call that succeeds returns the first address not in the list among the addresses
tested in turn from `prefix.(n / 255 + 10).(n % 255 + 1)` by the step `nextIndex` (last
index plus one below 255, else second index plus one and last index `0`); the ConfigMap
then holds the old list with that address appended and the old map with the name bound to
it; and when the first address tested is free it is the one returned. -/
theorem generate_new_address (seName : String) (c c' : ConfigMapController)
    (st : ServiceEntryAddressStore) (a : String)
    (hd : c.Server.Data = some st)
    (hl : GoMap.lookup st.EntryAddresses seName = none)
    (h : GenerateNewAddressAndAddToConfigMap seName c = ((a, none), c')) :
    (∃ j, a = candidate c.IPPrefix
          (st.Addresses.length / 255 + 10, st.Addresses.length % 255 + 1) j ∧
        a ∉ st.Addresses ∧
        ∀ i, i < j → candidate c.IPPrefix
          (st.Addresses.length / 255 + 10, st.Addresses.length % 255 + 1) i ∈ st.Addresses) ∧
      c'.Server.Data = some { EntryAddresses := GoMap.insert st.EntryAddresses seName a
                              Addresses := st.Addresses ++ [a] } ∧
      (renderAddress c.IPPrefix (st.Addresses.length / 255 + 10)
          (st.Addresses.length % 255 + 1) ∉ st.Addresses →
        a = renderAddress c.IPPrefix (st.Addresses.length / 255 + 10)
          (st.Addresses.length % 255 + 1)) := by
  obtain ⟨st0, hst0, hcase, -⟩ := generate_success _ _ _ _ h
  rw [hd] at hst0
  cases hst0
  rcases hcase with ⟨h1, -⟩ | ⟨-, hscan, -, hw⟩
  · rw [hl] at h1
    cases h1
  · obtain ⟨j, -, ha, hnot, hbefore⟩ := scanAddress_eq_some _ _ _ _ _ hscan
    refine ⟨⟨j, ha, hnot, hbefore⟩, hw, ?_⟩
    intro hfree
    cases j with
    | zero => simpa [candidate] using ha
    | succ j =>
      have := hbefore 0 (by omega)
      simp only [candidate, Function.iterate_zero, id_eq] at this
      exact absurd this hfree

/-- C3 at a store whose one address is the first to be tested: the scan moves on by one. -/
theorem generate_new_address_witness :
    GenerateNewAddressAndAddToConfigMap "b-se" crowdedController =
        (("240.0.10.3", none), crowdedControllerAfter) ∧
      ((∃ j, "240.0.10.3" = candidate "240.0" (10, 2) j ∧
          "240.0.10.3" ∉ crowdedStore.Addresses ∧
          ∀ i, i < j → candidate "240.0" (10, 2) i ∈ crowdedStore.Addresses) ∧
        crowdedControllerAfter.Server.Data =
          some { EntryAddresses := GoMap.insert crowdedStore.EntryAddresses "b-se" "240.0.10.3"
                 Addresses := crowdedStore.Addresses ++ ["240.0.10.3"] } ∧
        (renderAddress "240.0" 10 2 ∉ crowdedStore.Addresses →
          "240.0.10.3" = renderAddress "240.0" 10 2)) :=
  ⟨by decide, generate_new_address "b-se" crowdedController crowdedControllerAfter
    crowdedStore "240.0.10.3" rfl (by decide) (by decide)⟩

/-! ## Looking an address up twice -/

theorem getLocal_miss (seName : String) (store : ServiceEntryAddressStore)
    (c : ConfigMapController)
    (h : ((GoMap.lookup store.EntryAddresses seName).getD "").length = 0) :
    GetLocalAddressForSe seName store c =
      (((GenerateNewAddressAndAddToConfigMap seName c).1.1, true,
        (GenerateNewAddressAndAddToConfigMap seName c).1.2),
        (GenerateNewAddressAndAddToConfigMap seName c).2) := by
  simp [GetLocalAddressForSe, h]

theorem getLocal_hit (seName : String) (store : ServiceEntryAddressStore)
    (c : ConfigMapController)
    (h : ((GoMap.lookup store.EntryAddresses seName).getD "").length ≠ 0) :
    GetLocalAddressForSe seName store c =
      (((GoMap.lookup store.EntryAddresses seName).getD "", false, none), c) := by
  simp [GetLocalAddressForSe, h]

theorem generate_success_lookup (seName : String) (c c' : ConfigMapController) (v : String)
    (h : GenerateNewAddressAndAddToConfigMap seName c = ((v, none), c')) :
    ∃ st', c'.Server.Data = some st' ∧ GoMap.lookup st'.EntryAddresses seName = some v := by
  obtain ⟨st, hst, hcase, -⟩ := generate_success _ _ _ _ h
  rcases hcase with ⟨h1, h2⟩ | ⟨-, -, -, hw⟩
  · exact ⟨st, by rw [h2, hst], h1⟩
  · exact ⟨_, hw, GoMap.lookup_insert_self _ _ _⟩

theorem nextGet_of_getsSucceed (c : ConfigMapController) (h : GetsSucceed c) :
    NextGetSucceeds c := by
  intro e rest hr
  have := h (some e) (by simp [hr])
  cases this

theorem generate_again (seName : String) (c : ConfigMapController)
    (st : ServiceEntryAddressStore) (v : String) (hd : c.Server.Data = some st)
    (hl : GoMap.lookup st.EntryAddresses seName = some v) :
    ((GenerateNewAddressAndAddToConfigMap seName c).1.2 = none →
        (GenerateNewAddressAndAddToConfigMap seName c).1.1 = v) ∧
      (NextGetSucceeds c → (GenerateNewAddressAndAddToConfigMap seName c).1.2 = none) := by
  constructor
  · intro h
    rcases hg : GenerateNewAddressAndAddToConfigMap seName c with ⟨⟨v', err⟩, c'⟩
    rw [hg] at h
    simp only at h
    subst h
    exact (generate_eq_of_present _ _ _ _ _ _ hd hl hg).1
  · intro h
    obtain ⟨c', hc', -⟩ := generate_present seName c st v hd hl h
    rw [hc']

theorem load_cases (cache : AdmiralCache) :
    (loadServiceEntryCacheData cache).ConfigMapController.Server =
        cache.ConfigMapController.Server ∧
      (∀ e ∈ (loadServiceEntryCacheData cache).ConfigMapController.GetErrors,
        e ∈ cache.ConfigMapController.GetErrors) ∧
      ((loadServiceEntryCacheData cache).ServiceEntryAddressStore =
          cache.ServiceEntryAddressStore ∨
        cache.ConfigMapController.Server.Data =
          some (loadServiceEntryCacheData cache).ServiceEntryAddressStore) := by
  unfold loadServiceEntryCacheData
  split
  · rename_i c hget
    obtain ⟨-, hs, -, -, hge, -⟩ := GetConfigMap_eq _ _ _ _ hget
    exact ⟨hs, hge, Or.inl rfl⟩
  · rename_i cm c hget
    obtain ⟨hcm, hs, -, -, hge, -⟩ := GetConfigMap_eq _ _ _ _ hget
    subst hcm
    split
    · rename_i entryCache he
      exact ⟨hs, hge, Or.inr he⟩
    · exact ⟨hs, hge, Or.inl rfl⟩

/-- Whatever a call returns, the ConfigMap afterwards is the one before, or holds a store
that has every binding of the store before. -/
theorem generate_server (seName : String) (c : ConfigMapController) :
    (GenerateNewAddressAndAddToConfigMap seName c).2.Server = c.Server ∨
      ∃ st st', c.Server.Data = some st ∧
        (GenerateNewAddressAndAddToConfigMap seName c).2.Server.Data = some st' ∧
        ∀ k w, GoMap.lookup st.EntryAddresses k = some w →
          GoMap.lookup st'.EntryAddresses k = some w := by
  rcases hg : GenerateNewAddressAndAddToConfigMap seName c with ⟨⟨v, err⟩, c'⟩
  cases err with
  | none =>
    obtain ⟨st, hst, hcase, -⟩ := generate_success _ _ _ _ hg
    rcases hcase with ⟨-, h2⟩ | ⟨h1, -, -, hw⟩
    · exact Or.inl h2
    · refine Or.inr ⟨st, _, hst, hw, ?_⟩
      intro k w hk
      have hne : seName ≠ k := by
        intro e
        subst e
        rw [h1] at hk
        cases hk
      simpa [GoMap.lookup_insert_ne _ _ _ _ hne] using hk
  | some e =>
    left
    unfold GenerateNewAddressAndAddToConfigMap at hg
    split at hg
    · rename_i c1 hget
      obtain ⟨-, hs, -⟩ := GetConfigMap_eq _ _ _ _ hget
      simp only [Prod.mk.injEq] at hg
      rw [← hg.2]
      exact hs
    · rename_i cm c1 hget
      obtain ⟨-, hs, -⟩ := GetConfigMap_eq _ _ _ _ hget
      split at hg
      · simp only [Prod.mk.injEq] at hg
        rw [← hg.2]
        exact hs
      · split at hg
        · simp at hg
        · simp only at hg
          split at hg
          · simp only [Prod.mk.injEq] at hg
            rw [← hg.2]
            exact hs
          · split at hg
            · rename_i err2 c2 hput
              simp only [Prod.mk.injEq] at hg
              rw [← hg.2]
              unfold putServiceEntryStateFromConfigmap at hput
              simp only at hput
              split at hput
              · simp only [Prod.mk.injEq] at hput
                rw [← hput.2]
                exact hs
              · obtain ⟨-, -, -, -, q5⟩ := PutConfigMap_eq _ _ _ _ hput
                rw [(q5 err2 rfl).2]
                exact hs
            · simp at hg

/-- The in-memory store stays a part of the store in the ConfigMap when the ConfigMap is
left as it is or gains bindings. -/
theorem cacheCoherent_of_server (cache : AdmiralCache) (c' : ConfigMapController)
    (hcoh : CacheCoherent cache)
    (h : c'.Server = cache.ConfigMapController.Server ∨
      ∃ st st', cache.ConfigMapController.Server.Data = some st ∧
        c'.Server.Data = some st' ∧
        ∀ k w, GoMap.lookup st.EntryAddresses k = some w →
          GoMap.lookup st'.EntryAddresses k = some w) :
    CacheCoherent { cache with ConfigMapController := c' } := by
  intro st1 hst1 k v hk hv
  simp only at hst1 hk
  rcases h with h | ⟨st, st', hd, hd', hmono⟩
  · rw [h] at hst1
    exact hcoh st1 hst1 k v hk hv
  · rw [hd'] at hst1
    cases hst1
    exact hmono k v (hcoh st hd k v hk hv)

theorem cacheCoherent_loop (seName : String) (cache : AdmiralCache) :
    ∀ (remaining : Nat) (c : ConfigMapController) (address : String) (needs : Bool),
      CacheCoherent { cache with ConfigMapController := c } →
      CacheCoherent { cache with ConfigMapController :=
        (getUniqueAddressLoop seName cache.ServiceEntryAddressStore remaining c address
          needs).2 } := by
  intro remaining
  induction remaining with
  | zero => intro c address needs h; simpa [getUniqueAddressLoop] using h
  | succ n ih =>
    intro c address needs h
    have hstep : CacheCoherent { cache with ConfigMapController :=
        (GetLocalAddressForSe seName cache.ServiceEntryAddressStore c).2 } := by
      by_cases hm : ((GoMap.lookup cache.ServiceEntryAddressStore.EntryAddresses
          seName).getD "").length = 0
      · rw [getLocal_miss _ _ _ hm]
        exact cacheCoherent_of_server { cache with ConfigMapController := c } _ h
          (generate_server seName c)
      · rw [getLocal_hit _ _ _ hm]
        exact h
    rcases hr : GetLocalAddressForSe seName cache.ServiceEntryAddressStore c with
      ⟨⟨a, b, err⟩, c1⟩
    rw [hr] at hstep
    cases err with
    | some e => simpa [getUniqueAddressLoop, hr] using hstep
    | none =>
      simp only [getUniqueAddressLoop, hr]
      exact ih c1 a b hstep

/-- The hypothesis of C2 holds of every cache the code produces: a cache whose in-memory
store is empty satisfies it, and `getUniqueAddress` keeps it. -/
theorem cacheCoherent_reachable (cache : AdmiralCache) (globalFqdn : String) :
    (cache.ServiceEntryAddressStore.EntryAddresses = [] → CacheCoherent cache) ∧
      (CacheCoherent cache → CacheCoherent (getUniqueAddress cache globalFqdn).2) := by
  constructor
  · intro hempty st _ k v hk
    rw [hempty] at hk
    simp [GoMap.lookup] at hk
  · intro hcoh
    have hloop := cacheCoherent_loop (getIstioResourceName globalFqdn "-se") cache 3
      cache.ConfigMapController "" false hcoh
    unfold getUniqueAddress
    simp only
    rcases hr : getUniqueAddressLoop (getIstioResourceName globalFqdn "-se")
      cache.ServiceEntryAddressStore 3 cache.ConfigMapController "" false with
      ⟨⟨a, b, err⟩, c1⟩
    rw [hr] at hloop
    simp only at hloop
    cases err with
    | some e => exact hloop
    | none =>
      simp only
      cases b with
      | false => simpa using hloop
      | true =>
        simp only [if_true]
        obtain ⟨hserver, -, hstore⟩ := load_cases { cache with ConfigMapController := c1 }
        intro st1 hst1 k v hk hv
        rw [hserver] at hst1
        rcases hstore with hs | hs
        · rw [hs] at hk
          exact hloop st1 hst1 k v hk hv
        · simp only at hs hst1
          rw [hs] at hst1
          cases hst1
          exact hk

theorem getLocal_again (seName : String) (store : ServiceEntryAddressStore)
    (c : ConfigMapController) (st : ServiceEntryAddressStore) (v : String)
    (hd : c.Server.Data = some st) (hl : GoMap.lookup st.EntryAddresses seName = some v)
    (hstore : ((GoMap.lookup store.EntryAddresses seName).getD "").length ≠ 0 →
      (GoMap.lookup store.EntryAddresses seName).getD "" = v) :
    ((GetLocalAddressForSe seName store c).1.2.2 = none →
        (GetLocalAddressForSe seName store c).1.1 = v) ∧
      (GetsSucceed c → (GetLocalAddressForSe seName store c).1.2.2 = none) := by
  by_cases hm : ((GoMap.lookup store.EntryAddresses seName).getD "").length = 0
  · rw [getLocal_miss _ _ _ hm]
    obtain ⟨h1, h2⟩ := generate_again seName c st v hd hl
    exact ⟨h1, fun hg => h2 (nextGet_of_getsSucceed c hg)⟩
  · rw [getLocal_hit _ _ _ hm]
    exact ⟨fun _ => hstore hm, fun _ => rfl⟩

/-- C2: once `GenerateNewAddressAndAddToConfigMap` has returned an address for a name, a
second call whose fetch succeeds returns the same address and leaves the ConfigMap as it
is; and after `GetLocalAddressForSe` has returned an address, the next call for the name,
if it returns no error, returns the same address, both when the in-memory store is left
as it was and when it is reloaded in between; the next call returns no error when the
fetches to come succeed.  The in-memory store is one that was loaded from the ConfigMap. -/
theorem lookup_twice_same (seName : String) (cache : AdmiralCache) (v : String)
    (hcoh : CacheCoherent cache) :
    (∀ c1, GenerateNewAddressAndAddToConfigMap seName cache.ConfigMapController =
          ((v, none), c1) → NextGetSucceeds c1 →
        ∃ c2, GenerateNewAddressAndAddToConfigMap seName c1 = ((v, none), c2) ∧
          c2.Server = c1.Server) ∧
    (∀ b c1, GetLocalAddressForSe seName cache.ServiceEntryAddressStore
          cache.ConfigMapController = ((v, b, none), c1) →
      (((GetLocalAddressForSe seName cache.ServiceEntryAddressStore c1).1.2.2 = none →
          (GetLocalAddressForSe seName cache.ServiceEntryAddressStore c1).1.1 = v) ∧
        (GetsSucceed c1 →
          (GetLocalAddressForSe seName cache.ServiceEntryAddressStore c1).1.2.2 = none)) ∧
      (((GetLocalAddressForSe seName
            (loadServiceEntryCacheData
              { cache with ConfigMapController := c1 }).ServiceEntryAddressStore
            (loadServiceEntryCacheData
              { cache with ConfigMapController := c1 }).ConfigMapController).1.2.2 = none →
          (GetLocalAddressForSe seName
            (loadServiceEntryCacheData
              { cache with ConfigMapController := c1 }).ServiceEntryAddressStore
            (loadServiceEntryCacheData
              { cache with ConfigMapController := c1 }).ConfigMapController).1.1 = v) ∧
        (GetsSucceed c1 →
          (GetLocalAddressForSe seName
            (loadServiceEntryCacheData
              { cache with ConfigMapController := c1 }).ServiceEntryAddressStore
            (loadServiceEntryCacheData
              { cache with ConfigMapController := c1 }).ConfigMapController).1.2.2 =
            none))) := by
  constructor
  · intro c1 h hg
    obtain ⟨st', hd', hl'⟩ := generate_success_lookup _ _ _ _ h
    exact generate_present seName c1 st' v hd' hl' hg
  · intro b c1 h
    obtain ⟨hserver, hge, hstore⟩ :=
      load_cases { cache with ConfigMapController := c1 }
    simp only at hserver hge hstore
    have hgets : GetsSucceed c1 → GetsSucceed
        (loadServiceEntryCacheData { cache with ConfigMapController := c1 }).ConfigMapController :=
      fun hg e he => hg e (hge e he)
    by_cases hm : ((GoMap.lookup cache.ServiceEntryAddressStore.EntryAddresses
        seName).getD "").length = 0
    · -- the first call asked the ConfigMap
      rw [getLocal_miss _ _ _ hm] at h
      simp only [Prod.mk.injEq] at h
      obtain ⟨⟨h1, -, h3⟩, h4⟩ := h
      have hgen : GenerateNewAddressAndAddToConfigMap seName cache.ConfigMapController =
          ((v, none), c1) := by
        rw [← h1, ← h3, ← h4]
      obtain ⟨st', hd', hl'⟩ := generate_success_lookup _ _ _ _ hgen
      refine ⟨getLocal_again seName _ c1 st' v hd' hl' (fun hne => absurd hm hne), ?_⟩
      have hd'' : (loadServiceEntryCacheData
          { cache with ConfigMapController := c1 }).ConfigMapController.Server.Data =
          some st' := by rw [hserver, hd']
      have hres := getLocal_again seName
        (loadServiceEntryCacheData
          { cache with ConfigMapController := c1 }).ServiceEntryAddressStore
        (loadServiceEntryCacheData
          { cache with ConfigMapController := c1 }).ConfigMapController st' v hd'' hl' (by
            rcases hstore with hs | hs
            · intro hne
              rw [hs] at hne
              exact absurd hm hne
            · intro _
              rw [hd'] at hs
              cases hs
              simp [hl'])
      exact ⟨hres.1, fun hg => hres.2 (hgets hg)⟩
    · -- the first call was answered from the in-memory store
      rw [getLocal_hit _ _ _ hm] at h
      simp only [Prod.mk.injEq] at h
      obtain ⟨⟨h1, -, -⟩, h4⟩ := h
      subst h4
      refine ⟨by rw [getLocal_hit _ _ _ hm]; exact ⟨fun _ => h1, fun _ => rfl⟩, ?_⟩
      have hne' : ((GoMap.lookup (loadServiceEntryCacheData
          { cache with ConfigMapController := cache.ConfigMapController
            }).ServiceEntryAddressStore.EntryAddresses seName).getD "").length ≠ 0 ∧
          (GoMap.lookup (loadServiceEntryCacheData
          { cache with ConfigMapController := cache.ConfigMapController
            }).ServiceEntryAddressStore.EntryAddresses seName).getD "" = v := by
        rcases hstore with hs | hs
        · rw [hs]
          exact ⟨hm, h1⟩
        · cases hlk : GoMap.lookup cache.ServiceEntryAddressStore.EntryAddresses seName with
          | none => simp [hlk] at hm
          | some w =>
            simp only [hlk, Option.getD_some] at hm h1
            subst h1
            have := hcoh _ hs seName w hlk hm
            simp [this, hm]
      rw [getLocal_hit _ _ _ hne'.1]
      exact ⟨fun _ => hne'.2, fun _ => rfl⟩

/-- C2 at a cache that has not yet been loaded, over a ConfigMap with one binding. -/
theorem lookup_twice_same_witness :
    GetLocalAddressForSe "b-se" coldCache.ServiceEntryAddressStore
        coldCache.ConfigMapController = (("240.0.10.3", true, none), crowdedControllerAfter) ∧
      (GetLocalAddressForSe "b-se" coldCache.ServiceEntryAddressStore
        crowdedControllerAfter).1.1 = "240.0.10.3" ∧
      (GetLocalAddressForSe "b-se"
        (loadServiceEntryCacheData
          { coldCache with ConfigMapController := crowdedControllerAfter
            }).ServiceEntryAddressStore
        (loadServiceEntryCacheData
          { coldCache with ConfigMapController := crowdedControllerAfter
            }).ConfigMapController).1.1 = "240.0.10.3" ∧
      (∃ c2, GenerateNewAddressAndAddToConfigMap "b-se" crowdedControllerAfter =
          (("240.0.10.3", none), c2) ∧ c2.Server = crowdedControllerAfter.Server) :=
  have hcoh : CacheCoherent coldCache := by
    intro st _ k w hk
    simp [coldCache, GoMap.lookup] at hk
  have hgets : GetsSucceed crowdedControllerAfter := by
    intro e he
    simp [crowdedControllerAfter] at he
  have hall := lookup_twice_same "b-se" coldCache "240.0.10.3" hcoh
  have hfirst : GetLocalAddressForSe "b-se" coldCache.ServiceEntryAddressStore
      coldCache.ConfigMapController = (("240.0.10.3", true, none), crowdedControllerAfter) := by
    decide
  ⟨hfirst,
    ((hall.2 true crowdedControllerAfter hfirst).1.1
      ((hall.2 true crowdedControllerAfter hfirst).1.2 hgets)),
    ((hall.2 true crowdedControllerAfter hfirst).2.1
      ((hall.2 true crowdedControllerAfter hfirst).2.2 hgets)),
    hall.1 crowdedControllerAfter (by decide) (nextGet_of_getsSucceed _ hgets)⟩

/-! ## The retry loop of `getUniqueAddress` -/

/-- C4: when the first fetch of the ConfigMap fails and the next would succeed,
`getUniqueAddress` returns the empty address after that one attempt: the schedule of
fetch errors has lost its first entry only, the in-memory store is as it was, and the
attempt that would have followed returns an address. -/
theorem getUniqueAddress_stops_on_error :
    (GetLocalAddressForSe (getIstioResourceName "foo.global" "-se")
        flakyCache.ServiceEntryAddressStore flakyCache.ConfigMapController).1 =
        ("", true, some "timeout") ∧
      getUniqueAddress flakyCache "foo.global" =
        ("", { flakyCache with
          ConfigMapController := { flakyCache.ConfigMapController with GetErrors := [] } }) ∧
      (GetLocalAddressForSe (getIstioResourceName "foo.global" "-se")
        (getUniqueAddress flakyCache "foo.global").2.ServiceEntryAddressStore
        (getUniqueAddress flakyCache "foo.global").2.ConfigMapController).1 =
        ("240.0.10.1", true, none) := by
  decide

/-! ## The choice of the active global traffic policy -/

theorem gtpLess_eq_false (key : String) (a b : GlobalTrafficPolicy) :
    gtpLess key a b = false ↔
      ¬ (getGtpPriority key a > getGtpPriority key b ∨
        (getGtpPriority key a = getGtpPriority key b ∧
          a.CreationTimestamp > b.CreationTimestamp)) := by
  unfold gtpLess
  simp only
  split
  · rename_i h
    simp only [decide_eq_false_iff_not]
    constructor
    · intro h1 h2
      rcases h2 with h2 | h2
      · exact h1 h2
      · exact h h2.1
    · intro h1 h2
      exact h1 (Or.inl h2)
  · rename_i h
    simp only [ne_eq, not_not] at h
    simp only [decide_eq_false_iff_not]
    constructor
    · intro h1 h2
      rcases h2 with h2 | h2
      · omega
      · exact h1 h2.2
    · intro h1 h2
      exact h1 (Or.inr ⟨h, h2⟩)

theorem gtpLess_irrefl (key : String) (a : GlobalTrafficPolicy) : gtpLess key a a = false := by
  rw [gtpLess_eq_false]
  omega

theorem gtpLess_false_trans (key : String) (a b c : GlobalTrafficPolicy)
    (h1 : gtpLess key b a = false) (h2 : gtpLess key c b = false) :
    gtpLess key c a = false := by
  rw [gtpLess_eq_false] at h1 h2 ⊢
  omega

theorem gtpLess_asymm (key : String) (a b : GlobalTrafficPolicy)
    (h : gtpLess key a b = true) : gtpLess key b a = false := by
  have h' : ¬ gtpLess key a b = false := by simp [h]
  rw [gtpLess_eq_false] at h' ⊢
  omega

theorem gtpInsert_perm (key : String) (g : GlobalTrafficPolicy) :
    ∀ l, (gtpInsert key g l).Perm (g :: l) := by
  intro l
  induction l with
  | nil => simp [gtpInsert]
  | cons h t ih =>
    simp only [gtpInsert]
    split
    · exact ((List.Perm.cons h ih).trans (List.Perm.swap g h t))
    · exact List.Perm.refl _

theorem gtpInsert_sorted (key : String) (g : GlobalTrafficPolicy) :
    ∀ l, l.Pairwise (fun a b => gtpLess key b a = false) →
      (gtpInsert key g l).Pairwise (fun a b => gtpLess key b a = false) := by
  intro l
  induction l with
  | nil => intro _; simp [gtpInsert]
  | cons h t ih =>
    intro hs
    rw [List.pairwise_cons] at hs
    simp only [gtpInsert]
    split
    · rename_i hlt
      rw [List.pairwise_cons]
      refine ⟨?_, ih hs.2⟩
      intro x hx
      rcases List.mem_cons.1 ((gtpInsert_perm key g t).mem_iff.1 hx) with rfl | hx
      · exact gtpLess_asymm key h x hlt
      · exact hs.1 x hx
    · rename_i hlt
      have hlt' : gtpLess key h g = false := by simpa using hlt
      rw [List.pairwise_cons]
      refine ⟨?_, List.pairwise_cons.2 hs⟩
      intro x hx
      rcases List.mem_cons.1 hx with rfl | hx
      · exact hlt'
      · exact gtpLess_false_trans key g h x hlt' (hs.1 x hx)

/-- The insertion sort does what `sort.Slice` is documented to do. -/
theorem gtpInsertionSort_sorts (key : String) : SortsGtps key (gtpInsertionSort key) := by
  intro l
  induction l with
  | nil => simp [gtpInsertionSort]
  | cons g t ih =>
    simp only [gtpInsertionSort]
    exact ⟨(gtpInsert_perm key g _).trans (List.Perm.cons g ih.1),
      gtpInsert_sorted key g _ ih.2⟩

theorem foldl_flatten {α : Type} (gtps : GoMap (List α)) (acc : List α) :
    gtps.foldl (fun acc kv => acc ++ kv.2) acc = acc ++ (gtps.map Prod.snd).flatten := by
  induction gtps generalizing acc with
  | nil => simp
  | cons kv t ih => simp [ih]

theorem head_of_sorted (key : String)
    (sortSlice : List GlobalTrafficPolicy → List GlobalTrafficPolicy)
    (hs : SortsGtps key sortSlice) (flat : List GlobalTrafficPolicy) (hne : flat ≠ []) :
    ∃ g rest, (if flat.length > 1 then sortSlice flat else flat) = g :: rest ∧ g ∈ flat ∧
      ∀ h ∈ flat, gtpLess key h g = false := by
  by_cases hlen : flat.length > 1
  · simp only [hlen, if_true]
    obtain ⟨hperm, hsorted⟩ := hs flat
    cases hsort : sortSlice flat with
    | nil =>
      have := hperm.length_eq
      rw [hsort] at this
      simp at this
      omega
    | cons g rest =>
      rw [hsort] at hperm hsorted
      refine ⟨g, rest, rfl, hperm.mem_iff.1 (List.mem_cons_self _ _), ?_⟩
      intro h hh
      rcases List.mem_cons.1 (hperm.mem_iff.2 hh) with rfl | hr
      · exact gtpLess_irrefl key h
      · exact (List.pairwise_cons.1 hsorted).1 h hr
  · simp only [hlen, if_false]
    cases flat with
    | nil => exact absurd rfl hne
    | cons g rest =>
      cases rest with
      | nil =>
        refine ⟨g, [], rfl, List.mem_cons_self _ _, ?_⟩
        intro h hh
        simp only [List.mem_singleton] at hh
        subst hh
        exact gtpLess_irrefl key h
      | cons g' rest' =>
        simp at hlen

theorem digitChar_isDigit (d : Nat) (h : d < 10) : (Nat.digitChar d).isDigit = true := by
  interval_cases d <;> decide

theorem toDigitsCore_isDigit (fuel : Nat) : ∀ (n : Nat) (ds : List Char),
    (∀ c ∈ ds, c.isDigit = true) → ∀ c ∈ Nat.toDigitsCore 10 fuel n ds, c.isDigit = true := by
  induction fuel with
  | zero => intro n ds h; simpa [Nat.toDigitsCore] using h
  | succ fuel ih =>
    intro n ds h
    have hd : ∀ c ∈ Nat.digitChar (n % 10) :: ds, c.isDigit = true := by
      intro c hc
      rcases List.mem_cons.1 hc with h1 | h1
      · rw [h1]
        exact digitChar_isDigit _ (Nat.mod_lt _ (by decide))
      · exact h c h1
    simp only [Nat.toDigitsCore]
    split
    · exact hd
    · exact ih _ _ hd

theorem toString_isDigit (n : Nat) : ∀ c ∈ (toString n).data, c.isDigit = true := by
  show ∀ c ∈ Nat.toDigitsCore 10 (n + 1) n [], c.isDigit = true
  exact toDigitsCore_isDigit (n + 1) n [] (by simp)

theorem toString_ne_nil (n : Nat) : (toString n).data ≠ [] := by
  show Nat.toDigitsCore 10 (n + 1) n [] ≠ []
  simp only [Nat.toDigitsCore]
  split
  · simp
  · rw [toDigitsCore_acc]
    simp

/-- The digits that `strconv.Itoa` writes for a number parse back to the number. -/
theorem parseDigits_toString (n : Nat) : parseDigits (toString n).data = some n := by
  have hne := toString_ne_nil n
  have hall : (toString n).data.all Char.isDigit = true :=
    List.all_eq_true.2 (toString_isDigit n)
  have hval := decimalValue_toString n
  unfold decimalValue at hval
  cases hd : (toString n).data with
  | nil => exact absurd hd hne
  | cons c t =>
    rw [hd] at hall hval
    unfold parseDigits
    simp only [hall, if_true, hval]

theorem Atoi_toString (n : Nat) (h : n ≤ 9223372036854775807) :
    Atoi (toString n).data = some (n : Int) := by
  have hp := parseDigits_toString n
  have hdig := toString_isDigit n
  have hne := toString_ne_nil n
  cases hd : (toString n).data with
  | nil => exact absurd hd hne
  | cons c t =>
    rw [hd] at hp hdig
    have hc : c.isDigit = true := hdig c (List.mem_cons_self _ _)
    have hminus : c ≠ '-' := by
      intro e
      rw [e] at hc
      exact absurd hc (by decide)
    have hplus : c ≠ '+' := by
      intro e
      rw [e] at hc
      exact absurd hc (by decide)
    have hv : (match c :: t with
        | '-' :: ds => (parseDigits ds).map (fun n => - (n : Int))
        | '+' :: ds => (parseDigits ds).map (fun n => (n : Int))
        | ds => (parseDigits ds).map (fun n => (n : Int))) = some (n : Int) := by
      split
      · rename_i ds heq
        exact absurd (List.cons.inj heq).1 hminus
      · rename_i ds heq
        exact absurd (List.cons.inj heq).1 hplus
      · rw [hp]
        rfl
    unfold Atoi
    simp only [hv]
    have hr : (-9223372036854775808 : Int) ≤ (n : Int) ∧ (n : Int) ≤ 9223372036854775807 := by
      constructor <;> omega
    rw [if_pos hr]

theorem Atoi_neg_toString (n : Nat) (h : n ≤ 9223372036854775808) :
    Atoi ('-' :: (toString n).data) = some (- (n : Int)) := by
  have hr : (-9223372036854775808 : Int) ≤ - (n : Int) ∧ - (n : Int) ≤ 9223372036854775807 := by
    constructor <;> omega
  unfold Atoi
  simp only
  rw [parseDigits_toString]
  show (if (-9223372036854775808 : Int) ≤ - (n : Int) ∧ - (n : Int) ≤ 9223372036854775807
    then some (- (n : Int)) else none) = some (- (n : Int))
  rw [if_pos hr]

/-- C5: `updateGlobalGtpCache` makes exactly one call on the cache.  When the lists of all
clusters together are empty it deletes the entry of the identity and env; otherwise it
puts one policy of the lists, and no policy of the lists has a higher priority, or the
same priority and a later creation timestamp.  The priority of a policy is the number its
priority label holds, blanks around it set aside, and `0` without the label.  When the
lists hold policies with the priority labels and timestamps (`5`, 1), (`10`, 0), (`10`, 2),
in any arrangement, the one put is the third.  `sortSlice` is any function that does what
`sort.Slice` is documented to do. -/
theorem updateGlobalGtpCache_selects (key : String)
    (sortSlice : List GlobalTrafficPolicy → List GlobalTrafficPolicy)
    (hs : SortsGtps key sortSlice) (identity env : String)
    (gtps : GoMap (List GlobalTrafficPolicy)) :
    ((gtps.map Prod.snd).flatten = [] →
      updateGlobalGtpCache sortSlice identity env gtps = [GtpCacheOp.Delete identity env]) ∧
    ((gtps.map Prod.snd).flatten ≠ [] →
      ∃ g, updateGlobalGtpCache sortSlice identity env gtps = [GtpCacheOp.Put g] ∧
        g ∈ (gtps.map Prod.snd).flatten ∧
        ∀ h ∈ (gtps.map Prod.snd).flatten,
          ¬ (getGtpPriority key h > getGtpPriority key g ∨
            (getGtpPriority key h = getGtpPriority key g ∧
              h.CreationTimestamp > g.CreationTimestamp))) ∧
    (∀ gtp : GlobalTrafficPolicy, GoMap.lookup gtp.Labels key = none →
      getGtpPriority key gtp = 0) ∧
    (∀ (gtp : GlobalTrafficPolicy) (val : String) (n : Nat),
      GoMap.lookup gtp.Labels key = some val →
      (TrimSpace val.data = (toString n).data → n ≤ 9223372036854775807 →
        getGtpPriority key gtp = (n : Int)) ∧
      (TrimSpace val.data = '-' :: (toString n).data → n ≤ 9223372036854775808 →
        getGtpPriority key gtp = - (n : Int))) ∧
    (∀ a b c : GlobalTrafficPolicy,
      GoMap.lookup a.Labels key = some "5" → a.CreationTimestamp = 1 →
      GoMap.lookup b.Labels key = some "10" → b.CreationTimestamp = 0 →
      GoMap.lookup c.Labels key = some "10" → c.CreationTimestamp = 2 →
      ((gtps.map Prod.snd).flatten).Perm [a, b, c] →
      updateGlobalGtpCache sortSlice identity env gtps = [GtpCacheOp.Put c]) := by
  have hflat : gtps.foldl (fun acc gtpsInCluster => acc ++ gtpsInCluster.2) [] =
      (gtps.map Prod.snd).flatten := by
    rw [foldl_flatten]; simp
  have hmain : (gtps.map Prod.snd).flatten ≠ [] →
      ∃ g, updateGlobalGtpCache sortSlice identity env gtps = [GtpCacheOp.Put g] ∧
        g ∈ (gtps.map Prod.snd).flatten ∧
        ∀ h ∈ (gtps.map Prod.snd).flatten,
          ¬ (getGtpPriority key h > getGtpPriority key g ∨
            (getGtpPriority key h = getGtpPriority key g ∧
              h.CreationTimestamp > g.CreationTimestamp)) := by
    intro hne
    obtain ⟨g, rest, hsort, hmem, hbest⟩ := head_of_sorted key sortSlice hs _ hne
    refine ⟨g, ?_, hmem, fun h hh => (gtpLess_eq_false key h g).1 (hbest h hh)⟩
    have hlen : ¬ ((gtps.map Prod.snd).flatten).length = 0 := by
      intro h0
      exact hne (List.length_eq_zero.1 h0)
    unfold updateGlobalGtpCache
    simp only [hflat, hlen, if_false, hsort]
  have hlabel : ∀ (gtp : GlobalTrafficPolicy) (val : String) (n : Nat),
      GoMap.lookup gtp.Labels key = some val →
      (TrimSpace val.data = (toString n).data → n ≤ 9223372036854775807 →
        getGtpPriority key gtp = (n : Int)) ∧
      (TrimSpace val.data = '-' :: (toString n).data → n ≤ 9223372036854775808 →
        getGtpPriority key gtp = - (n : Int)) := by
    intro gtp val n hl
    constructor
    · intro ht hn
      unfold getGtpPriority
      rw [hl]
      simp only [ht, Atoi_toString n hn]
    · intro ht hn
      unfold getGtpPriority
      rw [hl]
      simp only [ht, Atoi_neg_toString n hn]
  refine ⟨?_, hmain, ?_, hlabel, ?_⟩
  · intro hnil
    unfold updateGlobalGtpCache
    simp [hflat, hnil]
  · intro gtp hl
    unfold getGtpPriority
    rw [hl]
  · intro a b c la ta lb tb lc tc hperm
    have pa : getGtpPriority key a = 5 :=
      (hlabel a "5" 5 la).1 (by decide) (by decide)
    have pb : getGtpPriority key b = 10 :=
      (hlabel b "10" 10 lb).1 (by decide) (by decide)
    have pc : getGtpPriority key c = 10 :=
      (hlabel c "10" 10 lc).1 (by decide) (by decide)
    have hne : (gtps.map Prod.snd).flatten ≠ [] := by
      intro h0
      rw [h0] at hperm
      have := hperm.length_eq
      simp at this
    obtain ⟨g, hg, hmem, hbest⟩ := hmain hne
    rw [hg]
    have hb := hbest b (hperm.mem_iff.2 (by simp))
    have hc := hbest c (hperm.mem_iff.2 (by simp))
    have hgmem := hperm.mem_iff.1 hmem
    simp only [List.mem_cons, List.mem_singleton, List.not_mem_nil, or_false] at hgmem
    rcases hgmem with rfl | rfl | rfl
    · omega
    · omega
    · rfl

/-- C5 at the example, with the first two policies in one cluster and the third in
another, sorted by insertion; at two policies of which the one of the higher priority is
the older, which is the one put, also with blanks around its number; and at a label that
is no number, which counts as priority `0`. -/
theorem updateGlobalGtpCache_selects_witness :
    updateGlobalGtpCache (gtpInsertionSort "priority") "id" "stage"
        [("cluster1", [gtpA, gtpB]), ("cluster2", [gtpC])] = [GtpCacheOp.Put gtpC] ∧
      updateGlobalGtpCache (gtpInsertionSort "priority") "id" "stage" [("cluster1", [])] =
        [GtpCacheOp.Delete "id" "stage"] ∧
      updateGlobalGtpCache (gtpInsertionSort "priority") "id" "stage"
        [("cluster1", [gtpA]), ("cluster2", [gtpB])] = [GtpCacheOp.Put gtpB] ∧
      updateGlobalGtpCache (gtpInsertionSort "priority") "id" "stage"
        [("cluster1", [gtpA, gtpPadded])] = [GtpCacheOp.Put gtpPadded] ∧
      updateGlobalGtpCache (gtpInsertionSort "priority") "id" "stage"
        [("cluster1", [gtpUnlabelled, gtpA])] = [GtpCacheOp.Put gtpA] ∧
      getGtpPriority "priority" gtpA = 5 ∧ getGtpPriority "priority" gtpPadded = 10 ∧
      getGtpPriority "priority" gtpUnlabelled = 0 :=
  have h := updateGlobalGtpCache_selects "priority" (gtpInsertionSort "priority")
    (gtpInsertionSort_sorts "priority") "id" "stage"
    [("cluster1", [gtpA, gtpB]), ("cluster2", [gtpC])]
  have h' := updateGlobalGtpCache_selects "priority" (gtpInsertionSort "priority")
    (gtpInsertionSort_sorts "priority") "id" "stage" [("cluster1", [])]
  ⟨h.2.2.2.2 gtpA gtpB gtpC (by decide) (by decide) (by decide) (by decide) (by decide)
    (by decide) (List.Perm.refl _), h'.1 (by decide), by decide, by decide, by decide,
    ((h.2.2.2.1 gtpA "5" 5 (by decide)).1 (by decide) (by decide)),
    ((h.2.2.2.1 gtpPadded " 10 " 10 (by decide)).1 (by decide) (by decide)), by decide⟩

/-! ## Weighted services -/

theorem splitEndpoints_eq (clusterIngress : String) (eps : List Endpoint) :
    splitEndpoints clusterIngress eps =
      (eps.filter (fun ep => !matchesIngress clusterIngress ep),
        (eps.filter (matchesIngress clusterIngress)).getLast?) := by
  unfold splitEndpoints
  induction eps using List.reverseRecOn with
  | nil => simp
  | append_singleton l x ih =>
    rw [List.foldl_append, ih]
    by_cases hx : x.Address = clusterIngress ∨ x.Address = ""
    · have hm : matchesIngress clusterIngress x = true := by simp [matchesIngress, hx]
      simp [List.filter_append, hm, hx, List.getLast?_append]
    · have hm : matchesIngress clusterIngress x = false := by simp [matchesIngress, hx]
      simp [List.filter_append, hm, hx]

theorem uint32_of_pos (w : Int) (h0 : 0 < w) (h1 : w < 4294967296) : uint32 w = w.toNat := by
  unfold uint32
  rw [Int.emod_eq_of_lt (le_of_lt h0) h1]

theorem weighted_fold (replaced : Endpoint) (meshPorts : GoMap Nat) :
    ∀ (ws : GoMap WeightedService) (acc : List Endpoint),
      (∀ kv ∈ ws, kv.2.Weight < 4294967296) →
      ws.foldl (fun (endpoints : List Endpoint) kv =>
        if kv.2.Weight ≤ 0 then endpoints
        else endpoints ++ [{ copyEndpoint replaced with
          Ports := meshPorts
          Address := localFqdnOf kv.2.Service
          Weight := uint32 kv.2.Weight }]) acc =
      acc ++ ((ws.filter (fun kv => decide (0 < kv.2.Weight))).map
        (fun kv => weightedEndpoint replaced meshPorts kv.2)) := by
  intro ws
  induction ws with
  | nil => intro acc _; simp
  | cons kv t ih =>
    intro acc hr
    have hkv := hr kv (List.mem_cons_self _ _)
    have ht : ∀ kv ∈ t, kv.2.Weight < 4294967296 :=
      fun x hx => hr x (List.mem_cons_of_mem _ hx)
    rw [List.foldl_cons]
    by_cases hw : kv.2.Weight ≤ 0
    · have hn : ¬ 0 < kv.2.Weight := by omega
      simp only [hw, if_true]
      rw [ih acc ht]
      simp [List.filter_cons, hn]
    · have hp : 0 < kv.2.Weight := by omega
      simp only [hw, if_false]
      rw [ih _ ht]
      simp [List.filter_cons, hp, weightedEndpoint, copyEndpoint, localFqdnOf,
        uint32_of_pos _ hp hkv]

/-- C6: `updateEndpointsForWeightedServices` leaves the service entry as it is when no
endpoint has the cluster ingress or the empty string as its address.  Otherwise the
endpoints become those that did not match, in their order, followed by one endpoint for
every weighted service of weight above `0`, in the iteration order of the map: a copy of
the last endpoint that matched with the address `<name>.<namespace>.svc.cluster.local`,
the mesh ports and the weight of the service.  A service of weight `0` or less gives no
endpoint.  Weights are `int32` values. -/
theorem weighted_services_expansion (serviceEntry : ServiceEntry)
    (weightedServices : GoMap WeightedService) (clusterIngress : String)
    (meshPorts : GoMap Nat) (hr : ∀ kv ∈ weightedServices, kv.2.Weight < 4294967296) :
    ((∀ ep ∈ serviceEntry.Endpoints, ¬ (ep.Address = clusterIngress ∨ ep.Address = "")) →
      updateEndpointsForWeightedServices serviceEntry weightedServices clusterIngress
        meshPorts = serviceEntry) ∧
    (∀ replaced,
      (serviceEntry.Endpoints.filter (matchesIngress clusterIngress)).getLast? =
        some replaced →
      updateEndpointsForWeightedServices serviceEntry weightedServices clusterIngress
          meshPorts =
        { serviceEntry with
          Endpoints :=
            serviceEntry.Endpoints.filter (fun ep => !matchesIngress clusterIngress ep) ++
            (weightedServices.filter (fun kv => decide (0 < kv.2.Weight))).map
              (fun kv => weightedEndpoint replaced meshPorts kv.2) }) ∧
    (∀ (replaced : Endpoint) (ws : WeightedService), 0 < ws.Weight →
      (weightedEndpoint replaced meshPorts ws).Address =
          ws.Service.Name ++ "." ++ ws.Service.Namespace ++ ".svc.cluster.local" ∧
        (weightedEndpoint replaced meshPorts ws).Ports = meshPorts ∧
        ((weightedEndpoint replaced meshPorts ws).Weight : Int) = ws.Weight) := by
  refine ⟨?_, ?_, ?_⟩
  · intro hno
    have hfil : serviceEntry.Endpoints.filter (matchesIngress clusterIngress) = [] := by
      rw [List.filter_eq_nil_iff]
      intro ep hep
      simp [matchesIngress, hno ep hep]
    unfold updateEndpointsForWeightedServices
    rw [splitEndpoints_eq, hfil]
    simp
  · intro replaced hlast
    unfold updateEndpointsForWeightedServices
    rw [splitEndpoints_eq, hlast]
    simp only
    rw [weighted_fold replaced meshPorts weightedServices _ hr]
  · intro replaced ws hpos
    refine ⟨rfl, rfl, ?_⟩
    simp only [weightedEndpoint]
    exact Int.toNat_of_nonneg (le_of_lt hpos)

/-- C6 at the weights 80 and 20 with a third service of weight 0: the endpoint at the
ingress gives way to two endpoints, the endpoint of the other cluster stays first. -/
theorem weighted_services_expansion_witness :
    updateEndpointsForWeightedServices canarySe canaryServices "10.0.0.1" [("http", 8080)] =
      { canarySe with
        Endpoints :=
          [{ Address := "10.9.9.9", Ports := [("http", 15443)], Locality := "us-east-2" },
           { Address := "stable.ns.svc.cluster.local", Ports := [("http", 8080)],
             Locality := "us-west-2", Weight := 80 },
           { Address := "canary.ns.svc.cluster.local", Ports := [("http", 8080)],
             Locality := "us-west-2", Weight := 20 }] } :=
  ((weighted_services_expansion canarySe canaryServices "10.0.0.1" [("http", 8080)]
    (by decide)).2.1
    { Address := "10.0.0.1", Ports := [("http", 15443)], Locality := "us-west-2" }
    (by decide)).trans (by decide)

/-! ## Blue-green rollouts -/

/-- C7, as stated, fails: for the host `foo.global` of a rollout whose active service is
not among its services, the endpoint keeps the ingress address and nothing is recorded in
`cnames`. -/
theorem blueGreen_active_missing :
    updateEndpointsForBlueGreen exampleMeshPorts blueGreenRollout previewOnlyServices []
        ingressEndpoint "cluster1" "foo.global" = some ([], ingressEndpoint) ∧
      ingressEndpoint.Address ≠ "foo-a.ns.svc.cluster.local" := by
  decide

/-- C7, amended: for a rollout with a blue-green strategy, `updateEndpointsForBlueGreen`
writes the local name and the mesh ports of the preview service to the endpoint when the
host starts with `preview.` and the preview service is among the services; otherwise,
when the active service is among the services, it writes the local name and the mesh
ports of the active service; in both cases the local name is added to `cnames`; when
neither holds the endpoint and `cnames` stay as they are.  After the call for a host that
does not start with `preview.` and the call for one that does, with both services present,
`cnames` holds both local names. -/
theorem blueGreen_rewrite
    (GetMeshPortsForRollout : String → Service → Rollout → GoMap Nat)
    (rollout : Rollout) (blueGreen : BlueGreenStrategy)
    (hbg : rollout.BlueGreen = some blueGreen)
    (weightedServices : GoMap WeightedService) (cnames : GoMap String) (ep : Endpoint)
    (sourceCluster meshHost : String) :
    (∀ p, HasPrefix meshHost "preview." = true →
      GoMap.lookup weightedServices blueGreen.PreviewService = some p →
      updateEndpointsForBlueGreen GetMeshPortsForRollout rollout weightedServices cnames ep
          sourceCluster meshHost =
        some (GoMap.insert cnames
            (p.Service.Name ++ "." ++ p.Service.Namespace ++ ".svc.cluster.local") "1",
          { ep with
            Address := p.Service.Name ++ "." ++ p.Service.Namespace ++ ".svc.cluster.local"
            Ports := GetMeshPortsForRollout sourceCluster p.Service rollout })) ∧
    (∀ a, (HasPrefix meshHost "preview." = false ∨
        GoMap.lookup weightedServices blueGreen.PreviewService = none) →
      GoMap.lookup weightedServices blueGreen.ActiveService = some a →
      updateEndpointsForBlueGreen GetMeshPortsForRollout rollout weightedServices cnames ep
          sourceCluster meshHost =
        some (GoMap.insert cnames
            (a.Service.Name ++ "." ++ a.Service.Namespace ++ ".svc.cluster.local") "1",
          { ep with
            Address := a.Service.Name ++ "." ++ a.Service.Namespace ++ ".svc.cluster.local"
            Ports := GetMeshPortsForRollout sourceCluster a.Service rollout })) ∧
    ((HasPrefix meshHost "preview." = false ∨
        GoMap.lookup weightedServices blueGreen.PreviewService = none) →
      GoMap.lookup weightedServices blueGreen.ActiveService = none →
      updateEndpointsForBlueGreen GetMeshPortsForRollout rollout weightedServices cnames ep
          sourceCluster meshHost = some (cnames, ep)) ∧
    (∀ a p activeHost ep' cnames₁ ep₁ cnames₂ ep₂,
      GoMap.lookup weightedServices blueGreen.ActiveService = some a →
      GoMap.lookup weightedServices blueGreen.PreviewService = some p →
      HasPrefix activeHost "preview." = false → HasPrefix meshHost "preview." = true →
      updateEndpointsForBlueGreen GetMeshPortsForRollout rollout weightedServices cnames ep
          sourceCluster activeHost = some (cnames₁, ep₁) →
      updateEndpointsForBlueGreen GetMeshPortsForRollout rollout weightedServices cnames₁ ep'
          sourceCluster meshHost = some (cnames₂, ep₂) →
      GoMap.lookup cnames₂
          (a.Service.Name ++ "." ++ a.Service.Namespace ++ ".svc.cluster.local") = some "1" ∧
        GoMap.lookup cnames₂
          (p.Service.Name ++ "." ++ p.Service.Namespace ++ ".svc.cluster.local") =
          some "1") := by
  have hpre : BlueGreenRolloutPreviewPrefix ++ Sep = "preview." := by decide
  have h1 : ∀ (cn : GoMap String) (e : Endpoint) (host : String) p,
      HasPrefix host "preview." = true →
      GoMap.lookup weightedServices blueGreen.PreviewService = some p →
      updateEndpointsForBlueGreen GetMeshPortsForRollout rollout weightedServices cn e
          sourceCluster host =
        some (GoMap.insert cn (localFqdnOf p.Service) "1",
          { e with
            Address := localFqdnOf p.Service
            Ports := GetMeshPortsForRollout sourceCluster p.Service rollout }) := by
    intro cn e host p hp hl
    simp [updateEndpointsForBlueGreen, hbg, hpre, hp, hl]
  have h2 : ∀ (cn : GoMap String) (e : Endpoint) (host : String) a,
      (HasPrefix host "preview." = false ∨
        GoMap.lookup weightedServices blueGreen.PreviewService = none) →
      GoMap.lookup weightedServices blueGreen.ActiveService = some a →
      updateEndpointsForBlueGreen GetMeshPortsForRollout rollout weightedServices cn e
          sourceCluster host =
        some (GoMap.insert cn (localFqdnOf a.Service) "1",
          { e with
            Address := localFqdnOf a.Service
            Ports := GetMeshPortsForRollout sourceCluster a.Service rollout }) := by
    intro cn e host a hor hl
    rcases hor with hp | hp
    · cases hq : GoMap.lookup weightedServices blueGreen.PreviewService <;>
        simp [updateEndpointsForBlueGreen, hbg, hpre, hp, hl, hq]
    · simp [updateEndpointsForBlueGreen, hbg, hpre, hp, hl]
  refine ⟨fun p hp hl => h1 cnames ep meshHost p hp hl,
    fun a hor hl => h2 cnames ep meshHost a hor hl, ?_, ?_⟩
  · intro hor hl
    rcases hor with hp | hp
    · cases hq : GoMap.lookup weightedServices blueGreen.PreviewService <;>
        simp [updateEndpointsForBlueGreen, hbg, hpre, hp, hl, hq]
    · simp [updateEndpointsForBlueGreen, hbg, hpre, hp, hl]
  · intro a p activeHost ep' cnames₁ ep₁ cnames₂ ep₂ ha hp hh1 hh2 hr1 hr2
    rw [h2 cnames ep activeHost a (Or.inl hh1) ha] at hr1
    rw [h1 cnames₁ ep' meshHost p hh2 hp] at hr2
    simp only [Option.some.injEq, Prod.mk.injEq] at hr1 hr2
    obtain ⟨hc1, -⟩ := hr1
    obtain ⟨hc2, -⟩ := hr2
    subst hc1 hc2
    refine ⟨?_, GoMap.lookup_insert_self _ _ _⟩
    show GoMap.lookup (GoMap.insert (GoMap.insert cnames (localFqdnOf a.Service) "1")
      (localFqdnOf p.Service) "1") (localFqdnOf a.Service) = some "1"
    by_cases hsame : localFqdnOf p.Service = localFqdnOf a.Service
    · rw [hsame]
      exact GoMap.lookup_insert_self _ _ _
    · rw [GoMap.lookup_insert_ne _ _ _ _ hsame]
      exact GoMap.lookup_insert_self _ _ _

/-- C7, amended, at a rollout with both services: the host `foo.global` is sent to the
active service and the host `preview.foo.global` to the preview service. -/
theorem blueGreen_rewrite_witness :
    updateEndpointsForBlueGreen exampleMeshPorts blueGreenRollout blueGreenServices []
        ingressEndpoint "cluster1" "foo.global" =
      some ([("foo-a.ns.svc.cluster.local", "1")],
        { ingressEndpoint with
          Address := "foo-a.ns.svc.cluster.local", Ports := [("http", 8080)] }) ∧
    updateEndpointsForBlueGreen exampleMeshPorts blueGreenRollout blueGreenServices
        [("foo-a.ns.svc.cluster.local", "1")] ingressEndpoint "cluster1"
        "preview.foo.global" =
      some ([("foo-a.ns.svc.cluster.local", "1"), ("foo-p.ns.svc.cluster.local", "1")],
        { ingressEndpoint with
          Address := "foo-p.ns.svc.cluster.local", Ports := [("http", 8080)] }) :=
  ⟨((blueGreen_rewrite exampleMeshPorts blueGreenRollout
      { ActiveService := "foo-a", PreviewService := "foo-p" } rfl blueGreenServices []
      ingressEndpoint "cluster1" "foo.global").2.1
      { Weight := 1, Service := { Name := "foo-a", Namespace := "ns" } }
      (Or.inl (by decide)) (by decide)).trans (by decide),
    ((blueGreen_rewrite exampleMeshPorts blueGreenRollout
      { ActiveService := "foo-a", PreviewService := "foo-p" } rfl blueGreenServices
      [("foo-a.ns.svc.cluster.local", "1")] ingressEndpoint "cluster1"
      "preview.foo.global").1
      { Weight := 1, Service := { Name := "foo-p", Namespace := "ns" } }
      (by decide) (by decide)).trans (by decide)⟩

/-! ## `generateServiceEntry` -/

theorem generateServiceEntry_eq (event : EventType) (admiralCache : AdmiralCache)
    (meshPorts : GoMap Nat) (globalFqdn : String) (rc : RemoteController)
    (serviceEntries : GoMap ServiceEntry) (address : String) (san : List String) :
    (generateServiceEntry event admiralCache meshPorts globalFqdn rc serviceEntries
        address san).1 =
      (if event = EventType.Add ∨ event = EventType.Update then
        { baseEntry serviceEntries globalFqdn meshPorts address san with
          Endpoints := (baseEntry serviceEntries globalFqdn meshPorts address san).Endpoints ++
            [clusterEndpoint rc meshPorts] }
      else if event = EventType.Delete then
        { baseEntry serviceEntries globalFqdn meshPorts address san with
          Endpoints :=
            (baseEntry serviceEntries globalFqdn meshPorts address san).Endpoints.filter
              (fun e => !decide (e = clusterEndpoint rc meshPorts)) }
      else baseEntry serviceEntries globalFqdn meshPorts address san) ∧
    (generateServiceEntry event admiralCache meshPorts globalFqdn rc serviceEntries
        address san).2.1 =
      GoMap.insert serviceEntries globalFqdn
        (generateServiceEntry event admiralCache meshPorts globalFqdn rc serviceEntries
          address san).1 := by
  have hfp : finalProtocolOf meshPorts =
      (meshPorts.foldl (fun (_ : List Port × String) kv => (portsFor kv.1, kv.1))
        (portsFor Http, Http)).2 := by
    rcases List.eq_nil_or_concat meshPorts with rfl | ⟨l, x, rfl⟩
    · rfl
    · simp [finalProtocolOf, List.foldl_append, List.getLast?_append]
  have hsp : portsFor (finalProtocolOf meshPorts) =
      (meshPorts.foldl (fun (_ : List Port × String) kv => (portsFor kv.1, kv.1))
        (portsFor Http, Http)).1 := by
    rcases List.eq_nil_or_concat meshPorts with rfl | ⟨l, x, rfl⟩
    · rfl
    · simp [finalProtocolOf, List.foldl_append, List.getLast?_append]
  unfold baseEntry clusterEndpoint
  rw [hsp, hfp]
  exact ⟨rfl, rfl⟩

theorem generateServiceEntry_frame (event : EventType) (admiralCache : AdmiralCache)
    (meshPorts : GoMap Nat) (globalFqdn : String) (rc : RemoteController)
    (serviceEntries : GoMap ServiceEntry) (address : String) (san : List String)
    (tmpSe : ServiceEntry) (serviceEntries' : GoMap ServiceEntry) (cache' : AdmiralCache)
    (h : generateServiceEntry event admiralCache meshPorts globalFqdn rc serviceEntries
      address san = (tmpSe, serviceEntries', cache')) :
    GoMap.lookup serviceEntries' globalFqdn = some tmpSe ∧
      ∀ k, k ≠ globalFqdn → GoMap.lookup serviceEntries' k = GoMap.lookup serviceEntries k := by
  have h2 := (generateServiceEntry_eq event admiralCache meshPorts globalFqdn rc
    serviceEntries address san).2
  rw [h] at h2
  simp only at h2
  subst h2
  exact ⟨GoMap.lookup_insert_self _ _ _,
    fun k hk => GoMap.lookup_insert_ne _ _ _ _ (fun e => hk e.symm)⟩

/-- C8: for an Add or an Update event, `generateServiceEntry` leaves under the FQDN an
entry whose endpoints are those the key had before (none for a key without entry) followed
by one endpoint with the address of the ingress load balancer of the cluster, the region of
the cluster as locality (the empty string when the cluster has no locality) and the one
port `protocol -> load-balancer port`, the protocol being the last key visited in the mesh
ports or `http`; an entry that was there is otherwise as it was, a new one has the hosts
`[fqdn]`, the addresses `[VIP]`, the location `MESH_INTERNAL`, the resolution `DNS` and
one port for the protocol; the other keys keep their entries. -/
theorem generateServiceEntry_appends (event : EventType)
    (hev : event = EventType.Add ∨ event = EventType.Update) (admiralCache : AdmiralCache)
    (meshPorts : GoMap Nat) (globalFqdn : String) (rc : RemoteController)
    (serviceEntries : GoMap ServiceEntry) (address : String) (san : List String)
    (tmpSe : ServiceEntry) (serviceEntries' : GoMap ServiceEntry) (cache' : AdmiralCache)
    (h : generateServiceEntry event admiralCache meshPorts globalFqdn rc serviceEntries
      address san = (tmpSe, serviceEntries', cache')) :
    GoMap.lookup serviceEntries' globalFqdn = some tmpSe ∧
    tmpSe.Endpoints = endpointsUnder serviceEntries globalFqdn ++
      [clusterEndpoint rc meshPorts] ∧
    (∀ k, k ≠ globalFqdn → GoMap.lookup serviceEntries' k = GoMap.lookup serviceEntries k) ∧
    (∀ se, GoMap.lookup serviceEntries globalFqdn = some se →
      tmpSe = { se with Endpoints := se.Endpoints ++ [clusterEndpoint rc meshPorts] }) ∧
    (GoMap.lookup serviceEntries globalFqdn = none →
      tmpSe.Hosts = [globalFqdn] ∧ tmpSe.Addresses = [address] ∧
        tmpSe.Location = Location.MESH_INTERNAL ∧ tmpSe.Resolution = Resolution.DNS ∧
        tmpSe.Ports = [⟨DefaultServiceEntryPort, finalProtocolOf meshPorts,
          finalProtocolOf meshPorts⟩]) ∧
    (clusterEndpoint rc meshPorts).Address = rc.LoadBalancer.1 ∧
    (∀ l, rc.Locality = some l → (clusterEndpoint rc meshPorts).Locality = l.Region) ∧
    (rc.Locality = none → (clusterEndpoint rc meshPorts).Locality = "") ∧
    (clusterEndpoint rc meshPorts).Ports =
      [(finalProtocolOf meshPorts, uint32 rc.LoadBalancer.2)] ∧
    (0 ≤ rc.LoadBalancer.2 → rc.LoadBalancer.2 < 4294967296 →
      (uint32 rc.LoadBalancer.2 : Int) = rc.LoadBalancer.2) := by
  obtain ⟨hl, hframe⟩ := generateServiceEntry_frame _ _ _ _ _ _ _ _ _ _ _ h
  have h1 := (generateServiceEntry_eq event admiralCache meshPorts globalFqdn rc
    serviceEntries address san).1
  rw [h] at h1
  simp only [hev, if_true] at h1
  refine ⟨hl, ?_, hframe, ?_, ?_, rfl, ?_, ?_, rfl, ?_⟩
  · rw [h1]
    unfold baseEntry endpointsUnder
    cases GoMap.lookup serviceEntries globalFqdn <;> rfl
  · intro se hse
    rw [h1]
    simp [baseEntry, hse]
  · intro hnone
    rw [h1]
    simp [baseEntry, hnone, portsFor]
  · intro l hloc
    simp [clusterEndpoint, makeRemoteEndpointForServiceEntry, hloc]
  · intro hloc
    simp [clusterEndpoint, makeRemoteEndpointForServiceEntry, hloc]
  · intro h0 h1
    unfold uint32
    rw [Int.emod_eq_of_lt h0 h1]
    exact Int.toNat_of_nonneg h0

/-- C8 at the second cluster of a reconciliation: the endpoint of the west cluster comes
after the endpoint of the east cluster. -/
theorem generateServiceEntry_appends_witness :
    (generateServiceEntry EventType.Add plainCache [("http", 8080)] "stage.foo.global"
        westCluster eastEntries "240.0.10.1" []).1.Endpoints =
      [{ Address := "10.9.9.9", Ports := [("http", 15443)], Locality := "us-east-2" },
       { Address := "10.0.0.1", Ports := [("http", 15443)], Locality := "us-west-2" }] :=
  ((generateServiceEntry_appends EventType.Add (Or.inl rfl) plainCache [("http", 8080)]
    "stage.foo.global" westCluster eastEntries "240.0.10.1" [] _ _ _ rfl).2.1).trans
    (by decide)

/-- C9: for a Delete event, `generateServiceEntry` leaves under the FQDN the entry with
the endpoints it had that differ from the endpoint of the cluster (the ingress address,
the locality, the one port, and every other field empty), in their order, and appends
none; the entry stays in the map also when no endpoint is left; the other keys keep their
entries. -/
theorem generateServiceEntry_removes (admiralCache : AdmiralCache)
    (meshPorts : GoMap Nat) (globalFqdn : String) (rc : RemoteController)
    (serviceEntries : GoMap ServiceEntry) (address : String) (san : List String)
    (tmpSe : ServiceEntry) (serviceEntries' : GoMap ServiceEntry) (cache' : AdmiralCache)
    (h : generateServiceEntry EventType.Delete admiralCache meshPorts globalFqdn rc
      serviceEntries address san = (tmpSe, serviceEntries', cache')) :
    tmpSe.Endpoints = (endpointsUnder serviceEntries globalFqdn).filter
      (fun e => decide (e ≠ clusterEndpoint rc meshPorts)) ∧
    (∀ e, e ∈ tmpSe.Endpoints ↔
      e ∈ endpointsUnder serviceEntries globalFqdn ∧ e ≠ clusterEndpoint rc meshPorts) ∧
    tmpSe.Endpoints.Sublist (endpointsUnder serviceEntries globalFqdn) ∧
    GoMap.lookup serviceEntries' globalFqdn = some tmpSe ∧
    (∀ se, GoMap.lookup serviceEntries globalFqdn = some se →
      tmpSe =
        { se with
          Endpoints :=
            se.Endpoints.filter (fun e => decide (e ≠ clusterEndpoint rc meshPorts)) }) ∧
    (∀ k, k ≠ globalFqdn → GoMap.lookup serviceEntries' k = GoMap.lookup serviceEntries k) ∧
    clusterEndpoint rc meshPorts =
      ⟨rc.LoadBalancer.1, [(finalProtocolOf meshPorts, uint32 rc.LoadBalancer.2)], none, "",
        (match rc.Locality with
          | some l => l.Region
          | none => ""), 0⟩ := by
  obtain ⟨hl, hframe⟩ := generateServiceEntry_frame _ _ _ _ _ _ _ _ _ _ _ h
  have h1 := (generateServiceEntry_eq EventType.Delete admiralCache meshPorts globalFqdn rc
    serviceEntries address san).1
  rw [h] at h1
  have hne : ¬ (EventType.Delete = EventType.Add ∨ EventType.Delete = EventType.Update) := by
    decide
  simp only [hne, if_false, if_true] at h1
  have hfun : (fun e => !decide (e = clusterEndpoint rc meshPorts)) =
      (fun e => decide (e ≠ clusterEndpoint rc meshPorts)) := by
    funext e
    simp
  rw [hfun] at h1
  have hends : tmpSe.Endpoints = (endpointsUnder serviceEntries globalFqdn).filter
      (fun e => decide (e ≠ clusterEndpoint rc meshPorts)) := by
    rw [h1]
    unfold baseEntry endpointsUnder
    cases GoMap.lookup serviceEntries globalFqdn <;> rfl
  refine ⟨hends, ?_, ?_, hl, ?_, hframe, rfl⟩
  · intro e
    rw [hends, List.mem_filter]
    simp
  · rw [hends]
    exact List.filter_sublist _
  · intro se hse
    rw [h1]
    simp [baseEntry, hse]

/-- C9 at the only cluster of a host: the entry stays, with no endpoint. -/
theorem generateServiceEntry_removes_witness :
    (generateServiceEntry EventType.Delete plainCache [("http", 8080)] "stage.foo.global"
        eastCluster eastEntries "240.0.10.1" []).1.Endpoints = [] ∧
      GoMap.lookup (generateServiceEntry EventType.Delete plainCache [("http", 8080)]
        "stage.foo.global" eastCluster eastEntries "240.0.10.1" []).2.1 "stage.foo.global" =
        some (generateServiceEntry EventType.Delete plainCache [("http", 8080)]
          "stage.foo.global" eastCluster eastEntries "240.0.10.1" []).1 :=
  ⟨((generateServiceEntry_removes plainCache [("http", 8080)] "stage.foo.global"
      eastCluster eastEntries "240.0.10.1" [] _ _ _ rfl).1).trans (by decide),
    (generateServiceEntry_removes plainCache [("http", 8080)] "stage.foo.global"
      eastCluster eastEntries "240.0.10.1" [] _ _ _ rfl).2.2.2.1⟩

/-! ## The set of `createSeAndDrSetFromGtp` -/

theorem GetCnameVal_ne (a b : String) : GetCnameVal [a, b] ≠ b := by
  intro h
  have hl := congrArg String.length h
  simp [GetCnameVal, String.intercalate, String.intercalate.go, Sep] at hl
  exact absurd hl.2 (by decide)

theorem seDrForPolicy_new {DR : Type}
    (getDestinationRule : ServiceEntry → String → Option TrafficPolicy → DR)
    (env region : String) (se : ServiceEntry) (defaultHost : String) (cache : AdmiralCache)
    (p : TrafficPolicy) (hp : opensNewHost env defaultHost p)
    (host : String) (seDr : SeDrTuple DR) (cache' : AdmiralCache)
    (h : seDrForPolicy getDestinationRule env region se defaultHost cache p =
      some (host, seDr, cache')) : host ≠ defaultHost := by
  unfold seDrForPolicy at h
  have hp' : p.DnsPrefix ≠ env ∧ p.DnsPrefix ≠ Default ∧ p.Dns ≠ defaultHost := hp
  rw [if_pos hp'] at h
  simp only at h
  split at h
  · cases h
  · simp only [Option.some.injEq, Prod.mk.injEq] at h
    rw [← h.1]
    exact GetCnameVal_ne _ _

theorem seDrForPolicy_some {DR : Type}
    (getDestinationRule : ServiceEntry → String → Option TrafficPolicy → DR)
    (env region : String) (se : ServiceEntry) (defaultHost : String) (cache : AdmiralCache)
    (p : TrafficPolicy) (ha : se.Addresses ≠ []) :
    ∃ r, seDrForPolicy getDestinationRule env region se defaultHost cache p = some r := by
  unfold seDrForPolicy
  split
  · simp only [copyServiceEntry]
    cases hadd : se.Addresses with
    | nil => exact absurd hadd ha
    | cons a t => exact ⟨_, rfl⟩
  · exact ⟨_, rfl⟩

theorem seDrPolicyLoop_some {DR : Type}
    (getDestinationRule : ServiceEntry → String → Option TrafficPolicy → DR)
    (env region : String) (se : ServiceEntry) (defaultHost : String)
    (ha : se.Addresses ≠ []) :
    ∀ (policies : List TrafficPolicy) (seDrSet : GoMap (SeDrTuple DR)) (cache : AdmiralCache),
      ∃ r, seDrPolicyLoop getDestinationRule env region se defaultHost policies seDrSet
        cache = some r := by
  intro policies
  induction policies with
  | nil => intro seDrSet cache; exact ⟨_, rfl⟩
  | cons p t ih =>
    intro seDrSet cache
    obtain ⟨⟨host, seDr, cache1⟩, hr⟩ :=
      seDrForPolicy_some getDestinationRule env region se defaultHost cache p ha
    simp only [seDrPolicyLoop, hr]
    exact ih _ _

theorem seDrPolicyLoop_spec {DR : Type}
    (getDestinationRule : ServiceEntry → String → Option TrafficPolicy → DR)
    (env region : String) (se : ServiceEntry) (defaultHost : String) :
    ∀ (policies : List TrafficPolicy) (seDrSet : GoMap (SeDrTuple DR)) (cache : AdmiralCache)
      (seDrSet' : GoMap (SeDrTuple DR)) (cache' : AdmiralCache),
      seDrPolicyLoop getDestinationRule env region se defaultHost policies seDrSet cache =
        some (seDrSet', cache') →
      (GoMap.keys seDrSet).Nodup →
      (GoMap.keys seDrSet').Nodup ∧
        ((∀ p ∈ policies, opensNewHost env defaultHost p) →
          GoMap.lookup seDrSet defaultHost = none →
          GoMap.lookup seDrSet' defaultHost = none) := by
  intro policies
  induction policies with
  | nil =>
    intro seDrSet cache seDrSet' cache' h hk
    simp only [seDrPolicyLoop, Option.some.injEq, Prod.mk.injEq] at h
    rw [← h.1]
    exact ⟨hk, fun _ hl => hl⟩
  | cons p t ih =>
    intro seDrSet cache seDrSet' cache' h hk
    simp only [seDrPolicyLoop] at h
    split at h
    · cases h
    · rename_i host seDr cache1 hstep
      obtain ⟨hk', hnone⟩ := ih _ _ _ _ h (GoMap.keys_insert_nodup _ _ _ hk)
      refine ⟨hk', ?_⟩
      intro hall hl
      apply hnone (fun q hq => hall q (List.mem_cons_of_mem _ hq))
      have hne := seDrForPolicy_new getDestinationRule env region se defaultHost cache p
        (hall p (List.mem_cons_self _ _)) host seDr cache1 hstep
      rw [GoMap.lookup_insert_ne _ _ _ _ hne]
      exact hl

/-- C10: for a service entry whose first host is `defaultHost`, `createSeAndDrSetFromGtp`
returns a set whenever the entry has an address or the policy set is nil; a set it returns
has one entry per key and an entry under `defaultHost`; when the policy set is nil, has no
policy, or has only policies that open a host of their own, that entry has the names
`<host>-se` and `<host>-default-dr`, the service entry that was passed and the destination
rule made with a nil policy; for a nil policy set, and for one with no policy, it is the
only entry, and the cache is as it was. -/
theorem createSeAndDrSet_default {DR : Type}
    (getDestinationRule : ServiceEntry → String → Option TrafficPolicy → DR)
    (env region : String) (se : ServiceEntry) (defaultHost : String) (rest : List String)
    (hh : se.Hosts = defaultHost :: rest) (globalTrafficPolicy : Option GlobalTrafficPolicy)
    (cache : AdmiralCache) :
    ((globalTrafficPolicy = none ∨
        (∃ g, globalTrafficPolicy = some g ∧ g.Policy = [])) →
      createSeAndDrSetFromGtp getDestinationRule env region se globalTrafficPolicy cache =
        some ([(defaultHost, defaultSeDr getDestinationRule region se defaultHost)], cache)) ∧
    (se.Addresses ≠ [] →
      ∃ r, createSeAndDrSetFromGtp getDestinationRule env region se globalTrafficPolicy
        cache = some r) ∧
    (∀ seDrSet cache',
      createSeAndDrSetFromGtp getDestinationRule env region se globalTrafficPolicy cache =
        some (seDrSet, cache') →
      (∃ seDr, GoMap.lookup seDrSet defaultHost = some seDr) ∧
        (GoMap.keys seDrSet).Nodup ∧
        ((∀ g, globalTrafficPolicy = some g →
            ∀ p ∈ g.Policy, p.DnsPrefix ≠ env ∧ p.DnsPrefix ≠ "default" ∧
              p.Dns ≠ defaultHost) →
          GoMap.lookup seDrSet defaultHost =
            some (defaultSeDr getDestinationRule region se defaultHost))) := by
  have hfin : ∀ (looped : GoMap (SeDrTuple DR)) (c : AdmiralCache),
      (match GoMap.lookup looped defaultHost with
        | some _ => some (looped, c)
        | none =>
          some (GoMap.insert looped defaultHost
            { DrName := getIstioResourceName defaultHost "-default-dr"
              SeName := getIstioResourceName defaultHost "-se"
              DestinationRule := getDestinationRule se region none
              ServiceEntry := se }, c)) =
      some (match GoMap.lookup looped defaultHost with
        | some _ => looped
        | none => GoMap.insert looped defaultHost
            (defaultSeDr getDestinationRule region se defaultHost), c) := by
    intro looped c
    cases GoMap.lookup looped defaultHost <;> rfl
  refine ⟨?_, ?_, ?_⟩
  · intro hcase
    rcases hcase with rfl | ⟨g, rfl, hg⟩
    · simp only [createSeAndDrSetFromGtp, hh, hfin]
      rfl
    · simp only [createSeAndDrSetFromGtp, hh, hg, seDrPolicyLoop, hfin]
      rfl
  · intro ha
    cases globalTrafficPolicy with
    | none =>
      simp only [createSeAndDrSetFromGtp, hh, hfin]
      exact ⟨_, rfl⟩
    | some g =>
      obtain ⟨⟨looped, c⟩, hr⟩ := seDrPolicyLoop_some getDestinationRule env region se
        defaultHost ha g.Policy [] cache
      simp only [createSeAndDrSetFromGtp, hh, hr, hfin]
      exact ⟨_, rfl⟩
  · intro seDrSet cache' h
    have hloop : ∃ looped : GoMap (SeDrTuple DR),
        (GoMap.keys looped).Nodup ∧
        ((∀ g, globalTrafficPolicy = some g →
            ∀ p ∈ g.Policy, opensNewHost env defaultHost p) →
          GoMap.lookup looped defaultHost = none) ∧
        seDrSet = (match GoMap.lookup looped defaultHost with
          | some _ => looped
          | none => GoMap.insert looped defaultHost
              (defaultSeDr getDestinationRule region se defaultHost)) := by
      cases globalTrafficPolicy with
      | none =>
        simp only [createSeAndDrSetFromGtp, hh, hfin, Option.some.injEq, Prod.mk.injEq] at h
        exact ⟨[], by simp [GoMap.keys], fun _ => rfl, h.1.symm⟩
      | some g =>
        simp only [createSeAndDrSetFromGtp, hh] at h
        cases hr : seDrPolicyLoop getDestinationRule env region se defaultHost g.Policy []
            cache with
        | none =>
          rw [hr] at h
          cases h
        | some r =>
          obtain ⟨looped, c⟩ := r
          rw [hr] at h
          simp only [hfin, Option.some.injEq, Prod.mk.injEq] at h
          obtain ⟨hk, hnone⟩ := seDrPolicyLoop_spec getDestinationRule env region se
            defaultHost g.Policy [] cache looped c hr (by simp [GoMap.keys])
          exact ⟨looped, hk, fun hall => hnone (hall g rfl) rfl, h.1.symm⟩
    obtain ⟨looped, hk, hnone, hset⟩ := hloop
    subst hset
    refine ⟨?_, ?_, ?_⟩
    · cases hl : GoMap.lookup looped defaultHost with
      | some t => exact ⟨t, by simp only [hl]⟩
      | none => exact ⟨_, by simp only; exact GoMap.lookup_insert_self _ _ _⟩
    · cases hl : GoMap.lookup looped defaultHost with
      | some t => simpa only using hk
      | none => simpa only using GoMap.keys_insert_nodup _ _ _ hk
    · intro hall
      have hl := hnone hall
      simp only [hl]
      exact GoMap.lookup_insert_self _ _ _

/-- C10 at a policy set whose one policy opens the host `canary.stage.foo.global`: the set
has an entry for that host and the default entry for `stage.foo.global`. -/
theorem createSeAndDrSet_default_witness :
    (createSeAndDrSetFromGtp exampleDestinationRule "stage" "us-west-2" canarySe
        (some canaryGtp) plainCache).map
        (fun r => r.1.map (fun kv => (kv.1, kv.2.SeName, kv.2.DrName))) =
      some [("canary.stage.foo.global", "canary.stage.foo.global-se",
          "canary.stage.foo.global-dr"),
        ("stage.foo.global", "stage.foo.global-se", "stage.foo.global-default-dr")] ∧
    (∃ r, createSeAndDrSetFromGtp exampleDestinationRule "stage" "us-west-2" canarySe
      (some canaryGtp) plainCache = some r) ∧
    createSeAndDrSetFromGtp exampleDestinationRule "stage" "us-west-2" canarySe none
        plainCache =
      some ([("stage.foo.global",
        defaultSeDr exampleDestinationRule "us-west-2" canarySe "stage.foo.global")],
        plainCache) :=
  ⟨by decide,
    (createSeAndDrSet_default exampleDestinationRule "stage" "us-west-2" canarySe
      "stage.foo.global" [] rfl (some canaryGtp) plainCache).2.1 (by decide),
    (createSeAndDrSet_default exampleDestinationRule "stage" "us-west-2" canarySe
      "stage.foo.global" [] rfl none plainCache).1 (Or.inl rfl)⟩

/-! ## The comparator is a strict weak ordering -/

theorem gtpLess_eq_true (key : String) (a b : GlobalTrafficPolicy) :
    gtpLess key a b = true ↔
      (getGtpPriority key a > getGtpPriority key b ∨
        (getGtpPriority key a = getGtpPriority key b ∧
          a.CreationTimestamp > b.CreationTimestamp)) := by
  have h := gtpLess_eq_false key a b
  cases hb : gtpLess key a b with
  | true =>
    rw [hb] at h
    simp only [Bool.true_eq_false, false_iff, not_not] at h
    simpa using h
  | false =>
    rw [hb] at h
    simp only [true_iff] at h
    simpa using h

/-- C19: the comparator of `sortGtpsByPriorityAndCreationTime` is a strict weak ordering:
no policy is before itself; of two policies at most one is before the other; before is
transitive; and two policies are incomparable exactly when they have the same priority and
the same creation timestamp, so that being incomparable is transitive. -/
theorem gtpLess_strict_weak_order (key : String) :
    (∀ a, gtpLess key a a = false) ∧
    (∀ a b, gtpLess key a b = true → gtpLess key b a = false) ∧
    (∀ a b c, gtpLess key a b = true → gtpLess key b c = true → gtpLess key a c = true) ∧
    (∀ a b, (gtpLess key a b = false ∧ gtpLess key b a = false) ↔
      (getGtpPriority key a = getGtpPriority key b ∧
        a.CreationTimestamp = b.CreationTimestamp)) ∧
    (∀ a b c, gtpLess key a b = false ∧ gtpLess key b a = false →
      gtpLess key b c = false ∧ gtpLess key c b = false →
      gtpLess key a c = false ∧ gtpLess key c a = false) := by
  refine ⟨gtpLess_irrefl key, gtpLess_asymm key, ?_, ?_, ?_⟩
  · intro a b c hab hbc
    rw [gtpLess_eq_true] at hab hbc ⊢
    omega
  · intro a b
    rw [gtpLess_eq_false, gtpLess_eq_false]
    omega
  · intro a b c hab hbc
    rw [gtpLess_eq_false, gtpLess_eq_false] at hab hbc ⊢
    omega

/-! ## A ConfigMap that fails the validation -/

theorem generate_invalid (seName : String) (c : ConfigMapController)
    (st : ServiceEntryAddressStore) (a e : String) (hg : NextGetSucceeds c)
    (hd : c.Server.Data = some st) (hl : GoMap.lookup st.EntryAddresses seName = none)
    (hscan : scanAddress c.IPPrefix st.Addresses (st.Addresses.length + 1)
      (st.Addresses.length / 255 + 10, st.Addresses.length % 255 + 1) = some a)
    (hval : ValidateConfigmapBeforePutting
      { c.Server with
        Data := some { EntryAddresses := GoMap.insert st.EntryAddresses seName a
                       Addresses := st.Addresses ++ [a] } } = some e) :
    GenerateNewAddressAndAddToConfigMap seName c = (("", some e), c.GetConfigMap.2) ∧
      c.GetConfigMap.2.Server = c.Server ∧ c.GetConfigMap.2.PutErrors = c.PutErrors := by
  rcases hget : c.GetConfigMap with ⟨⟨cm, err⟩, c1⟩
  obtain ⟨hcm, hs, hp, hpe, -, herr⟩ := GetConfigMap_eq _ _ _ _ hget
  subst hcm
  cases err with
  | some e' =>
    obtain ⟨rest, hr⟩ := herr e' rfl
    exact absurd hr (hg e' rest)
  | none =>
    refine ⟨?_, hs, hpe⟩
    simp [GenerateNewAddressAndAddToConfigMap, hget, GetServiceEntryStateFromConfigmap,
      hd, hl, ConfigMapController.GetIPPrefixForServiceEntries, hp, hscan,
      putServiceEntryStateFromConfigmap, hval]

/-- C15: `putServiceEntryStateFromConfigmap` returns the error, with the controller as it
was and so without a call of `PutConfigMap`, when the original ConfigMap is nil and when
the updated ConfigMap fails the validation; `GenerateNewAddressAndAddToConfigMap` then
returns the empty address with the error of the validation, the ConfigMap on the server
and the schedule of writes being as they were; and when the loop of `getUniqueAddress`
ends with an error, as it does when the first attempt meets that failure,
`getUniqueAddress` returns with the in-memory store as it was. -/
theorem validation_failure_keeps_store (cache : AdmiralCache) (globalFqdn : String) :
    (∀ c data, putServiceEntryStateFromConfigmap c none data =
      (some "configmap must not be nil", c)) ∧
    (∀ c cm data e,
      ValidateConfigmapBeforePutting { cm with Data := some data } = some e →
      putServiceEntryStateFromConfigmap c (some cm) data = (some e, c)) ∧
    (∀ seName c st a e, NextGetSucceeds c → c.Server.Data = some st →
      GoMap.lookup st.EntryAddresses seName = none →
      scanAddress c.IPPrefix st.Addresses (st.Addresses.length + 1)
        (st.Addresses.length / 255 + 10, st.Addresses.length % 255 + 1) = some a →
      ValidateConfigmapBeforePutting
        { c.Server with
          Data := some { EntryAddresses := GoMap.insert st.EntryAddresses seName a
                         Addresses := st.Addresses ++ [a] } } = some e →
      (GenerateNewAddressAndAddToConfigMap seName c).1 = ("", some e) ∧
        (GenerateNewAddressAndAddToConfigMap seName c).2.Server = c.Server ∧
        (GenerateNewAddressAndAddToConfigMap seName c).2.PutErrors = c.PutErrors) ∧
    (∀ a b e c1,
      getUniqueAddressLoop (getIstioResourceName globalFqdn "-se")
        cache.ServiceEntryAddressStore 3 cache.ConfigMapController "" false =
        ((a, b, some e), c1) →
      getUniqueAddress cache globalFqdn = (a, { cache with ConfigMapController := c1 }) ∧
        (getUniqueAddress cache globalFqdn).2.ServiceEntryAddressStore =
          cache.ServiceEntryAddressStore) ∧
    (∀ st a e, NextGetSucceeds cache.ConfigMapController →
      ((GoMap.lookup cache.ServiceEntryAddressStore.EntryAddresses
        (getIstioResourceName globalFqdn "-se")).getD "").length = 0 →
      cache.ConfigMapController.Server.Data = some st →
      GoMap.lookup st.EntryAddresses (getIstioResourceName globalFqdn "-se") = none →
      scanAddress cache.ConfigMapController.IPPrefix st.Addresses (st.Addresses.length + 1)
        (st.Addresses.length / 255 + 10, st.Addresses.length % 255 + 1) = some a →
      ValidateConfigmapBeforePutting
        { cache.ConfigMapController.Server with
          Data := some
            { EntryAddresses :=
                GoMap.insert st.EntryAddresses (getIstioResourceName globalFqdn "-se") a
              Addresses := st.Addresses ++ [a] } } = some e →
      (getUniqueAddress cache globalFqdn).1 = "" ∧
        (getUniqueAddress cache globalFqdn).2.ServiceEntryAddressStore =
          cache.ServiceEntryAddressStore ∧
        (getUniqueAddress cache globalFqdn).2.ConfigMapController.Server =
          cache.ConfigMapController.Server) := by
  have hloop : ∀ a b e c1,
      getUniqueAddressLoop (getIstioResourceName globalFqdn "-se")
        cache.ServiceEntryAddressStore 3 cache.ConfigMapController "" false =
        ((a, b, some e), c1) →
      getUniqueAddress cache globalFqdn = (a, { cache with ConfigMapController := c1 }) := by
    intro a b e c1 h
    simp [getUniqueAddress, h]
  refine ⟨fun c data => rfl, ?_, ?_, ?_, ?_⟩
  · intro c cm data e hval
    simp [putServiceEntryStateFromConfigmap, hval]
  · intro seName c st a e hg hd hl hscan hval
    obtain ⟨h1, h2, h3⟩ := generate_invalid seName c st a e hg hd hl hscan hval
    rw [h1]
    exact ⟨rfl, h2, h3⟩
  · intro a b e c1 h
    rw [hloop a b e c1 h]
    exact ⟨rfl, rfl⟩
  · intro st a e hg hmiss hd hl hscan hval
    obtain ⟨h1, h2, -⟩ := generate_invalid _ _ st a e hg hd hl hscan hval
    have hfirst : getUniqueAddressLoop (getIstioResourceName globalFqdn "-se")
        cache.ServiceEntryAddressStore 3 cache.ConfigMapController "" false =
        (("", true, some e), cache.ConfigMapController.GetConfigMap.2) := by
      simp [getUniqueAddressLoop, getLocal_miss _ _ _ hmiss, h1]
    rw [hloop _ _ _ _ hfirst]
    exact ⟨rfl, rfl, h2⟩

/-- C15 at a ConfigMap whose map and list differ in length: the written store fails the
validation and nothing changes. -/
theorem validation_failure_keeps_store_witness :
    getUniqueAddress lopsidedCache "b" = ("", lopsidedCache) ∧
      (getUniqueAddress lopsidedCache "b").1 = "" ∧
      (getUniqueAddress lopsidedCache "b").2.ServiceEntryAddressStore =
        lopsidedCache.ServiceEntryAddressStore ∧
      (getUniqueAddress lopsidedCache "b").2.ConfigMapController.Server =
        lopsidedCache.ConfigMapController.Server :=
  ⟨by decide,
    (validation_failure_keeps_store lopsidedCache "b").2.2.2.2 lopsidedStore "240.0.10.1"
      "address cache length mismatch" (by intro e rest h; cases h) (by decide) rfl
      (by decide) (by decide) (by decide)⟩

/-! ## The second result of `GetLocalAddressForSe` -/

/-- C14: with the name missing from the in-memory store but bound in the ConfigMap,
`GetLocalAddressForSe` returns `true` as its second result although the call leaves the
controller, and with it the ConfigMap, exactly as it was; and a call whose fetch fails
returns `true` as well. -/
theorem getLocalAddress_true_without_update :
    GetLocalAddressForSe "a-se" coldCache.ServiceEntryAddressStore crowdedController =
        (("240.0.10.2", true, none), crowdedController) ∧
      (GetLocalAddressForSe "foo.global-se" flakyCache.ServiceEntryAddressStore
        flakyCache.ConfigMapController).1 = ("", true, some "timeout") ∧
      (GetLocalAddressForSe "foo.global-se" flakyCache.ServiceEntryAddressStore
        flakyCache.ConfigMapController).2.Server = flakyCache.ConfigMapController.Server := by
  decide

/-! ## The hosts that policies open -/

theorem GoMap.lookup_insert {V : Type} (m : GoMap V) (k k' : String) (v : V) :
    GoMap.lookup (GoMap.insert m k v) k' = if k = k' then some v else GoMap.lookup m k' := by
  by_cases h : k = k'
  · subst h
    simp [GoMap.lookup_insert_self]
  · simp [h, GoMap.lookup_insert_ne _ _ _ _ h]

theorem seDrForPolicy_valid {DR : Type}
    (getDestinationRule : ServiceEntry → String → Option TrafficPolicy → DR)
    (env region : String) (se : ServiceEntry) (defaultHost : String) (cache : AdmiralCache)
    (p : TrafficPolicy) (host : String) (seDr : SeDrTuple DR) (cache' : AdmiralCache)
    (h : seDrForPolicy getDestinationRule env region se defaultHost cache p =
      some (host, seDr, cache')) :
    (opensNewHost env defaultHost p →
      host = p.DnsPrefix ++ "." ++ defaultHost ∧
        seDr = newHostSeDr getDestinationRule region se host
          (getUniqueAddress cache host).1 p ∧
        cache' = (getUniqueAddress cache host).2) ∧
    (¬ opensNewHost env defaultHost p →
      host = defaultHost ∧ seDr = policySeDr getDestinationRule region se defaultHost p ∧
        cache' = cache) := by
  unfold seDrForPolicy at h
  constructor
  · intro hp
    have hp' : p.DnsPrefix ≠ env ∧ p.DnsPrefix ≠ Default ∧ p.Dns ≠ defaultHost := hp
    rw [if_pos hp'] at h
    simp only [copyServiceEntry] at h
    cases hadd : se.Addresses with
    | nil =>
      rw [hadd] at h
      cases h
    | cons a t =>
      rw [hadd] at h
      simp only [Option.some.injEq, Prod.mk.injEq] at h
      obtain ⟨h1, h2, h3⟩ := h
      have hhost : host = p.DnsPrefix ++ "." ++ defaultHost := h1.symm
      refine ⟨hhost, ?_, ?_⟩
      · rw [← h2, hhost]
        simp [newHostSeDr, hadd, getIstioResourceName, GetCnameVal, String.intercalate,
          String.intercalate.go, Sep]
      · rw [← h3, hhost]
        rfl
  · intro hp
    have hp' : ¬ (p.DnsPrefix ≠ env ∧ p.DnsPrefix ≠ Default ∧ p.Dns ≠ defaultHost) := hp
    rw [if_neg hp'] at h
    simp only [Option.some.injEq, Prod.mk.injEq] at h
    obtain ⟨h1, h2, h3⟩ := h
    exact ⟨h1.symm, h2.symm, h3.symm⟩

theorem seDrPolicyLoop_valid {DR : Type}
    (getDestinationRule : ServiceEntry → String → Option TrafficPolicy → DR)
    (env region : String) (se : ServiceEntry) (defaultHost : String)
    (U : List TrafficPolicy) :
    ∀ (policies : List TrafficPolicy) (seDrSet : GoMap (SeDrTuple DR)) (cache : AdmiralCache)
      (seDrSet' : GoMap (SeDrTuple DR)) (cache' : AdmiralCache),
      seDrPolicyLoop getDestinationRule env region se defaultHost policies seDrSet cache =
        some (seDrSet', cache') →
      (∀ p ∈ policies, p ∈ U) →
      (∀ k t, GoMap.lookup seDrSet k = some t →
        ValidSeDr getDestinationRule env region se defaultHost U k t) →
      (∀ k t, GoMap.lookup seDrSet' k = some t →
          ValidSeDr getDestinationRule env region se defaultHost U k t) ∧
        (∀ k, GoMap.lookup seDrSet k ≠ none → GoMap.lookup seDrSet' k ≠ none) ∧
        (∀ p ∈ policies,
          (opensNewHost env defaultHost p →
            GoMap.lookup seDrSet' (p.DnsPrefix ++ "." ++ defaultHost) ≠ none) ∧
          (¬ opensNewHost env defaultHost p →
            GoMap.lookup seDrSet' defaultHost ≠ none)) := by
  intro policies
  induction policies with
  | nil =>
    intro seDrSet cache seDrSet' cache' h _ hv
    simp only [seDrPolicyLoop, Option.some.injEq, Prod.mk.injEq] at h
    rw [← h.1]
    exact ⟨hv, fun _ hk => hk, fun p hp => by cases hp⟩
  | cons p t ih =>
    intro seDrSet cache seDrSet' cache' h hU hv
    simp only [seDrPolicyLoop] at h
    split at h
    · cases h
    · rename_i host seDr cache1 hstep
      obtain ⟨hnew, hold⟩ := seDrForPolicy_valid getDestinationRule env region se defaultHost
        cache p host seDr cache1 hstep
      have hpU : p ∈ U := hU p (List.mem_cons_self _ _)
      have hvalid : ValidSeDr getDestinationRule env region se defaultHost U host seDr := by
        by_cases hp : opensNewHost env defaultHost p
        · obtain ⟨h1, h2, -⟩ := hnew hp
          exact Or.inr ⟨p, hpU, hp, h1, cache, h2⟩
        · obtain ⟨h1, h2, -⟩ := hold hp
          exact Or.inl ⟨h1, p, hpU, hp, h2⟩
      obtain ⟨hv', hkeep, hcover⟩ := ih (GoMap.insert seDrSet host seDr) cache1 seDrSet'
        cache' h (fun q hq => hU q (List.mem_cons_of_mem _ hq)) (by
          intro k t hk
          rw [GoMap.lookup_insert] at hk
          split at hk
          · rename_i hkey
            cases hk
            rw [← hkey]
            exact hvalid
          · exact hv k t hk)
      refine ⟨hv', ?_, ?_⟩
      · intro k hk
        apply hkeep
        rw [GoMap.lookup_insert]
        split
        · simp
        · exact hk
      · intro q hq
        rcases List.mem_cons.1 hq with rfl | hq
        · constructor
          · intro hp
            apply hkeep
            rw [← (hnew hp).1, GoMap.lookup_insert_self]
            simp
          · intro hp
            apply hkeep
            rw [← (hold hp).1, GoMap.lookup_insert_self]
            simp
        · exact hcover q hq

theorem dotted_ne (a b : String) : a ++ "." ++ b ≠ b := GetCnameVal_ne a b

theorem createSeAndDrSet_of_loop {DR : Type}
    (getDestinationRule : ServiceEntry → String → Option TrafficPolicy → DR)
    (env region : String) (se : ServiceEntry) (defaultHost : String) (rest : List String)
    (hh : se.Hosts = defaultHost :: rest) (g : GlobalTrafficPolicy) (cache : AdmiralCache)
    (seDrSet : GoMap (SeDrTuple DR)) (cache' : AdmiralCache)
    (h : createSeAndDrSetFromGtp getDestinationRule env region se (some g) cache =
      some (seDrSet, cache')) :
    ∃ looped : GoMap (SeDrTuple DR),
      seDrPolicyLoop getDestinationRule env region se defaultHost g.Policy [] cache =
        some (looped, cache') ∧
      ((∃ t, GoMap.lookup looped defaultHost = some t ∧ seDrSet = looped) ∨
        (GoMap.lookup looped defaultHost = none ∧
          seDrSet = GoMap.insert looped defaultHost
            (defaultSeDr getDestinationRule region se defaultHost))) := by
  simp only [createSeAndDrSetFromGtp, hh] at h
  cases hr : seDrPolicyLoop getDestinationRule env region se defaultHost g.Policy []
      cache with
  | none =>
    rw [hr] at h
    cases h
  | some r =>
    obtain ⟨looped, c⟩ := r
    rw [hr] at h
    simp only at h
    cases hl : GoMap.lookup looped defaultHost with
    | some t =>
      rw [hl] at h
      simp only [Option.some.injEq, Prod.mk.injEq] at h
      exact ⟨looped, by rw [h.2], Or.inl ⟨t, hl, h.1.symm⟩⟩
    | none =>
      rw [hl] at h
      simp only [Option.some.injEq, Prod.mk.injEq] at h
      exact ⟨looped, by rw [h.2], Or.inr ⟨hl, h.1.symm⟩⟩

/-! ### The cache and the object passed through the loop -/

theorem GoMap.map_insert {V W : Type} (f : V → W) (m : GoMap V) (k : String) (v : V) :
    (GoMap.insert m k v).map (fun kv => (kv.1, f kv.2)) =
      GoMap.insert (m.map (fun kv => (kv.1, f kv.2))) k (f v) := by
  induction m with
  | nil => rfl
  | cons kv t ih =>
    obtain ⟨k₀, v₀⟩ := kv
    by_cases h0 : k₀ = k
    · simp [GoMap.insert, h0]
    · simp only [GoMap.insert, h0, if_false, List.map_cons]
      rw [← ih]

theorem GoMap.lookup_map {V W : Type} (f : V → W) (m : GoMap V) (k : String) :
    GoMap.lookup (m.map (fun kv => (kv.1, f kv.2))) k = (GoMap.lookup m k).map f := by
  induction m with
  | nil => rfl
  | cons kv t ih =>
    obtain ⟨k₀, v₀⟩ := kv
    by_cases h0 : k₀ = k
    · simp [GoMap.lookup, h0]
    · simp only [GoMap.lookup, h0, if_false, List.map_cons]
      exact ih

/-- One policy with the pointers kept: read through the pointers it is the step on the
value, and the object passed is as it was. -/
theorem seDrForPolicyOnPointers_eq {DR : Type}
    (getDestinationRule : ServiceEntry → String → Option TrafficPolicy → DR)
    (env region : String) (se : ServiceEntry) (defaultHost : String) (rest : List String)
    (hh : se.Hosts = defaultHost :: rest) (cache : AdmiralCache) (p : TrafficPolicy) :
    (seDrForPolicyOnPointers getDestinationRule env region
        (getIstioResourceName defaultHost "-default-dr")
        (getIstioResourceName defaultHost "-se") se cache p).map
        (fun r => (r.1, readSeDr r.2.1 r.2.2.1, r.2.2.2)) =
      seDrForPolicy getDestinationRule env region se defaultHost cache p ∧
    ∀ r, seDrForPolicyOnPointers getDestinationRule env region
        (getIstioResourceName defaultHost "-default-dr")
        (getIstioResourceName defaultHost "-se") se cache p = some r → r.2.2.1 = se := by
  unfold seDrForPolicyOnPointers seDrForPolicy
  rw [hh]
  by_cases hc : p.DnsPrefix ≠ env ∧ p.DnsPrefix ≠ Default ∧ p.Dns ≠ defaultHost
  · simp only [if_pos hc, copyServiceEntryOf, SePointer.read, SePointer.assign,
      copyServiceEntry, hh]
    cases ha : se.Addresses with
    | nil =>
      constructor
      · rfl
      · intro r hr
        cases hr
    | cons a t =>
      constructor
      · rfl
      · intro r hr
        simp only [Option.some.injEq] at hr
        rw [← hr]
  · simp only [if_neg hc]
    constructor
    · rfl
    · intro r hr
      simp only [Option.some.injEq] at hr
      rw [← hr]

theorem seDrPolicyLoopOnPointers_eq {DR : Type}
    (getDestinationRule : ServiceEntry → String → Option TrafficPolicy → DR)
    (env region : String) (se : ServiceEntry) (defaultHost : String) (rest : List String)
    (hh : se.Hosts = defaultHost :: rest) :
    ∀ (policies : List TrafficPolicy) (refs : GoMap (SeDrPointers DR)) (cache : AdmiralCache),
      (seDrPolicyLoopOnPointers getDestinationRule env region
          (getIstioResourceName defaultHost "-default-dr")
          (getIstioResourceName defaultHost "-se") policies refs se cache).map
          (fun r => (readSeDrSet r.1 r.2.1, r.2.2)) =
        seDrPolicyLoop getDestinationRule env region se defaultHost policies
          (readSeDrSet refs se) cache ∧
      ∀ r, seDrPolicyLoopOnPointers getDestinationRule env region
          (getIstioResourceName defaultHost "-default-dr")
          (getIstioResourceName defaultHost "-se") policies refs se cache = some r →
        r.2.1 = se := by
  intro policies
  induction policies with
  | nil =>
    intro refs cache
    constructor
    · rfl
    · intro r hr
      simp only [seDrPolicyLoopOnPointers, Option.some.injEq] at hr
      rw [← hr]
  | cons p t ih =>
    intro refs cache
    obtain ⟨h1, h2⟩ := seDrForPolicyOnPointers_eq getDestinationRule env region se
      defaultHost rest hh cache p
    simp only [seDrPolicyLoopOnPointers, seDrPolicyLoop]
    cases hp : seDrForPolicyOnPointers getDestinationRule env region
        (getIstioResourceName defaultHost "-default-dr")
        (getIstioResourceName defaultHost "-se") se cache p with
    | none =>
      rw [hp] at h1
      simp only [Option.map_none'] at h1
      rw [← h1]
      constructor
      · rfl
      · intro r hr
        cases hr
    | some r =>
      obtain ⟨host, seDr, passed, c⟩ := r
      have hpassed : passed = se := h2 _ hp
      subst hpassed
      rw [hp] at h1
      simp only [Option.map_some'] at h1
      rw [← h1]
      obtain ⟨i1, i2⟩ := ih (GoMap.insert refs host seDr) c
      have hins : readSeDrSet (GoMap.insert refs host seDr) passed =
          GoMap.insert (readSeDrSet refs passed) host (readSeDr seDr passed) :=
        GoMap.map_insert (fun t => readSeDr t passed) refs host seDr
      rw [hins] at i1
      exact ⟨i1, i2⟩

/-- The last step of the function with its pointers kept, on a loop that left the object
passed as it was. -/
theorem defaultPairOnPointers_eq {DR : Type}
    (getDestinationRule : ServiceEntry → String → Option TrafficPolicy → DR)
    (region : String) (se : ServiceEntry) (defaultHost : String) (rest : List String)
    (hh : se.Hosts = defaultHost :: rest) (refs : GoMap (SeDrPointers DR))
    (c : AdmiralCache) :
    ∃ refs', (match se.Hosts with
        | [] => none
        | host :: _ =>
          match GoMap.lookup refs host with
          | some _ => some (refs, se, c)
          | none =>
            some (GoMap.insert refs host
              { DrName := getIstioResourceName defaultHost "-default-dr"
                SeName := getIstioResourceName defaultHost "-se"
                DestinationRule := getDestinationRule se region none
                ServiceEntry := SePointer.passed }, se, c)) = some (refs', se, c) ∧
      (match GoMap.lookup (readSeDrSet refs se) defaultHost with
        | some _ => some (readSeDrSet refs se, c)
        | none =>
          some (GoMap.insert (readSeDrSet refs se) defaultHost
            { DrName := getIstioResourceName defaultHost "-default-dr"
              SeName := getIstioResourceName defaultHost "-se"
              DestinationRule := getDestinationRule se region none
              ServiceEntry := se }, c)) = some (readSeDrSet refs' se, c) := by
  rw [hh]
  have hl : GoMap.lookup (readSeDrSet refs se) defaultHost =
      (GoMap.lookup refs defaultHost).map (fun t => readSeDr t se) :=
    GoMap.lookup_map (fun t => readSeDr t se) refs defaultHost
  rw [hl]
  simp only
  cases hr : GoMap.lookup refs defaultHost with
  | some t => exact ⟨refs, rfl, rfl⟩
  | none =>
    refine ⟨_, rfl, ?_⟩
    have hins := GoMap.map_insert (fun t : SeDrPointers DR => readSeDr t se) refs
      defaultHost
      { DrName := getIstioResourceName defaultHost "-default-dr"
        SeName := getIstioResourceName defaultHost "-se"
        DestinationRule := getDestinationRule se region none
        ServiceEntry := SePointer.passed }
    simp only [Option.map_none', readSeDrSet]
    rw [hins]
    rfl

/-- The function with its pointers kept: read through the pointers its set is the set of
the function on the value, and the object passed is as it was. -/
theorem createSeAndDrSetOnPointers_eq {DR : Type}
    (getDestinationRule : ServiceEntry → String → Option TrafficPolicy → DR)
    (env region : String) (se : ServiceEntry)
    (globalTrafficPolicy : Option GlobalTrafficPolicy) (cache : AdmiralCache) :
    (createSeAndDrSetFromGtpOnPointers getDestinationRule env region se globalTrafficPolicy
        cache).map (fun r => (readSeDrSet r.1 r.2.1, r.2.2)) =
      createSeAndDrSetFromGtp getDestinationRule env region se globalTrafficPolicy cache ∧
    ∀ r, createSeAndDrSetFromGtpOnPointers getDestinationRule env region se
        globalTrafficPolicy cache = some r → r.2.1 = se := by
  unfold createSeAndDrSetFromGtpOnPointers createSeAndDrSetFromGtp
  cases hh : se.Hosts with
  | nil =>
    constructor
    · rfl
    · intro r hr
      cases hr
  | cons defaultHost rest =>
    cases globalTrafficPolicy with
    | none =>
      obtain ⟨refs', e1, e2⟩ := defaultPairOnPointers_eq getDestinationRule region se
        defaultHost rest hh [] cache
      have e2' : (match GoMap.lookup ([] : GoMap (SeDrTuple DR)) defaultHost with
          | some _ => some (([] : GoMap (SeDrTuple DR)), cache)
          | none =>
            some (GoMap.insert ([] : GoMap (SeDrTuple DR)) defaultHost
              { DrName := getIstioResourceName defaultHost "-default-dr"
                SeName := getIstioResourceName defaultHost "-se"
                DestinationRule := getDestinationRule se region none
                ServiceEntry := se }, cache)) = some (readSeDrSet refs' se, cache) := e2
      simp only
      rw [e1, e2']
      constructor
      · rfl
      · intro r hr
        simp only [Option.some.injEq] at hr
        rw [← hr]
    | some gtp =>
      obtain ⟨l1, l2⟩ := seDrPolicyLoopOnPointers_eq getDestinationRule env region se
        defaultHost rest hh gtp.Policy [] cache
      simp only
      cases hl : seDrPolicyLoopOnPointers getDestinationRule env region
          (getIstioResourceName defaultHost "-default-dr")
          (getIstioResourceName defaultHost "-se") gtp.Policy [] se cache with
      | none =>
        rw [hl] at l1
        have l1' : seDrPolicyLoop getDestinationRule env region se defaultHost gtp.Policy []
            cache = none := l1.symm
        rw [l1']
        constructor
        · rfl
        · intro r hr
          cases hr
      | some r =>
        obtain ⟨refs, passed, c⟩ := r
        have hpassed : passed = se := l2 _ hl
        subst hpassed
        rw [hl] at l1
        have l1' : seDrPolicyLoop getDestinationRule env region passed defaultHost gtp.Policy
            [] cache = some (readSeDrSet refs passed, c) := l1.symm
        rw [l1']
        obtain ⟨refs', e1, e2⟩ := defaultPairOnPointers_eq getDestinationRule region passed
          defaultHost rest hh refs c
        simp only
        rw [e1, e2]
        constructor
        · rfl
        · intro r hr
          simp only [Option.some.injEq] at hr
          rw [← hr]

theorem prefix_host_inj (a b d : String) (h : a ++ "." ++ d = b ++ "." ++ d) : a = b := by
  have hd := congrArg String.data h
  simp only [String.data_append] at hd
  have h1 := List.append_cancel_right hd
  have h2 := List.append_cancel_right h1
  exact String.ext h2

theorem seDrPolicyLoop_cache {DR : Type}
    (getDestinationRule : ServiceEntry → String → Option TrafficPolicy → DR)
    (env region : String) (se : ServiceEntry) (defaultHost : String) :
    ∀ (policies : List TrafficPolicy) (seDrSet : GoMap (SeDrTuple DR)) (cache : AdmiralCache)
      (seDrSet' : GoMap (SeDrTuple DR)) (cache' : AdmiralCache),
      seDrPolicyLoop getDestinationRule env region se defaultHost policies seDrSet cache =
        some (seDrSet', cache') →
      cache' = cacheAfterPolicies env defaultHost policies cache := by
  intro policies
  induction policies with
  | nil =>
    intro seDrSet cache seDrSet' cache' h
    simp only [seDrPolicyLoop, Option.some.injEq, Prod.mk.injEq] at h
    rw [← h.2]
    rfl
  | cons p t ih =>
    intro seDrSet cache seDrSet' cache' h
    simp only [seDrPolicyLoop] at h
    split at h
    · cases h
    · rename_i host seDr cache1 hstep
      obtain ⟨hnew, hold⟩ := seDrForPolicy_valid getDestinationRule env region se defaultHost
        cache p host seDr cache1 hstep
      rw [ih _ _ _ _ h]
      by_cases hp : opensNewHost env defaultHost p
      · obtain ⟨h1, -, h3⟩ := hnew hp
        have hstep' : (if p.DnsPrefix ≠ env ∧ p.DnsPrefix ≠ "default" ∧ p.Dns ≠ defaultHost
            then (getUniqueAddress cache (p.DnsPrefix ++ "." ++ defaultHost)).2
            else cache) = cache1 := by
          rw [h3, h1]
          exact if_pos hp
        simp only [cacheAfterPolicies, List.foldl_cons]
        rw [hstep']
      · obtain ⟨-, -, h3⟩ := hold hp
        have hstep' : (if p.DnsPrefix ≠ env ∧ p.DnsPrefix ≠ "default" ∧ p.Dns ≠ defaultHost
            then (getUniqueAddress cache (p.DnsPrefix ++ "." ++ defaultHost)).2
            else cache) = cache1 := by
          rw [h3]
          exact if_neg hp
        simp only [cacheAfterPolicies, List.foldl_cons]
        rw [hstep']

theorem seDrPolicyLoop_append {DR : Type}
    (getDestinationRule : ServiceEntry → String → Option TrafficPolicy → DR)
    (env region : String) (se : ServiceEntry) (defaultHost : String)
    (post : List TrafficPolicy) :
    ∀ (pre : List TrafficPolicy) (seDrSet : GoMap (SeDrTuple DR)) (cache : AdmiralCache),
      seDrPolicyLoop getDestinationRule env region se defaultHost (pre ++ post) seDrSet
          cache =
        match seDrPolicyLoop getDestinationRule env region se defaultHost pre seDrSet
            cache with
        | none => none
        | some r => seDrPolicyLoop getDestinationRule env region se defaultHost post r.1 r.2 := by
  intro pre
  induction pre with
  | nil => intro seDrSet cache; rfl
  | cons p t ih =>
    intro seDrSet cache
    simp only [List.cons_append, seDrPolicyLoop]
    cases seDrForPolicy getDestinationRule env region se defaultHost cache p with
    | none => rfl
    | some r =>
      obtain ⟨host, seDr, c⟩ := r
      exact ih _ _

/-- The policies that follow leave the binding of a host that none of them opens. -/
theorem seDrPolicyLoop_lookup_other {DR : Type}
    (getDestinationRule : ServiceEntry → String → Option TrafficPolicy → DR)
    (env region : String) (se : ServiceEntry) (defaultHost k : String)
    (hk : k ≠ defaultHost) :
    ∀ (policies : List TrafficPolicy) (seDrSet : GoMap (SeDrTuple DR)) (cache : AdmiralCache)
      (seDrSet' : GoMap (SeDrTuple DR)) (cache' : AdmiralCache),
      seDrPolicyLoop getDestinationRule env region se defaultHost policies seDrSet cache =
        some (seDrSet', cache') →
      (∀ q ∈ policies, opensNewHost env defaultHost q →
        q.DnsPrefix ++ "." ++ defaultHost ≠ k) →
      GoMap.lookup seDrSet' k = GoMap.lookup seDrSet k := by
  intro policies
  induction policies with
  | nil =>
    intro seDrSet cache seDrSet' cache' h _
    simp only [seDrPolicyLoop, Option.some.injEq, Prod.mk.injEq] at h
    rw [← h.1]
  | cons p t ih =>
    intro seDrSet cache seDrSet' cache' h hne
    simp only [seDrPolicyLoop] at h
    split at h
    · cases h
    · rename_i host seDr cache1 hstep
      obtain ⟨hnew, hold⟩ := seDrForPolicy_valid getDestinationRule env region se defaultHost
        cache p host seDr cache1 hstep
      rw [ih _ _ _ _ h (fun q hq => hne q (List.mem_cons_of_mem _ hq))]
      have hhost : host ≠ k := by
        by_cases hp : opensNewHost env defaultHost p
        · rw [(hnew hp).1]
          exact hne p (List.mem_cons_self _ _) hp
        · rw [(hold hp).1]
          exact fun e => hk e.symm
      exact GoMap.lookup_insert_ne _ _ _ _ hhost

/-- Among the policies of a list that meet a test, one is the last. -/
theorem exists_last_policy (P : TrafficPolicy → Prop) :
    ∀ (l : List TrafficPolicy) (p : TrafficPolicy), p ∈ l → P p →
      ∃ pre q post, l = pre ++ q :: post ∧ P q ∧ ∀ y ∈ post, ¬ P y := by
  intro l
  induction l with
  | nil => intro p hp; cases hp
  | cons a t ih =>
    intro p hp hP
    by_cases hex : ∃ y ∈ t, P y
    · obtain ⟨y, hy, hPy⟩ := hex
      obtain ⟨pre, q, post, hl, hq, hpost⟩ := ih y hy hPy
      exact ⟨a :: pre, q, post, by rw [hl]; rfl, hq, hpost⟩
    · have ha : P a := by
        rcases List.mem_cons.1 hp with h | h
        · rw [← h]; exact hP
        · exact absurd ⟨p, h, hP⟩ hex
      exact ⟨[], a, t, rfl, ha, fun y hy hPy => hex ⟨y, hy, hPy⟩⟩

/-- The binding of a host that a policy opens, when no policy after it opens the same
host: the address is the one `getUniqueAddress` returns on the cache that the policies
before it left. -/
theorem createSeAndDrSet_binding {DR : Type}
    (getDestinationRule : ServiceEntry → String → Option TrafficPolicy → DR)
    (env region : String) (se : ServiceEntry) (defaultHost : String) (rest : List String)
    (hh : se.Hosts = defaultHost :: rest) (g : GlobalTrafficPolicy) (cache : AdmiralCache)
    (seDrSet : GoMap (SeDrTuple DR)) (cache' : AdmiralCache)
    (h : createSeAndDrSetFromGtp getDestinationRule env region se (some g) cache =
      some (seDrSet, cache'))
    (pre : List TrafficPolicy) (p : TrafficPolicy) (post : List TrafficPolicy)
    (hpol : g.Policy = pre ++ p :: post) (hopen : opensNewHost env defaultHost p)
    (hlast : ∀ q ∈ post, opensNewHost env defaultHost q → q.DnsPrefix ≠ p.DnsPrefix) :
    GoMap.lookup seDrSet (p.DnsPrefix ++ "." ++ defaultHost) =
      some (newHostSeDr getDestinationRule region se (p.DnsPrefix ++ "." ++ defaultHost)
        (getUniqueAddress (cacheAfterPolicies env defaultHost pre cache)
          (p.DnsPrefix ++ "." ++ defaultHost)).1 p) := by
  obtain ⟨looped, hloop, hset⟩ := createSeAndDrSet_of_loop getDestinationRule env region se
    defaultHost rest hh g cache seDrSet cache' h
  have hsame : GoMap.lookup seDrSet (p.DnsPrefix ++ "." ++ defaultHost) =
      GoMap.lookup looped (p.DnsPrefix ++ "." ++ defaultHost) := by
    rcases hset with ⟨_, _, hs⟩ | ⟨_, hs⟩
    · rw [hs]
    · rw [hs, GoMap.lookup_insert_ne _ _ _ _ (fun e => dotted_ne _ _ e.symm)]
  rw [hsame]
  rw [hpol, seDrPolicyLoop_append] at hloop
  cases hpre : seDrPolicyLoop getDestinationRule env region se defaultHost pre [] cache with
  | none => rw [hpre] at hloop; cases hloop
  | some r1 =>
    obtain ⟨set1, c1⟩ := r1
    rw [hpre] at hloop
    simp only [seDrPolicyLoop] at hloop
    have hc1 := seDrPolicyLoop_cache getDestinationRule env region se defaultHost pre [] cache
      set1 c1 hpre
    cases hstep : seDrForPolicy getDestinationRule env region se defaultHost c1 p with
    | none => rw [hstep] at hloop; cases hloop
    | some r2 =>
      obtain ⟨host, seDr, c2⟩ := r2
      rw [hstep] at hloop
      simp only at hloop
      obtain ⟨h1, h2, -⟩ := (seDrForPolicy_valid getDestinationRule env region se defaultHost
        c1 p host seDr c2 hstep).1 hopen
      have hother := seDrPolicyLoop_lookup_other getDestinationRule env region se defaultHost
        (p.DnsPrefix ++ "." ++ defaultHost) (dotted_ne _ _) post _ c2 looped cache' hloop
        (fun q hq hqo e => hlast q hq hqo (prefix_host_inj _ _ _ e))
      rw [hother, h1, GoMap.lookup_insert_self, h2, h1, hc1]

/-- C11: in the set `createSeAndDrSetFromGtp` returns for a service entry with the first
host `defaultHost`, a policy whose dns prefix is neither the env nor `default` and whose
dns is not the default host has a binding under `<dnsPrefix>.<defaultHost>`: when no
policy after it opens the same host, the names are `<new host>-se` and `<new host>-dr`,
the service entry is the one passed with the new host as first host and, as first address,
the address `getUniqueAddress` returns for the new host on the cache as the policies before
left it, and the destination rule is made from that entry and the policy; and every policy
that opens a host is, or is followed by, one that is the last to open that host.  The cache
returned is the one the policies left in turn.  The default host keeps a binding with the
names `<host>-se` and `<host>-default-dr` and the service entry that was passed, hosts and
addresses as they were; a policy of the other kind leaves its destination rule in that
binding.  For a policy set of one policy that opens a host the set is those two bindings.
With the pointers of the code kept, the object that was passed is, when the function
returns, as it was, hosts and addresses included, and the set read through its pointers is
the set above. -/
theorem createSeAndDrSet_newHost {DR : Type}
    (getDestinationRule : ServiceEntry → String → Option TrafficPolicy → DR)
    (env region : String) (se : ServiceEntry) (defaultHost : String) (rest : List String)
    (hh : se.Hosts = defaultHost :: rest) (g : GlobalTrafficPolicy) (cache : AdmiralCache) :
    (∀ seDrSet cache',
      createSeAndDrSetFromGtp getDestinationRule env region se (some g) cache =
        some (seDrSet, cache') →
      cache' = cacheAfterPolicies env defaultHost g.Policy cache ∧
      (∀ pre p post, g.Policy = pre ++ p :: post →
        p.DnsPrefix ≠ env ∧ p.DnsPrefix ≠ "default" ∧ p.Dns ≠ defaultHost →
        (∀ q ∈ post, q.DnsPrefix ≠ env ∧ q.DnsPrefix ≠ "default" ∧ q.Dns ≠ defaultHost →
          q.DnsPrefix ≠ p.DnsPrefix) →
        ∃ t, GoMap.lookup seDrSet (p.DnsPrefix ++ "." ++ defaultHost) = some t ∧
          t.SeName = p.DnsPrefix ++ "." ++ defaultHost ++ "-se" ∧
          t.DrName = p.DnsPrefix ++ "." ++ defaultHost ++ "-dr" ∧
          t.ServiceEntry =
            { se with
              Hosts := (p.DnsPrefix ++ "." ++ defaultHost) :: rest
              Addresses :=
                (getUniqueAddress (cacheAfterPolicies env defaultHost pre cache)
                  (p.DnsPrefix ++ "." ++ defaultHost)).1 :: se.Addresses.tail } ∧
          t.DestinationRule = getDestinationRule t.ServiceEntry region (some p)) ∧
      (∀ p ∈ g.Policy,
        p.DnsPrefix ≠ env ∧ p.DnsPrefix ≠ "default" ∧ p.Dns ≠ defaultHost →
        ∃ pre q post, g.Policy = pre ++ q :: post ∧ q.DnsPrefix = p.DnsPrefix ∧
          (q.DnsPrefix ≠ env ∧ q.DnsPrefix ≠ "default" ∧ q.Dns ≠ defaultHost) ∧
          ∀ q' ∈ post,
            q'.DnsPrefix ≠ env ∧ q'.DnsPrefix ≠ "default" ∧ q'.Dns ≠ defaultHost →
            q'.DnsPrefix ≠ q.DnsPrefix) ∧
      (∃ t, GoMap.lookup seDrSet defaultHost = some t ∧
        t.SeName = defaultHost ++ "-se" ∧ t.DrName = defaultHost ++ "-default-dr" ∧
        t.ServiceEntry = se) ∧
      (∀ p ∈ g.Policy,
        ¬ (p.DnsPrefix ≠ env ∧ p.DnsPrefix ≠ "default" ∧ p.Dns ≠ defaultHost) →
        ∃ q ∈ g.Policy,
          ¬ (q.DnsPrefix ≠ env ∧ q.DnsPrefix ≠ "default" ∧ q.Dns ≠ defaultHost) ∧
          GoMap.lookup seDrSet defaultHost =
            some (policySeDr getDestinationRule region se defaultHost q))) ∧
    (∀ p, g.Policy = [p] →
      p.DnsPrefix ≠ env ∧ p.DnsPrefix ≠ "default" ∧ p.Dns ≠ defaultHost →
      se.Addresses ≠ [] →
      createSeAndDrSetFromGtp getDestinationRule env region se (some g) cache =
        some ([(p.DnsPrefix ++ "." ++ defaultHost,
            newHostSeDr getDestinationRule region se (p.DnsPrefix ++ "." ++ defaultHost)
              (getUniqueAddress cache (p.DnsPrefix ++ "." ++ defaultHost)).1 p),
          (defaultHost, defaultSeDr getDestinationRule region se defaultHost)],
          (getUniqueAddress cache (p.DnsPrefix ++ "." ++ defaultHost)).2)) ∧
    ((createSeAndDrSetFromGtpOnPointers getDestinationRule env region se (some g) cache).map
        (fun r => (readSeDrSet r.1 r.2.1, r.2.2)) =
      createSeAndDrSetFromGtp getDestinationRule env region se (some g) cache ∧
      ∀ refs passed cache',
        createSeAndDrSetFromGtpOnPointers getDestinationRule env region se (some g) cache =
          some (refs, passed, cache') →
        passed = se ∧ passed.Hosts = se.Hosts ∧ passed.Addresses = se.Addresses) := by
  refine ⟨?_, ?_, ?_⟩
  · intro seDrSet cache' h
    obtain ⟨looped, hloop, hset⟩ := createSeAndDrSet_of_loop getDestinationRule env region se
      defaultHost rest hh g cache seDrSet cache' h
    obtain ⟨hvalid, -, hcover⟩ := seDrPolicyLoop_valid getDestinationRule env region se
      defaultHost g.Policy g.Policy [] cache looped cache' hloop (fun _ hp => hp)
      (by intro k t hk; simp [GoMap.lookup] at hk)
    have hdefault : ∀ t, GoMap.lookup looped defaultHost = some t →
        ∃ q ∈ g.Policy, ¬ opensNewHost env defaultHost q ∧
          t = policySeDr getDestinationRule region se defaultHost q := by
      intro t ht
      rcases hvalid _ _ ht with ⟨-, q, hq, hnq, ht'⟩ | ⟨q, -, -, hkey, -⟩
      · exact ⟨q, hq, hnq, ht'⟩
      · exact absurd hkey.symm (dotted_ne _ _)
    refine ⟨?_, ?_, ?_, ?_, ?_⟩
    · exact seDrPolicyLoop_cache getDestinationRule env region se defaultHost g.Policy []
        cache looped cache' hloop
    · intro pre p post hpol hopen hlast
      have hb := createSeAndDrSet_binding getDestinationRule env region se defaultHost rest hh
        g cache seDrSet cache' h pre p post hpol hopen hlast
      refine ⟨_, hb, rfl, rfl, ?_, rfl⟩
      simp [newHostSeDr, hh]
    · intro p hp hopen
      obtain ⟨pre, q, post, hl, hq, hpost⟩ := exists_last_policy
        (fun q => opensNewHost env defaultHost q ∧ q.DnsPrefix = p.DnsPrefix)
        g.Policy p hp ⟨hopen, rfl⟩
      refine ⟨pre, q, post, hl, hq.2, hq.1, ?_⟩
      intro q' hq' hopen' heq
      exact hpost q' hq' ⟨hopen', heq.trans hq.2⟩
    · rcases hset with ⟨t, ht, hs⟩ | ⟨hnone, hs⟩
      · obtain ⟨q, -, -, hq⟩ := hdefault t ht
        exact ⟨t, by rw [hs, ht], by rw [hq]; rfl, by rw [hq]; rfl, by rw [hq]; rfl⟩
      · exact ⟨_, by rw [hs, GoMap.lookup_insert_self], rfl, rfl, rfl⟩
    · intro p hp hnot
      have hsome := (hcover p hp).2 hnot
      cases hl : GoMap.lookup looped defaultHost with
      | none => exact absurd hl hsome
      | some t =>
        obtain ⟨q, hq, hnq, ht⟩ := hdefault t hl
        refine ⟨q, hq, hnq, ?_⟩
        rcases hset with ⟨_, _, hs⟩ | ⟨hnone, _⟩
        · rw [hs, hl, ht]
        · rw [hnone] at hl
          cases hl
  · intro p hpol hopen ha
    obtain ⟨⟨host, seDr, c1⟩, hstep⟩ := seDrForPolicy_some getDestinationRule env region se
      defaultHost cache p ha
    obtain ⟨h1, h2, h3⟩ := (seDrForPolicy_valid getDestinationRule env region se defaultHost
      cache p host seDr c1 hstep).1 hopen
    subst h1
    have hl : GoMap.lookup (GoMap.insert ([] : GoMap (SeDrTuple DR))
        (p.DnsPrefix ++ "." ++ defaultHost) seDr) defaultHost = none := by
      rw [GoMap.lookup_insert_ne _ _ _ _ (dotted_ne _ _)]
      rfl
    simp only [createSeAndDrSetFromGtp, hh, hpol, seDrPolicyLoop, hstep, hl]
    rw [h2, h3]
    simp [GoMap.insert, dotted_ne, defaultSeDr, getIstioResourceName]
  · obtain ⟨e1, e2⟩ := createSeAndDrSetOnPointers_eq getDestinationRule env region se (some g)
      cache
    refine ⟨e1, ?_⟩
    intro refs passed cache' hr
    have hp : passed = se := e2 _ hr
    exact ⟨hp, by rw [hp], by rw [hp]⟩

/-- C11 at a policy with the dns prefix `canary` over a ConfigMap with one address in use:
the host `canary.stage.foo.global` gets a binding with an address of its own and the
default binding stays.  At two policies that open a host each, the second host gets the
address that follows the one of the first; and with the pointers kept the entry passed is
as it was. -/
theorem createSeAndDrSet_newHost_witness :
    ((createSeAndDrSetFromGtp exampleDestinationRule "stage" "us-west-2" canarySe
        (some canaryGtp) coldCache).map
        (fun r => r.1.map (fun kv => (kv.1, kv.2.SeName, kv.2.DrName))) =
      some [("canary.stage.foo.global", "canary.stage.foo.global-se",
          "canary.stage.foo.global-dr"),
        ("stage.foo.global", "stage.foo.global-se", "stage.foo.global-default-dr")] ∧
    (createSeAndDrSetFromGtp exampleDestinationRule "stage" "us-west-2" canarySe
        (some canaryGtp) coldCache).map
        (fun r => r.1.map (fun kv =>
          (kv.2.ServiceEntry.Hosts, kv.2.ServiceEntry.Addresses))) =
      some [(["canary.stage.foo.global"], ["240.0.10.3"]),
        (["stage.foo.global"], ["240.0.10.1"])]) ∧
    (createSeAndDrSetFromGtp exampleDestinationRule "stage" "us-west-2" canarySe
        (some twoHostGtp) plainCache).map
        (fun r => r.1.map (fun kv =>
          (kv.2.ServiceEntry.Hosts, kv.2.ServiceEntry.Addresses))) =
      some [(["canary.stage.foo.global"], ["240.0.10.1"]),
        (["beta.stage.foo.global"], ["240.0.10.2"]),
        (["stage.foo.global"], ["240.0.10.1"])] ∧
    (∀ seDrSet cache',
      createSeAndDrSetFromGtp exampleDestinationRule "stage" "us-west-2" canarySe
        (some twoHostGtp) plainCache = some (seDrSet, cache') →
      ∃ t, GoMap.lookup seDrSet "beta.stage.foo.global" = some t ∧
        t.ServiceEntry.Addresses = ["240.0.10.2"]) ∧
    (createSeAndDrSetFromGtpOnPointers exampleDestinationRule "stage" "us-west-2" canarySe
        (some twoHostGtp) plainCache).map (fun r => r.2.1) = some canarySe := by
  refine ⟨?_, ?_, ?_, ?_⟩
  · rw [(createSeAndDrSet_newHost exampleDestinationRule "stage" "us-west-2" canarySe
      "stage.foo.global" [] rfl canaryGtp coldCache).2.1 { Dns := "", DnsPrefix := "canary" }
      rfl (by decide) (by decide)]
    exact ⟨by decide, by decide⟩
  · decide
  · intro seDrSet cache' h
    obtain ⟨t, hl, -, -, hse, -⟩ :=
      ((createSeAndDrSet_newHost exampleDestinationRule "stage" "us-west-2" canarySe
        "stage.foo.global" [] rfl twoHostGtp plainCache).1 seDrSet cache' h).2.1
        [{ Dns := "", DnsPrefix := "canary" }] { Dns := "", DnsPrefix := "beta" } [] rfl
        (by decide) (fun q hq => by cases hq)
    refine ⟨t, hl, ?_⟩
    rw [hse]
    have ha : (getUniqueAddress (cacheAfterPolicies "stage" "stage.foo.global"
        [{ Dns := "", DnsPrefix := "canary" }] plainCache) "beta.stage.foo.global").1 =
        "240.0.10.2" := by decide
    simp only
    rw [show ("beta" ++ "." ++ "stage.foo.global" : String) = "beta.stage.foo.global" from by
      decide, ha]
    rfl
  · decide

/-! ## The rollout controller -/

theorem GoMap.lookup_erase_self {V : Type} (m : GoMap V) (k : String) :
    GoMap.lookup (GoMap.erase m k) k = none := by
  induction m with
  | nil => rfl
  | cons kv t ih =>
    obtain ⟨k₀, v₀⟩ := kv
    by_cases h0 : k₀ = k <;> simp [GoMap.erase, GoMap.lookup, h0, ih]

theorem rolloutGet_update (GetEnvForRollout : Rollout → String)
    (cache cache' : GoMap RolloutClusterEntry) (key : String) (rollout : Rollout)
    (h : rolloutCache.UpdateRolloutToClusterCache GetEnvForRollout cache key rollout =
      some cache') :
    rolloutCache.Get cache' key (GetEnvForRollout rollout) = some rollout := by
  unfold rolloutCache.UpdateRolloutToClusterCache at h
  unfold rolloutCache.Get
  cases hl : GoMap.lookup cache key with
  | none =>
    rw [hl] at h
    simp only [Option.some.injEq] at h
    rw [← h]
    simp [GoMap.lookup_insert_self]
  | some rce =>
    rw [hl] at h
    simp only at h
    cases hm : rce.Rollouts with
    | none => rw [hm] at h; cases h
    | some rollouts =>
      rw [hm] at h
      simp only [Option.some.injEq] at h
      rw [← h]
      have hlk : GoMap.lookup (GoMap.insert (GoMap.insert cache key
          { rce with
            Rollouts := some (GoMap.insert rollouts (GetEnvForRollout rollout) rollout) })
          rce.Identity
          { rce with
            Rollouts := some (GoMap.insert rollouts (GetEnvForRollout rollout) rollout) })
          key =
          some { rce with
            Rollouts := some (GoMap.insert rollouts (GetEnvForRollout rollout) rollout) } := by
        rw [GoMap.lookup_insert]
        split
        · rfl
        · exact GoMap.lookup_insert_self _ _ _
      simp only [hlk]
      exact GoMap.lookup_insert_self _ _ _

/-- The update panics exactly when the entry under the key has a nil map. -/
theorem update_eq_none (GetEnvForRollout : Rollout → String)
    (cache : GoMap RolloutClusterEntry) (key : String) (rollout : Rollout) :
    rolloutCache.UpdateRolloutToClusterCache GetEnvForRollout cache key rollout = none ↔
      ∃ rce, GoMap.lookup cache key = some rce ∧ rce.Rollouts = none := by
  unfold rolloutCache.UpdateRolloutToClusterCache
  cases hl : GoMap.lookup cache key with
  | none => simp
  | some rce =>
    cases hm : rce.Rollouts with
    | none => simp [hm]
    | some rollouts => simp [hm]

theorem rolloutGet_delete (GetEnvForRollout : Rollout → String)
    (cache : GoMap RolloutClusterEntry) (key : String) (rollout : Rollout) :
    rolloutCache.Get
      (rolloutCache.DeleteFromRolloutToClusterCache GetEnvForRollout cache key rollout) key
      (GetEnvForRollout rollout) = none := by
  unfold rolloutCache.DeleteFromRolloutToClusterCache rolloutCache.Get
  cases hl : GoMap.lookup cache key with
  | none => simp [hl]
  | some rce =>
    cases hm : rce.Rollouts with
    | none => simp [GoMap.lookup_insert_self, hm]
    | some rollouts => simp [GoMap.lookup_insert_self, GoMap.lookup_erase_self, hm]

/-- C18: `shouldIgnoreBasedOnLabelsForRollout` returns true exactly when the ignore label
of the pod template is `true`, or the sidecar-injection annotation of the pod template is
not `true`, or the ignore annotation of the rollout is `true`, or the namespace is found
and its ignore annotation is `true`; so a rollout that meets none of the first three is not
ignored when the namespace is not found.  `HandleAddUpdateRollout`, for a rollout with a
key, stores a rollout that is not ignored in the cache and calls the handler once, and
takes a rollout that is ignored out of the cache without a call of the handler; for a
rollout without a key it does nothing.  So the handler is called only for a rollout that
is not ignored, and afterwards the cache returns the rollout when it is not ignored and
has a key, and nil when it is ignored (a cache holds nothing under the empty key).  The
one run that does not return is the store into an entry whose map is nil, which panics
before the handler is called. -/
theorem rollout_ignore_and_handle (GetRolloutGlobalIdentifier GetEnvForRollout : Rollout → String)
    (roc : RolloutController) (rollout : Rollout) :
    (shouldIgnoreBasedOnLabelsForRollout roc rollout = true ↔
      ((GoMap.lookup rollout.TemplateLabels roc.labelSet.AdmiralIgnoreLabel).getD "" = "true" ∨
        (GoMap.lookup rollout.TemplateAnnotations roc.labelSet.DeploymentAnnotation).getD ""
          ≠ "true" ∨
        (GoMap.lookup rollout.Annotations roc.labelSet.AdmiralIgnoreAnnotation).getD ""
          = "true" ∨
        ∃ ns, GoMap.lookup roc.Namespaces rollout.Namespace = some ns ∧
          (GoMap.lookup ns roc.labelSet.AdmiralIgnoreAnnotation).getD "" = "true")) ∧
    (GoMap.lookup roc.Namespaces rollout.Namespace = none →
      (GoMap.lookup rollout.TemplateLabels roc.labelSet.AdmiralIgnoreLabel).getD "" ≠ "true" →
      (GoMap.lookup rollout.TemplateAnnotations roc.labelSet.DeploymentAnnotation).getD ""
        = "true" →
      (GoMap.lookup rollout.Annotations roc.labelSet.AdmiralIgnoreAnnotation).getD ""
        ≠ "true" →
      shouldIgnoreBasedOnLabelsForRollout roc rollout = false) ∧
    ((GetRolloutGlobalIdentifier rollout).length > 0 →
      shouldIgnoreBasedOnLabelsForRollout roc rollout = false →
      HandleAddUpdateRollout GetRolloutGlobalIdentifier GetEnvForRollout rollout roc =
        (rolloutCache.UpdateRolloutToClusterCache GetEnvForRollout roc.Cache
          (GetRolloutGlobalIdentifier rollout) rollout).map
          (fun cache => ({ roc with Cache := cache }, [RolloutEvent.Added rollout]))) ∧
    ((GetRolloutGlobalIdentifier rollout).length > 0 →
      shouldIgnoreBasedOnLabelsForRollout roc rollout = true →
      HandleAddUpdateRollout GetRolloutGlobalIdentifier GetEnvForRollout rollout roc =
        some ({ roc with
            Cache := rolloutCache.DeleteFromRolloutToClusterCache GetEnvForRollout roc.Cache
              (GetRolloutGlobalIdentifier rollout) rollout },
          [])) ∧
    ((GetRolloutGlobalIdentifier rollout).length = 0 →
      HandleAddUpdateRollout GetRolloutGlobalIdentifier GetEnvForRollout rollout roc =
        some (roc, [])) ∧
    (∀ roc' events,
      HandleAddUpdateRollout GetRolloutGlobalIdentifier GetEnvForRollout rollout roc =
        some (roc', events) →
      events ≠ [] →
      shouldIgnoreBasedOnLabelsForRollout roc rollout = false ∧
        events = [RolloutEvent.Added rollout]) ∧
    ((GetRolloutGlobalIdentifier rollout).length > 0 →
      shouldIgnoreBasedOnLabelsForRollout roc rollout = false →
      (∀ roc' events,
        HandleAddUpdateRollout GetRolloutGlobalIdentifier GetEnvForRollout rollout roc =
          some (roc', events) →
        events = [RolloutEvent.Added rollout] ∧
          rolloutCache.Get roc'.Cache (GetRolloutGlobalIdentifier rollout)
            (GetEnvForRollout rollout) = some rollout) ∧
      ((∀ rce, GoMap.lookup roc.Cache (GetRolloutGlobalIdentifier rollout) = some rce →
          rce.Rollouts ≠ none) →
        ∃ roc',
          HandleAddUpdateRollout GetRolloutGlobalIdentifier GetEnvForRollout rollout roc =
            some (roc', [RolloutEvent.Added rollout]))) ∧
    (GoMap.lookup roc.Cache "" = none →
      shouldIgnoreBasedOnLabelsForRollout roc rollout = true →
      ∃ roc',
        HandleAddUpdateRollout GetRolloutGlobalIdentifier GetEnvForRollout rollout roc =
          some (roc', []) ∧
        rolloutCache.Get roc'.Cache (GetRolloutGlobalIdentifier rollout)
          (GetEnvForRollout rollout) = none) ∧
    (HandleAddUpdateRollout GetRolloutGlobalIdentifier GetEnvForRollout rollout roc = none ↔
      (GetRolloutGlobalIdentifier rollout).length > 0 ∧
        shouldIgnoreBasedOnLabelsForRollout roc rollout = false ∧
        ∃ rce, GoMap.lookup roc.Cache (GetRolloutGlobalIdentifier rollout) = some rce ∧
          rce.Rollouts = none) := by
  have hadd : (GetRolloutGlobalIdentifier rollout).length > 0 →
      shouldIgnoreBasedOnLabelsForRollout roc rollout = false →
      HandleAddUpdateRollout GetRolloutGlobalIdentifier GetEnvForRollout rollout roc =
        (rolloutCache.UpdateRolloutToClusterCache GetEnvForRollout roc.Cache
          (GetRolloutGlobalIdentifier rollout) rollout).map
          (fun cache => ({ roc with Cache := cache }, [RolloutEvent.Added rollout])) := by
    intro hk hi
    unfold HandleAddUpdateRollout
    simp only [hk, hi, if_true, Bool.not_false]
    cases rolloutCache.UpdateRolloutToClusterCache GetEnvForRollout roc.Cache
      (GetRolloutGlobalIdentifier rollout) rollout <;> rfl
  have hdel : (GetRolloutGlobalIdentifier rollout).length > 0 →
      shouldIgnoreBasedOnLabelsForRollout roc rollout = true →
      HandleAddUpdateRollout GetRolloutGlobalIdentifier GetEnvForRollout rollout roc =
        some ({ roc with
            Cache := rolloutCache.DeleteFromRolloutToClusterCache GetEnvForRollout roc.Cache
              (GetRolloutGlobalIdentifier rollout) rollout },
          []) := by
    intro hk hi
    simp [HandleAddUpdateRollout, hk, hi]
  have hnone : (GetRolloutGlobalIdentifier rollout).length = 0 →
      HandleAddUpdateRollout GetRolloutGlobalIdentifier GetEnvForRollout rollout roc =
        some (roc, []) := by
    intro hk
    simp [HandleAddUpdateRollout, hk]
  refine ⟨?_, ?_, hadd, hdel, hnone, ?_, ?_, ?_, ?_⟩
  · unfold shouldIgnoreBasedOnLabelsForRollout
    split
    · rename_i h1; simp [h1]
    · rename_i h1
      split
      · rename_i h2; simp [h2]
      · rename_i h2
        split
        · rename_i h3; simp [h3]
        · rename_i h3
          cases hns : GoMap.lookup roc.Namespaces rollout.Namespace with
          | none => simp [h1, h2, h3]
          | some ns =>
            simp only [Option.some.injEq, exists_eq_left']
            split
            · rename_i h4; simp [h4]
            · rename_i h4; simp [h1, h2, h3, h4]
  · intro hns h1 h2 h3
    simp [shouldIgnoreBasedOnLabelsForRollout, h1, h2, h3, hns]
  · intro roc' events hres hev
    by_cases hk : (GetRolloutGlobalIdentifier rollout).length > 0
    · cases hi : shouldIgnoreBasedOnLabelsForRollout roc rollout with
      | false =>
        refine ⟨rfl, ?_⟩
        rw [hadd hk hi] at hres
        cases hu : rolloutCache.UpdateRolloutToClusterCache GetEnvForRollout roc.Cache
            (GetRolloutGlobalIdentifier rollout) rollout with
        | none => rw [hu] at hres; cases hres
        | some c =>
          rw [hu] at hres
          simp only [Option.map_some', Option.some.injEq, Prod.mk.injEq] at hres
          exact hres.2.symm
      | true =>
        rw [hdel hk hi] at hres
        simp only [Option.some.injEq, Prod.mk.injEq] at hres
        exact absurd hres.2.symm hev
    · rw [hnone (by omega)] at hres
      simp only [Option.some.injEq, Prod.mk.injEq] at hres
      exact absurd hres.2.symm hev
  · intro hk hi
    constructor
    · intro roc' events hres
      rw [hadd hk hi] at hres
      cases hu : rolloutCache.UpdateRolloutToClusterCache GetEnvForRollout roc.Cache
          (GetRolloutGlobalIdentifier rollout) rollout with
      | none => rw [hu] at hres; cases hres
      | some c =>
        rw [hu] at hres
        simp only [Option.map_some', Option.some.injEq, Prod.mk.injEq] at hres
        refine ⟨hres.2.symm, ?_⟩
        rw [← hres.1]
        exact rolloutGet_update _ _ _ _ _ hu
    · intro hm
      cases hu : rolloutCache.UpdateRolloutToClusterCache GetEnvForRollout roc.Cache
          (GetRolloutGlobalIdentifier rollout) rollout with
      | none =>
        obtain ⟨rce, hl, hn⟩ := (update_eq_none _ _ _ _).1 hu
        exact absurd hn (hm rce hl)
      | some c =>
        exact ⟨_, by rw [hadd hk hi, hu]; rfl⟩
  · intro hempty hi
    by_cases hk : (GetRolloutGlobalIdentifier rollout).length > 0
    · exact ⟨_, hdel hk hi, rolloutGet_delete _ _ _ _⟩
    · have hk0 : (GetRolloutGlobalIdentifier rollout).length = 0 := by omega
      refine ⟨_, hnone hk0, ?_⟩
      have hkey : GetRolloutGlobalIdentifier rollout = "" := by
        apply String.ext
        exact List.length_eq_zero.1 hk0
      simp [rolloutCache.Get, hkey, hempty]
  · constructor
    · intro hres
      by_cases hk : (GetRolloutGlobalIdentifier rollout).length > 0
      · cases hi : shouldIgnoreBasedOnLabelsForRollout roc rollout with
        | false =>
          rw [hadd hk hi] at hres
          refine ⟨hk, rfl, (update_eq_none GetEnvForRollout roc.Cache
            (GetRolloutGlobalIdentifier rollout) rollout).1 ?_⟩
          cases hu : rolloutCache.UpdateRolloutToClusterCache GetEnvForRollout roc.Cache
              (GetRolloutGlobalIdentifier rollout) rollout with
          | none => rfl
          | some c => rw [hu] at hres; cases hres
        | true => rw [hdel hk hi] at hres; cases hres
      · rw [hnone (by omega)] at hres
        cases hres
    · rintro ⟨hk, hi, hrce⟩
      rw [hadd hk hi, (update_eq_none _ _ _ _).2 hrce]
      rfl

/-- C18 at the example controller: a rollout with the sidecar injected is stored and
announced, the same rollout with the ignore annotation is neither. -/
theorem rollout_ignore_and_handle_witness :
    HandleAddUpdateRollout (fun r => r.Name) (fun _ => "stage") injectedRollout
        exampleRolloutController =
      some ({ exampleRolloutController with
          Cache :=
            [("foo", { Identity := "foo", Rollouts := some [("stage", injectedRollout)] })] },
        [RolloutEvent.Added injectedRollout]) ∧
    HandleAddUpdateRollout (fun r => r.Name) (fun _ => "stage") ignoredRollout
        exampleRolloutController = some (exampleRolloutController, []) :=
  ⟨((rollout_ignore_and_handle (fun r => r.Name) (fun _ => "stage") exampleRolloutController
      injectedRollout).2.2.1 (by decide) (by decide)).trans (by decide),
    ((rollout_ignore_and_handle (fun r => r.Name) (fun _ => "stage") exampleRolloutController
      ignoredRollout).2.2.2.1 (by decide) (by decide)).trans (by decide)⟩

/-! ## The egress hosts of the workload sidecar -/

theorem GoMap.mem_keys_insert {V : Type} (m : GoMap V) (k k' : String) (v : V) :
    k' ∈ GoMap.keys (GoMap.insert m k v) ↔ k' = k ∨ k' ∈ GoMap.keys m := by
  induction m with
  | nil => simp [GoMap.insert, GoMap.keys]
  | cons kv t ih =>
    obtain ⟨k₀, v₀⟩ := kv
    by_cases h0 : k₀ = k
    · subst h0
      simp [GoMap.insert, GoMap.keys]
    · simp only [GoMap.keys] at ih
      simp only [GoMap.insert, h0, if_false, GoMap.keys, List.map_cons, List.mem_cons, ih]
      tauto

theorem cnames_fold (ns : String) (cnames : GoMap String) :
    ∀ acc : GoMap String, (GoMap.keys acc).Nodup →
      (GoMap.keys (cnames.foldl (fun (egressHosts : GoMap String) cname =>
        GoMap.insert egressHosts (ns ++ "/" ++ cname.1) (ns ++ "/" ++ cname.1)) acc)).Nodup ∧
      ∀ h, h ∈ GoMap.keys (cnames.foldl (fun (egressHosts : GoMap String) cname =>
          GoMap.insert egressHosts (ns ++ "/" ++ cname.1) (ns ++ "/" ++ cname.1)) acc) ↔
        h ∈ GoMap.keys acc ∨ ∃ c ∈ cnames, h = ns ++ "/" ++ c.1 := by
  induction cnames with
  | nil => intro acc hn; simp [hn]
  | cons c t ih =>
    intro acc hn
    rw [List.foldl_cons]
    obtain ⟨h1, h2⟩ := ih _ (GoMap.keys_insert_nodup acc (ns ++ "/" ++ c.1) (ns ++ "/" ++ c.1) hn)
    refine ⟨h1, ?_⟩
    intro h
    rw [h2, GoMap.mem_keys_insert]
    simp only [List.mem_cons, exists_eq_or_imp]
    tauto

theorem collect_fold (m : GoMap SidecarEgress) :
    ∀ acc : GoMap String, (GoMap.keys acc).Nodup →
      (GoMap.keys (m.foldl (fun (egressHosts : GoMap String) kv =>
        kv.2.CNAMEs.foldl (fun (egressHosts : GoMap String) cname =>
          GoMap.insert egressHosts (kv.2.Namespace ++ "/" ++ cname.1)
            (kv.2.Namespace ++ "/" ++ cname.1))
          (GoMap.insert egressHosts (kv.2.Namespace ++ "/" ++ kv.2.FQDN)
            (kv.2.Namespace ++ "/" ++ kv.2.FQDN))) acc)).Nodup ∧
      ∀ h, h ∈ GoMap.keys (m.foldl (fun (egressHosts : GoMap String) kv =>
          kv.2.CNAMEs.foldl (fun (egressHosts : GoMap String) cname =>
            GoMap.insert egressHosts (kv.2.Namespace ++ "/" ++ cname.1)
              (kv.2.Namespace ++ "/" ++ cname.1))
            (GoMap.insert egressHosts (kv.2.Namespace ++ "/" ++ kv.2.FQDN)
              (kv.2.Namespace ++ "/" ++ kv.2.FQDN))) acc) ↔
        h ∈ GoMap.keys acc ∨ WantedHost m h := by
  induction m with
  | nil => intro acc hn; simp [hn, WantedHost]
  | cons kv t ih =>
    intro acc hn
    rw [List.foldl_cons]
    obtain ⟨c1, c2⟩ := cnames_fold kv.2.Namespace kv.2.CNAMEs _
      (GoMap.keys_insert_nodup acc (kv.2.Namespace ++ "/" ++ kv.2.FQDN)
        (kv.2.Namespace ++ "/" ++ kv.2.FQDN) hn)
    obtain ⟨h1, h2⟩ := ih _ c1
    refine ⟨h1, ?_⟩
    intro h
    have hw : WantedHost (kv :: t) h ↔
        ((h = kv.2.Namespace ++ "/" ++ kv.2.FQDN ∨
          ∃ c ∈ kv.2.CNAMEs, h = kv.2.Namespace ++ "/" ++ c.1) ∨ WantedHost t h) := by
      simp [WantedHost]
    rw [h2, c2, GoMap.mem_keys_insert, hw]
    constructor
    · rintro (((hx | hx) | hx) | hx)
      · exact Or.inr (Or.inl (Or.inl hx))
      · exact Or.inl hx
      · exact Or.inr (Or.inl (Or.inr hx))
      · exact Or.inr (Or.inr hx)
    · rintro (hx | (hx | hx) | hx)
      · exact Or.inl (Or.inl (Or.inr hx))
      · exact Or.inl (Or.inl (Or.inl hx))
      · exact Or.inl (Or.inr hx)
      · exact Or.inr hx

theorem collectEgressHosts_keys (m : GoMap SidecarEgress) :
    (GoMap.keys (collectEgressHosts m)).Nodup ∧
      ∀ h, h ∈ GoMap.keys (collectEgressHosts m) ↔ WantedHost m h := by
  obtain ⟨h1, h2⟩ := collect_fold m [] (by simp [GoMap.keys])
  refine ⟨h1, ?_⟩
  intro h
  have := h2 h
  simpa [GoMap.keys] using this

theorem addMissing_eq (order : List String) :
    ∀ hosts : List String, order.Nodup →
      addMissing hosts order = hosts ++ order.filter (fun h => decide (h ∉ hosts)) := by
  induction order with
  | nil => intro hosts _; simp [addMissing]
  | cons h t ih =>
    intro hosts hn
    rw [List.nodup_cons] at hn
    unfold addMissing at ih ⊢
    rw [List.foldl_cons]
    by_cases hm : h ∈ hosts
    · simp only [hm, if_true]
      rw [ih hosts hn.2]
      simp [List.filter_cons, hm]
    · simp only [hm, if_false]
      rw [ih (hosts ++ [h]) hn.2]
      have hfil : t.filter (fun x => decide (x ∉ hosts ++ [h])) =
          t.filter (fun x => decide (x ∉ hosts)) := by
        apply List.filter_congr
        intro x hx
        have hxh : x ≠ h := fun e => hn.1 (e ▸ hx)
        simp [hxh]
      rw [hfil]
      simp [List.filter_cons, hm]

theorem egress_fold (first : IstioEgressListener) (rest : List IstioEgressListener)
    (l : GoMap String) :
    ∀ hosts : List String,
      l.foldl (fun (e : Option (List IstioEgressListener)) kv => appendEgressHost e kv.1)
        (some ({ first with Hosts := hosts } :: rest)) =
      some ({ first with Hosts := addMissing hosts (GoMap.keys l) } :: rest) := by
  induction l with
  | nil => intro hosts; simp [addMissing, GoMap.keys]
  | cons kv t ih =>
    intro hosts
    rw [List.foldl_cons]
    by_cases hm : kv.1 ∈ hosts
    · have hstep : appendEgressHost (some ({ first with Hosts := hosts } :: rest)) kv.1 =
          some ({ first with Hosts := hosts } :: rest) := by
        simp [appendEgressHost, hm]
      rw [hstep, ih hosts]
      simp [addMissing, GoMap.keys, hm]
    · have hstep : appendEgressHost (some ({ first with Hosts := hosts } :: rest)) kv.1 =
          some ({ first with Hosts := hosts ++ [kv.1] } :: rest) := by
        simp [appendEgressHost, hm]
      rw [hstep, ih (hosts ++ [kv.1])]
      simp [addMissing, GoMap.keys, hm]

theorem modifySidecar_eq (Range : GoMap String → GoMap String)
    (hperm : ∀ m, (Range m).Perm m) (workloadSidecarName sidecarNamespace : String)
    (sidecarEgressMap : GoMap SidecarEgress) (rc : RemoteController)
    (sidecars : GoMap Sidecar) (sidecar : Sidecar) (first : IstioEgressListener)
    (rest : List IstioEgressListener)
    (hc : rc.SidecarController = some sidecars)
    (hs : GoMap.lookup sidecars sidecarNamespace = some sidecar)
    (he : sidecar.Spec.Egress = some (first :: rest)) :
    modifySidecarForLocalClusterCommunication Range workloadSidecarName sidecarNamespace
        (some sidecarEgressMap) rc =
      SidecarOutcome.updated (sidecarWith sidecar first rest
        ((GoMap.keys (Range (collectEgressHosts sidecarEgressMap))).filter
          (fun h => decide (h ∉ first.Hosts)))) ∧
    (GoMap.keys (Range (collectEgressHosts sidecarEgressMap))).Nodup ∧
    ∀ h, h ∈ GoMap.keys (Range (collectEgressHosts sidecarEgressMap)) ↔
      WantedHost sidecarEgressMap h := by
  obtain ⟨hn, hmem⟩ := collectEgressHosts_keys sidecarEgressMap
  have hp : (GoMap.keys (Range (collectEgressHosts sidecarEgressMap))).Perm
      (GoMap.keys (collectEgressHosts sidecarEgressMap)) :=
    (hperm (collectEgressHosts sidecarEgressMap)).map Prod.fst
  have hn' := hp.nodup_iff.2 hn
  refine ⟨?_, hn', fun h => (hp.mem_iff).trans (hmem h)⟩
  have hfold := egress_fold first rest (Range (collectEgressHosts sidecarEgressMap))
    first.Hosts
  simp only [modifySidecarForLocalClusterCommunication, hc, hs, he, hfold,
    createSidecarSkeletion, addUpdateSidecar, copySidecar, addMissing_eq _ _ hn',
    sidecarWith]

/-- C13: for a sidecar with at least one egress listener,
`modifySidecarForLocalClusterCommunication` passes to `Update` the sidecar whose first
listener has the hosts it had, in their order, followed by hosts that are pairwise
different: exactly the hosts `<namespace>/<fqdn>` and `<namespace>/<cname>` of the egress
map that the listener did not have.  A listener without a repeated host gets none, and a
second call with the same map on the sidecar the first call wrote passes the same sidecar
again.  `Range` is any order in which the loop may visit the map of hosts. -/
theorem sidecar_egress_dedup (Range : GoMap String → GoMap String)
    (hperm : ∀ m, (Range m).Perm m) (workloadSidecarName sidecarNamespace : String)
    (sidecarEgressMap : GoMap SidecarEgress) (rc : RemoteController)
    (sidecars : GoMap Sidecar) (sidecar : Sidecar) (first : IstioEgressListener)
    (rest : List IstioEgressListener)
    (hc : rc.SidecarController = some sidecars)
    (hs : GoMap.lookup sidecars sidecarNamespace = some sidecar)
    (he : sidecar.Spec.Egress = some (first :: rest)) :
    modifySidecarForLocalClusterCommunication Range workloadSidecarName sidecarNamespace
        (some sidecarEgressMap) rc =
      SidecarOutcome.updated
        (sidecarWith sidecar first rest (addedHosts Range sidecarEgressMap first)) ∧
    (sidecarWith sidecar first rest (addedHosts Range sidecarEgressMap first)).Spec.Egress =
      some ({ first with
              Hosts := first.Hosts ++ addedHosts Range sidecarEgressMap first } :: rest) ∧
    (addedHosts Range sidecarEgressMap first).Nodup ∧
    (∀ h, h ∈ addedHosts Range sidecarEgressMap first ↔
      ((∃ kv ∈ sidecarEgressMap,
          h = kv.2.Namespace ++ "/" ++ kv.2.FQDN ∨
            ∃ c ∈ kv.2.CNAMEs, h = kv.2.Namespace ++ "/" ++ c.1) ∧
        h ∉ first.Hosts)) ∧
    (first.Hosts.Nodup → (first.Hosts ++ addedHosts Range sidecarEgressMap first).Nodup) ∧
    (∀ (rc' : RemoteController) (sidecars' : GoMap Sidecar),
      rc'.SidecarController = some sidecars' →
      GoMap.lookup sidecars' sidecarNamespace =
        some (sidecarWith sidecar first rest (addedHosts Range sidecarEgressMap first)) →
      modifySidecarForLocalClusterCommunication Range workloadSidecarName sidecarNamespace
          (some sidecarEgressMap) rc' =
        SidecarOutcome.updated
          (sidecarWith sidecar first rest (addedHosts Range sidecarEgressMap first))) := by
  obtain ⟨hres, hn, hmem⟩ := modifySidecar_eq Range hperm workloadSidecarName
    sidecarNamespace sidecarEgressMap rc sidecars sidecar first rest hc hs he
  refine ⟨hres, rfl, hn.filter _, ?_, ?_, ?_⟩
  · intro h
    unfold addedHosts
    rw [List.mem_filter, hmem]
    simp [WantedHost]
  · intro hnd
    rw [List.nodup_append]
    refine ⟨hnd, hn.filter _, ?_⟩
    intro x hx hx'
    unfold addedHosts at hx'
    rw [List.mem_filter] at hx'
    simp at hx'
    exact hx'.2 hx
  · intro rc' sidecars' hc' hs'
    obtain ⟨hres', -, -⟩ := modifySidecar_eq Range hperm workloadSidecarName
      sidecarNamespace sidecarEgressMap rc' sidecars'
      (sidecarWith sidecar first rest (addedHosts Range sidecarEgressMap first))
      { first with Hosts := first.Hosts ++ addedHosts Range sidecarEgressMap first }
      rest hc' hs' rfl
    rw [hres']
    have hnil : (GoMap.keys (Range (collectEgressHosts sidecarEgressMap))).filter
        (fun h => decide (h ∉ first.Hosts ++ addedHosts Range sidecarEgressMap first)) =
        [] := by
      rw [List.filter_eq_nil_iff]
      intro x hx
      by_cases hxf : x ∈ first.Hosts
      · simp [hxf]
      · have hxa : x ∈ addedHosts Range sidecarEgressMap first := by
          unfold addedHosts
          rw [List.mem_filter]
          exact ⟨hx, by simp [hxf]⟩
        simp [hxa]
    simp only [hnil, sidecarWith, List.append_nil]

/-- C13 at a sidecar that has the host of the egress entry but not its cname, the map of
hosts being visited in reverse. -/
theorem sidecar_egress_dedup_witness :
    modifySidecarForLocalClusterCommunication List.reverse "default" "bar"
        (some barEgressMap) sidecarCluster =
      SidecarOutcome.updated
        (sidecarWith barSidecar { Hosts := ["./*", "bar/foo.bar.svc.cluster.local"] } []
          ["bar/stage.foo.global"]) :=
  (sidecar_egress_dedup List.reverse (fun m => List.reverse_perm m) "default" "bar"
    barEgressMap sidecarCluster [("bar", barSidecar)] barSidecar
    { Hosts := ["./*", "bar/foo.bar.svc.cluster.local"] } [] rfl (by decide) rfl).1.trans
    (by decide)

/-! ## The writer -/

theorem writeSeDr_eq {DR : Type} (H : Helpers DR) (identityId : String)
    (rc : RemoteController) (cache : AdmiralCache) (seDr : SeDrTuple DR) (host : String)
    (rest : List String) (hh : seDr.ServiceEntry.Hosts = host :: rest) :
    writeSeDr H identityId rc cache seDr =
      some (seDrOps H identityId rc seDr,
        { cache with
          SeClusterCache :=
            if seDr.ServiceEntry.Endpoints = [] then
              MapOfMaps.Delete cache.SeClusterCache host
            else MapOfMaps.Put cache.SeClusterCache host rc.ClusterID rc.ClusterID }) := by
  unfold writeSeDr seDrOps
  by_cases he : seDr.ServiceEntry.Endpoints = []
  · simp [he, hh]
  · have hl : ¬ seDr.ServiceEntry.Endpoints.length = 0 := by
      intro h0
      exact he (List.length_eq_zero.1 h0)
    simp [he, hl, hh]

theorem writeSeDrSet_ops {DR : Type} (H : Helpers DR) (identityId : String)
    (rc : RemoteController) :
    ∀ (l : List (String × SeDrTuple DR)) (cache : AdmiralCache) (ops : List (ClusterOp DR))
      (cache' : AdmiralCache),
      writeSeDrSet H identityId rc l cache = some (ops, cache') →
      ops = (l.map (fun kv => seDrOps H identityId rc kv.2)).flatten := by
  intro l
  induction l with
  | nil =>
    intro cache ops cache' h
    simp only [writeSeDrSet, Option.some.injEq, Prod.mk.injEq] at h
    simp [← h.1]
  | cons kv t ih =>
    intro cache ops cache' h
    simp only [writeSeDrSet] at h
    cases hw : writeSeDr H identityId rc cache kv.2 with
    | none => rw [hw] at h; cases h
    | some r =>
      obtain ⟨ops1, c1⟩ := r
      rw [hw] at h
      simp only at h
      cases hr : writeSeDrSet H identityId rc t c1 with
      | none => rw [hr] at h; cases h
      | some r2 =>
        obtain ⟨ops2, c2⟩ := r2
        rw [hr] at h
        simp only [Option.some.injEq, Prod.mk.injEq] at h
        have hops1 : ops1 = seDrOps H identityId rc kv.2 := by
          unfold writeSeDr at hw
          unfold seDrOps
          by_cases he : kv.2.ServiceEntry.Endpoints = []
          · simp only [he, List.length_nil, if_true] at hw ⊢
            split at hw
            · cases hw
            · simp only [Option.some.injEq, Prod.mk.injEq] at hw
              exact hw.1.symm
          · have hl : ¬ kv.2.ServiceEntry.Endpoints.length = 0 := by
              intro h0
              exact he (List.length_eq_zero.1 h0)
            simp only [he, hl, if_false] at hw ⊢
            split at hw
            · cases hw
            · simp only [Option.some.injEq, Prod.mk.injEq] at hw
              exact hw.1.symm
        rw [← h.1, hops1, ih c1 ops2 c2 hr]
        simp

/-- C12: `AddServiceEntriesWithDr` writes a service entry with the identity that
`CnameIdentityCache` holds for its first host (the empty string when it holds none), the
env that is the first label of that host and the policy set that `GlobalTrafficCache`
holds for that identity and env, to every cluster passed.  For a tuple whose service entry
has a host it calls `deleteServiceEntry` and `deleteDestinationRule` and takes the host out
of `SeClusterCache`, with no upsert, when the service entry has no endpoint; otherwise it
calls `addUpdateServiceEntry`, with the label of the workload identity, and
`addUpdateDestinationRule` and puts the cluster under the host in `SeClusterCache`, with no
delete.  For a cluster with a locality the calls are those of the tuples of the set, one
tuple after the other.  A cluster without controller or without locality gives no call,
leaves the cache as it is, and the loop goes on with the clusters that follow.  With no
policy set for the identity and env the calls for one entry in one cluster are spelled
out. -/
theorem writer_delete_or_upsert {DR : Type} (H : Helpers DR) (rr : RemoteRegistry)
    (env identityId : String) (se : ServiceEntry)
    (globalTrafficPolicy : Option GlobalTrafficPolicy) (sourceCluster : String)
    (cache : AdmiralCache) :
    (∀ (rc : RemoteController) (seDr : SeDrTuple DR) (host : String) (rest : List String)
        (c : AdmiralCache),
      seDr.ServiceEntry.Hosts = host :: rest → seDr.ServiceEntry.Endpoints = [] →
      writeSeDr H identityId rc c seDr =
          some ([ClusterOp.deleteServiceEntry rc.ClusterID seDr.SeName,
              ClusterOp.deleteDestinationRule rc.ClusterID seDr.DrName],
            { c with SeClusterCache := MapOfMaps.Delete c.SeClusterCache host }) ∧
        GoMap.lookup (MapOfMaps.Delete c.SeClusterCache host) host = none) ∧
    (∀ (rc : RemoteController) (seDr : SeDrTuple DR) (host : String) (rest : List String)
        (c : AdmiralCache),
      seDr.ServiceEntry.Hosts = host :: rest → seDr.ServiceEntry.Endpoints ≠ [] →
      writeSeDr H identityId rc c seDr =
          some ([ClusterOp.addUpdateServiceEntry rc.ClusterID seDr.SeName seDr.ServiceEntry
                [(H.WorkloadIdentifier, identityId)],
              ClusterOp.addUpdateDestinationRule rc.ClusterID seDr.DrName
                seDr.DestinationRule],
            { c with
              SeClusterCache :=
                MapOfMaps.Put c.SeClusterCache host rc.ClusterID rc.ClusterID }) ∧
        ∃ clusters,
          GoMap.lookup (MapOfMaps.Put c.SeClusterCache host rc.ClusterID rc.ClusterID) host =
            some clusters ∧
          GoMap.lookup clusters rc.ClusterID = some rc.ClusterID) ∧
    (∀ (rc : RemoteController) (locality : Locality) (seDrSet : GoMap (SeDrTuple DR))
        (cache' : AdmiralCache),
      rr.GetRemoteController sourceCluster = some rc → rc.Locality = some locality →
      createSeAndDrSetFromGtp H.getDestinationRule env locality.Region se
        globalTrafficPolicy cache = some (seDrSet, cache') →
      writeToCluster H rr env identityId se globalTrafficPolicy sourceCluster cache =
          writeSeDrSet H identityId rc (H.RangeSeDr seDrSet) cache' ∧
        ∀ ops cache'',
          writeToCluster H rr env identityId se globalTrafficPolicy sourceCluster cache =
            some (ops, cache'') →
          ops = ((H.RangeSeDr seDrSet).map
            (fun kv => seDrOps H identityId rc kv.2)).flatten) ∧
    ((rr.GetRemoteController sourceCluster = none ∨
        ∃ rc, rr.GetRemoteController sourceCluster = some rc ∧ rc.Locality = none) →
      writeToCluster H rr env identityId se globalTrafficPolicy sourceCluster cache =
          some ([], cache) ∧
        ∀ (k : String) (rest : GoMap String),
          writeToClusters H rr env identityId se globalTrafficPolicy
              ((k, sourceCluster) :: rest) cache =
            writeToClusters H rr env identityId se globalTrafficPolicy rest cache) ∧
    (∀ (key host : String) (hostRest : List String) (sourceClusters : GoMap String)
        (c : AdmiralCache),
      se.Hosts = host :: hostRest →
      AddServiceEntriesWithDr H rr sourceClusters [(key, se)] c =
        writeToClusters H rr (firstLabel host)
          ((GoMap.lookup c.CnameIdentityCache host).getD "") se
          (H.GetFromIdentity c.GlobalTrafficCache
            ((GoMap.lookup c.CnameIdentityCache host).getD "") (firstLabel host))
          sourceClusters c) ∧
    (∀ (key k host identity : String) (hostRest : List String) (c : AdmiralCache)
        (rc : RemoteController) (locality : Locality),
      (∀ m, (H.RangeSeDr m).Perm m) →
      se.Hosts = host :: hostRest →
      GoMap.lookup c.CnameIdentityCache host = some identity →
      H.GetFromIdentity c.GlobalTrafficCache identity (firstLabel host) = none →
      rr.GetRemoteController sourceCluster = some rc → rc.Locality = some locality →
      (se.Endpoints ≠ [] →
        AddServiceEntriesWithDr H rr [(k, sourceCluster)] [(key, se)] c =
          some ([ClusterOp.addUpdateServiceEntry rc.ClusterID (host ++ "-se") se
                [(H.WorkloadIdentifier, identity)],
              ClusterOp.addUpdateDestinationRule rc.ClusterID (host ++ "-default-dr")
                (H.getDestinationRule se locality.Region none)],
            { c with
              SeClusterCache :=
                MapOfMaps.Put c.SeClusterCache host rc.ClusterID rc.ClusterID })) ∧
      (se.Endpoints = [] →
        AddServiceEntriesWithDr H rr [(k, sourceCluster)] [(key, se)] c =
          some ([ClusterOp.deleteServiceEntry rc.ClusterID (host ++ "-se"),
              ClusterOp.deleteDestinationRule rc.ClusterID (host ++ "-default-dr")],
            { c with SeClusterCache := MapOfMaps.Delete c.SeClusterCache host }))) := by
  have hadd : ∀ (key host : String) (hostRest : List String) (sourceClusters : GoMap String)
      (c : AdmiralCache),
      se.Hosts = host :: hostRest →
      AddServiceEntriesWithDr H rr sourceClusters [(key, se)] c =
        writeToClusters H rr (firstLabel host)
          ((GoMap.lookup c.CnameIdentityCache host).getD "") se
          (H.GetFromIdentity c.GlobalTrafficCache
            ((GoMap.lookup c.CnameIdentityCache host).getD "") (firstLabel host))
          sourceClusters c := by
    intro key host hostRest sourceClusters c hh
    simp only [AddServiceEntriesWithDr, writeServiceEntry, hh]
    cases writeToClusters H rr (firstLabel host)
        ((GoMap.lookup c.CnameIdentityCache host).getD "") se
        (H.GetFromIdentity c.GlobalTrafficCache
          ((GoMap.lookup c.CnameIdentityCache host).getD "") (firstLabel host))
        sourceClusters c with
    | none => rfl
    | some r => simp
  refine ⟨?_, ?_, ?_, ?_, hadd, ?_⟩
  · intro rc seDr host rest c hh he
    rw [writeSeDr_eq H identityId rc c seDr host rest hh]
    simp [seDrOps, he, MapOfMaps.Delete, GoMap.lookup_erase_self]
  · intro rc seDr host rest c hh he
    rw [writeSeDr_eq H identityId rc c seDr host rest hh]
    refine ⟨by simp [seDrOps, he], _, GoMap.lookup_insert_self _ _ _,
      GoMap.lookup_insert_self _ _ _⟩
  · intro rc locality seDrSet cache' hrc hloc hset
    have heq : writeToCluster H rr env identityId se globalTrafficPolicy sourceCluster
        cache = writeSeDrSet H identityId rc (H.RangeSeDr seDrSet) cache' := by
      simp [writeToCluster, hrc, hloc, hset]
    refine ⟨heq, ?_⟩
    intro ops cache'' h
    rw [heq] at h
    exact writeSeDrSet_ops H identityId rc _ _ _ _ h
  · intro hskip
    have heq : writeToCluster H rr env identityId se globalTrafficPolicy sourceCluster
        cache = some ([], cache) := by
      rcases hskip with hn | ⟨rc, hrc, hloc⟩
      · simp [writeToCluster, hn]
      · simp [writeToCluster, hrc, hloc]
    refine ⟨heq, ?_⟩
    intro k rest
    simp only [writeToClusters, heq]
    cases writeToClusters H rr env identityId se globalTrafficPolicy rest cache with
    | none => rfl
    | some r => simp
  · intro key k host identity hostRest c rc locality hRange hh hid hgtp hrc hloc
    have hset : createSeAndDrSetFromGtp H.getDestinationRule (firstLabel host)
        locality.Region se none c =
        some ([(host, defaultSeDr H.getDestinationRule locality.Region se host)], c) := by
      simp [createSeAndDrSetFromGtp, hh, GoMap.lookup, GoMap.insert, defaultSeDr,
        getIstioResourceName]
    have hrange : H.RangeSeDr
        [(host, defaultSeDr H.getDestinationRule locality.Region se host)] =
        [(host, defaultSeDr H.getDestinationRule locality.Region se host)] :=
      List.perm_singleton.1 (hRange _)
    have hone : AddServiceEntriesWithDr H rr [(k, sourceCluster)] [(key, se)] c =
        writeSeDr H identity rc c
          (defaultSeDr H.getDestinationRule locality.Region se host) := by
      rw [hadd key host hostRest [(k, sourceCluster)] c hh, hid]
      simp only [Option.getD_some, hgtp, writeToClusters, writeToCluster, hrc, hloc, hset,
        hrange, writeSeDrSet]
      cases writeSeDr H identity rc c
          (defaultSeDr H.getDestinationRule locality.Region se host) with
      | none => rfl
      | some r => simp
    have hw := writeSeDr_eq H identity rc c
      (defaultSeDr H.getDestinationRule locality.Region se host) host hostRest hh
    constructor
    · intro he
      rw [hone, hw]
      simp [seDrOps, defaultSeDr, he]
    · intro he
      rw [hone, hw]
      simp [seDrOps, defaultSeDr, he]

/-- C12 at the west cluster, after a cluster without locality: a service entry with
endpoints is upserted with its destination rule, one without endpoints is deleted with
its destination rule.  With the host known as that of the identity `foo`, and a policy set
active for `foo` in `stage`, the entries are labelled with `foo` and the tuple of the
policy is written as well. -/
theorem writer_delete_or_upsert_witness :
    (AddServiceEntriesWithDr exampleHelpers exampleRegistry
        [("lost", "lost"), ("west", "west")] [("stage.foo.global", canarySe)]
        plainCache).map (fun r => r.1) =
      some [ClusterOp.addUpdateServiceEntry "west" "stage.foo.global-se" canarySe
          [("identity", "")],
        ClusterOp.addUpdateDestinationRule "west" "stage.foo.global-default-dr"
          ("us-west-2", none)] ∧
    (AddServiceEntriesWithDr exampleHelpers exampleRegistry
        [("lost", "lost"), ("west", "west")] [("stage.foo.global", drainedSe)]
        plainCache).map (fun r => r.1) =
      some [ClusterOp.deleteServiceEntry "west" "stage.foo.global-se",
        ClusterOp.deleteDestinationRule "west" "stage.foo.global-default-dr"] ∧
    writeToCluster exampleHelpers exampleRegistry "stage" "" drainedSe none "lost"
      plainCache = some ([], plainCache) ∧
    AddServiceEntriesWithDr exampleHelpers exampleRegistry [("west", "west")]
        [("stage.foo.global", canarySe)] identifiedCache =
      some ([ClusterOp.addUpdateServiceEntry "west" "stage.foo.global-se" canarySe
            [("identity", "foo")],
          ClusterOp.addUpdateDestinationRule "west" "stage.foo.global-default-dr"
            ("us-west-2", none)],
        { identifiedCache with
          SeClusterCache := [("stage.foo.global", [("west", "west")])] }) ∧
    (AddServiceEntriesWithDr policyHelpers exampleRegistry [("west", "west")]
        [("stage.foo.global", canarySe)] identifiedCache).map (fun r => r.1) =
      some [ClusterOp.addUpdateServiceEntry "west" "canary.stage.foo.global-se"
            { canarySe with
              Hosts := ["canary.stage.foo.global"], Addresses := ["240.0.10.1"] }
            [("identity", "foo")],
          ClusterOp.addUpdateDestinationRule "west" "canary.stage.foo.global-dr"
            ("us-west-2", some "canary"),
          ClusterOp.addUpdateServiceEntry "west" "stage.foo.global-se" canarySe
            [("identity", "foo")],
          ClusterOp.addUpdateDestinationRule "west" "stage.foo.global-default-dr"
            ("us-west-2", none)] ∧
    (AddServiceEntriesWithDr policyHelpers exampleRegistry [("west", "west")]
        [("stage.foo.global", canarySe)] plainCache).map (fun r => r.1) =
      some [ClusterOp.addUpdateServiceEntry "west" "stage.foo.global-se" canarySe
            [("identity", "")],
          ClusterOp.addUpdateDestinationRule "west" "stage.foo.global-default-dr"
            ("us-west-2", none)] :=
  ⟨by decide, by decide,
    ((writer_delete_or_upsert exampleHelpers exampleRegistry "stage" "" drainedSe none "lost"
      plainCache).2.2.2.1 (Or.inr ⟨_, rfl, rfl⟩)).1,
    ((writer_delete_or_upsert exampleHelpers exampleRegistry "stage" "" canarySe none "west"
      plainCache).2.2.2.2.2 "stage.foo.global" "west" "stage.foo.global" "foo" []
      identifiedCache westCluster ⟨"us-west-2"⟩ (fun m => List.Perm.refl m) rfl rfl rfl rfl
      rfl).1 (by decide),
    by decide, by decide⟩

/-! ## The resolver: early return and clusters without a service -/

/-- C17: when Admiral is in read-only mode, or the cache is warming up,
`modifyServiceEntryForNewServiceOrPod` returns at once, for every event, env and identity:
it returns nil (no service entries), makes no call on a cluster (no write or delete of a
service entry, destination rule or sidecar) and leaves the cache as it was, the address
store and the ConfigMap behind it included (no VIP is allocated). -/
theorem modify_returns_early {DR : Type} (H : Helpers DR) (event : EventType)
    (env sourceIdentity : String) (rr : RemoteRegistry) (cache : AdmiralCache)
    (h : H.ReadOnly = true ∨ H.CacheWarmup rr = true) :
    modifyServiceEntryForNewServiceOrPod H event env sourceIdentity rr cache =
      some (none, [], cache) := by
  unfold modifyServiceEntryForNewServiceOrPod
  rcases h with h | h
  · rw [if_pos h]
  · by_cases hr : H.ReadOnly = true
    · rw [if_pos hr]
    · rw [if_neg hr, if_pos h]

theorem modify_returns_early_witness :
    readOnlyHelpers.ReadOnly = true ∧
    modifyServiceEntryForNewServiceOrPod readOnlyHelpers EventType.Add "stage" "foo"
      (registryOf deployedCluster) plainCache = some (none, [], plainCache) :=
  ⟨rfl, modify_returns_early readOnlyHelpers EventType.Add "stage" "foo"
    (registryOf deployedCluster) plainCache (Or.inl rfl)⟩

/-- C16 (counterexample): the west cluster has a deployment for the identity `foo` in
`stage` and no service for it.  The cluster is skipped, and no service entry is added, yet
`IdentityClusterCache`, empty before, holds the cluster under the identity afterwards, both
after the body of the loop and when the function returns. -/
theorem skipped_cluster_is_recorded :
    exampleHelpers.getServiceForDeployment deployedCluster fooDeployment = none ∧
    plainCache.IdentityClusterCache = [] ∧
    (resolveCluster exampleHelpers EventType.Add "stage" "foo" (registryOf deployedCluster)
      { cache := plainCache } "west").serviceEntries = [] ∧
    (resolveCluster exampleHelpers EventType.Add "stage" "foo" (registryOf deployedCluster)
      { cache := plainCache } "west").cache.IdentityClusterCache =
        [("foo", [("west", "west")])] ∧
    (modifyServiceEntryForNewServiceOrPod exampleHelpers EventType.Add "stage" "foo"
      (registryOf deployedCluster) plainCache).map
        (fun r => (r.1, r.2.2.IdentityClusterCache)) =
      some (some [], [("foo", [("west", "west")])]) := by
  refine ⟨rfl, rfl, ?_, ?_, ?_⟩
  · decide
  · decide
  · decide

/-- The body of the first loop for a cluster whose workload has no service. -/
theorem resolveCluster_skip {DR : Type} (H : Helpers DR) (event : EventType)
    (env sourceIdentity : String) (rr : RemoteRegistry) (st : ResolveState)
    (clusterId : String) (rc : RemoteController)
    (hrc : rr.GetRemoteController clusterId = some rc)
    (hmiss :
      (∃ d, fetchedDeployment env sourceIdentity rc st = some d ∧
        H.getServiceForDeployment rc d = none) ∨
      (fetchedDeployment env sourceIdentity rc st = none ∧
        ∃ r, fetchedRollout env sourceIdentity rc st = some r ∧
          H.getServiceForRollout rc r = [])) :
    (resolveCluster H event env sourceIdentity rr st clusterId).serviceEntries =
        st.serviceEntries ∧
      (resolveCluster H event env sourceIdentity rr st clusterId).sourceServices =
        st.sourceServices ∧
      (resolveCluster H event env sourceIdentity rr st clusterId).sourceWeightedServices =
        st.sourceWeightedServices ∧
      (resolveCluster H event env sourceIdentity rr st clusterId).sourceDeployments =
        st.sourceDeployments ∧
      (resolveCluster H event env sourceIdentity rr st clusterId).sourceRollouts =
        st.sourceRollouts ∧
      (resolveCluster H event env sourceIdentity rr st clusterId).gtps = st.gtps ∧
      (resolveCluster H event env sourceIdentity rr st clusterId).cnames = st.cnames ∧
      (resolveCluster H event env sourceIdentity rr st clusterId).cname = st.cname ∧
      (resolveCluster H event env sourceIdentity rr st clusterId).cache =
        withIdentityCluster st.cache sourceIdentity rc.ClusterID := by
  unfold resolveCluster
  rw [hrc]
  rcases hmiss with ⟨d, hd, hs⟩ | ⟨hd, r, hr, hs⟩
  · unfold fetchedDeployment at hd
    cases hdc : rc.DeploymentController <;> cases hroc : rc.RolloutController <;>
      rw [hdc] at hd <;> simp only [] at hd <;>
      simp [hdc, hroc, hd, hs, withIdentityCluster]
  · unfold fetchedDeployment at hd
    unfold fetchedRollout at hr
    cases hdc : rc.DeploymentController <;> cases hroc : rc.RolloutController <;>
      rw [hdc] at hd <;> rw [hroc] at hr <;> simp only [] at hd hr <;>
      simp [hdc, hroc, hd, hr, hs, withIdentityCluster]

theorem foundWithoutService_miss {DR : Type} (H : Helpers DR) (env sourceIdentity : String)
    (rc : RemoteController) (st : ResolveState)
    (h : FoundWithoutService H env sourceIdentity rc) :
    (∃ d, fetchedDeployment env sourceIdentity rc st = some d ∧
        H.getServiceForDeployment rc d = none) ∨
      (fetchedDeployment env sourceIdentity rc st = none ∧
        ∃ r, fetchedRollout env sourceIdentity rc st = some r ∧
          H.getServiceForRollout rc r = []) := by
  obtain ⟨dc, hdc, hcase⟩ := h
  rcases hcase with ⟨d, hd, hs⟩ | ⟨hd, roc, r, hroc, hr, hs⟩
  · exact Or.inl ⟨d, by simp [fetchedDeployment, hdc, hd], hs⟩
  · exact Or.inr ⟨by simp [fetchedDeployment, hdc, hd], r,
      by simp [fetchedRollout, hroc, hr], hs⟩

/-- The first loop over clusters that are all skipped. -/
theorem resolveAll_skip {DR : Type} (H : Helpers DR) (event : EventType)
    (env sourceIdentity : String) (rr : RemoteRegistry) :
    ∀ (clusters : List String) (st : ResolveState),
      (∀ clusterId ∈ clusters, ∀ rc, rr.GetRemoteController clusterId = some rc →
        FoundWithoutService H env sourceIdentity rc) →
      (clusters.foldl (resolveCluster H event env sourceIdentity rr) st).serviceEntries =
          st.serviceEntries ∧
        (clusters.foldl (resolveCluster H event env sourceIdentity rr) st).sourceServices =
          st.sourceServices ∧
        (clusters.foldl (resolveCluster H event env sourceIdentity rr) st).gtps = st.gtps ∧
        (clusters.foldl (resolveCluster H event env sourceIdentity rr) st).cnames =
          st.cnames ∧
        (clusters.foldl (resolveCluster H event env sourceIdentity rr) st).cname = st.cname ∧
        (clusters.foldl (resolveCluster H event env sourceIdentity rr) st).cache =
          { st.cache with
            IdentityClusterCache :=
              recordClusters rr sourceIdentity clusters st.cache.IdentityClusterCache } := by
  intro clusters
  induction clusters with
  | nil => intro st _; exact ⟨rfl, rfl, rfl, rfl, rfl, rfl⟩
  | cons c rest ih =>
    intro st hall
    have hrest : ∀ clusterId ∈ rest, ∀ rc, rr.GetRemoteController clusterId = some rc →
        FoundWithoutService H env sourceIdentity rc :=
      fun x hx => hall x (List.mem_cons_of_mem _ hx)
    simp only [List.foldl_cons]
    obtain ⟨h1, h2, h3, h4, h5, h6⟩ :=
      ih (resolveCluster H event env sourceIdentity rr st c) hrest
    cases hrc : rr.GetRemoteController c with
    | none =>
      have hst : resolveCluster H event env sourceIdentity rr st c = st := by
        unfold resolveCluster
        rw [hrc]
      rw [hst] at h1 h2 h3 h4 h5 h6 ⊢
      refine ⟨h1, h2, h3, h4, h5, ?_⟩
      rw [h6]
      simp [recordClusters, hrc]
    | some rc =>
      obtain ⟨s1, s2, -, -, -, s6, s7, s8, s9⟩ := resolveCluster_skip H event env
        sourceIdentity rr st c rc hrc
        (foundWithoutService_miss H env sourceIdentity rc st
          (hall c (List.mem_cons_self _ _) rc hrc))
      refine ⟨h1.trans s1, h2.trans s2, h3.trans s6, h4.trans s7, h5.trans s8, ?_⟩
      rw [h6, s9]
      simp [recordClusters, hrc, withIdentityCluster]

/-- A run of the function in which every cluster is skipped for want of a service. -/
theorem modify_all_skipped {DR : Type} (H : Helpers DR) (event : EventType)
    (env sourceIdentity : String) (rr : RemoteRegistry) (cache : AdmiralCache)
    (hro : H.ReadOnly = false) (hwu : H.CacheWarmup rr = false)
    (hgtps : H.RangeGtps [] = []) (hsvc : H.RangeServices [] = [])
    (hall : ∀ clusterId ∈ rr.ClusterIds, ∀ rc, rr.GetRemoteController clusterId = some rc →
      FoundWithoutService H env sourceIdentity rc) :
    modifyServiceEntryForNewServiceOrPod H event env sourceIdentity rr cache =
      some (some [], [], cacheAfterSkips H env sourceIdentity rr cache) := by
  obtain ⟨h1, h2, h3, h4, h5, h6⟩ := resolveAll_skip H event env sourceIdentity rr
    rr.ClusterIds { cache := cache } hall
  unfold modifyServiceEntryForNewServiceOrPod
  rw [hro, hwu]
  simp only [Bool.false_eq_true, if_false]
  rw [h1, h2, h3, h4, h5, h6, hgtps, hsvc]
  have hfold : ∀ (keys : List String) (c : AdmiralCache),
      keys.foldl (fun (cache : AdmiralCache) clusterId =>
        { cache with
          CnameDependentClusterCache :=
            MapOfMaps.Put cache.CnameDependentClusterCache "" clusterId clusterId }) c =
        { c with
          CnameDependentClusterCache :=
            keys.foldl (fun m clusterId => MapOfMaps.Put m "" clusterId clusterId)
              c.CnameDependentClusterCache } := by
    intro keys
    induction keys with
    | nil => intro c; rfl
    | cons k t ih => intro c; simp only [List.foldl_cons]; rw [ih]
  simp [rewriteForSources, updateGlobalGtpCache, AddServiceEntriesWithDr, cacheAfterSkips,
    hfold]

/-- C16 (amended): for a cluster in which a deployment for the identity and env is found
and `getServiceForDeployment` finds no service, or in which no deployment and a rollout is
found and `getServiceForRollout` finds no service, the body of the first loop of
`modifyServiceEntryForNewServiceOrPod` skips the cluster: it adds no service entry (the
map `serviceEntries` is as before, and so are its endpoints), records the cluster in none
of the working maps, and leaves the cache as it was but for `IdentityClusterCache`, which
holds the cluster under the identity afterwards.  The steps after the loop run all the
same: when every cluster that has a controller is skipped in this way, the function
returns an empty map and makes no call on a cluster, and the cache differs from the one
before in that `IdentityClusterCache` holds those clusters under the identity, the entry
of the identity and env is deleted from `GlobalTrafficCache`, and the clusters of the
dependents are recorded in `CnameDependentClusterCache` under the empty cname. -/
theorem resolveCluster_without_service {DR : Type} (H : Helpers DR) (event : EventType)
    (env sourceIdentity : String) (rr : RemoteRegistry) :
    (∀ (st : ResolveState) (clusterId : String) (rc : RemoteController),
      rr.GetRemoteController clusterId = some rc →
      ((∃ d, fetchedDeployment env sourceIdentity rc st = some d ∧
          H.getServiceForDeployment rc d = none) ∨
        (fetchedDeployment env sourceIdentity rc st = none ∧
          ∃ r, fetchedRollout env sourceIdentity rc st = some r ∧
            H.getServiceForRollout rc r = [])) →
      (resolveCluster H event env sourceIdentity rr st clusterId).serviceEntries =
          st.serviceEntries ∧
        (resolveCluster H event env sourceIdentity rr st clusterId).sourceServices =
          st.sourceServices ∧
        (resolveCluster H event env sourceIdentity rr st clusterId).sourceWeightedServices =
          st.sourceWeightedServices ∧
        (resolveCluster H event env sourceIdentity rr st clusterId).sourceDeployments =
          st.sourceDeployments ∧
        (resolveCluster H event env sourceIdentity rr st clusterId).sourceRollouts =
          st.sourceRollouts ∧
        (resolveCluster H event env sourceIdentity rr st clusterId).gtps = st.gtps ∧
        (resolveCluster H event env sourceIdentity rr st clusterId).cnames = st.cnames ∧
        (resolveCluster H event env sourceIdentity rr st clusterId).cname = st.cname ∧
        (resolveCluster H event env sourceIdentity rr st clusterId).cache =
          withIdentityCluster st.cache sourceIdentity rc.ClusterID) ∧
    (∀ cache : AdmiralCache,
      H.ReadOnly = false → H.CacheWarmup rr = false →
      H.RangeGtps [] = [] → H.RangeServices [] = [] →
      (∀ clusterId ∈ rr.ClusterIds, ∀ rc, rr.GetRemoteController clusterId = some rc →
        FoundWithoutService H env sourceIdentity rc) →
      modifyServiceEntryForNewServiceOrPod H event env sourceIdentity rr cache =
        some (some [], [],
          { cache with
            IdentityClusterCache :=
              recordClusters rr sourceIdentity rr.ClusterIds cache.IdentityClusterCache
            GlobalTrafficCache :=
              cache.GlobalTrafficCache ++ [GtpCacheOp.Delete sourceIdentity env]
            CnameDependentClusterCache :=
              (GoMap.keys (H.getDependentClusters
                ((GoMap.lookup cache.IdentityDependencyCache sourceIdentity).getD [])
                (recordClusters rr sourceIdentity rr.ClusterIds cache.IdentityClusterCache)
                [])).foldl
                (fun m clusterId => MapOfMaps.Put m "" clusterId clusterId)
                cache.CnameDependentClusterCache })) :=
  ⟨fun st clusterId rc hrc hmiss =>
      resolveCluster_skip H event env sourceIdentity rr st clusterId rc hrc hmiss,
    fun cache hro hwu hgtps hsvc hall =>
      modify_all_skipped H event env sourceIdentity rr cache hro hwu hgtps hsvc hall⟩

theorem resolveCluster_without_service_witness :
    (fetchedDeployment "stage" "foo" deployedCluster { cache := plainCache } =
        some fooDeployment ∧
      (resolveCluster exampleHelpers EventType.Add "stage" "foo" (registryOf deployedCluster)
        { cache := plainCache } "west").cache = withIdentityCluster plainCache "foo" "west") ∧
    (fetchedDeployment "stage" "foo" rolledOutCluster { cache := plainCache } = none ∧
      fetchedRollout "stage" "foo" rolledOutCluster { cache := plainCache } =
        some injectedRollout ∧
      (resolveCluster exampleHelpers EventType.Add "stage" "foo"
        (registryOf rolledOutCluster) { cache := plainCache } "west").cache =
          withIdentityCluster plainCache "foo" "west") ∧
    modifyServiceEntryForNewServiceOrPod exampleHelpers EventType.Add "stage" "foo"
        (registryOf deployedCluster) plainCache =
      some (some [], [],
        { plainCache with
          IdentityClusterCache := [("foo", [("west", "west")])]
          GlobalTrafficCache := [GtpCacheOp.Delete "foo" "stage"] }) :=
  ⟨⟨by decide,
    ((resolveCluster_without_service exampleHelpers EventType.Add "stage" "foo"
      (registryOf deployedCluster)).1 { cache := plainCache } "west" deployedCluster
      (by decide) (Or.inl ⟨fooDeployment, by decide, rfl⟩)).2.2.2.2.2.2.2.2⟩,
   ⟨by decide, by decide,
    ((resolveCluster_without_service exampleHelpers EventType.Add "stage" "foo"
      (registryOf rolledOutCluster)).1 { cache := plainCache } "west" rolledOutCluster
      (by decide) (Or.inr ⟨by decide, injectedRollout, by decide, rfl⟩)).2.2.2.2.2.2.2.2⟩,
   ((resolveCluster_without_service exampleHelpers EventType.Add "stage" "foo"
      (registryOf deployedCluster)).2 plainCache rfl rfl rfl rfl
      (by
        intro clusterId hmem rc hrc
        simp only [registryOf, List.mem_singleton] at hmem
        subst hmem
        have hrc' : rc = deployedCluster := by
          simp only [registryOf, RemoteRegistry.GetRemoteController, GoMap.lookup, if_true,
            Option.some.injEq] at hrc
          exact hrc.symm
        subst hrc'
        exact ⟨_, rfl, Or.inl ⟨fooDeployment, by decide, rfl⟩⟩)).trans rfl⟩

/-! ## The resolver: the rewrite for a source cluster -/

theorem setEndpoint_self (se : ServiceEntry) (i : Nat) (ep : Endpoint)
    (h : se.Endpoints.get? i = some ep) : setEndpoint se i ep = se := by
  have hl : ∀ (l : List Endpoint) (n : Nat), l.get? n = some ep → l.set n ep = l := by
    intro l
    induction l with
    | nil => intro n _; rfl
    | cons a t ih =>
      intro n hn
      cases n with
      | zero =>
        simp only [List.get?_cons_zero, Option.some.injEq] at hn
        rw [List.set_cons_zero, hn]
      | succ m =>
        simp only [List.get?_cons_succ] at hn
        rw [List.set_cons_succ, ih m hn]
  unfold setEndpoint
  rw [hl se.Endpoints i h]

/-- The blue-green rewrite of an endpoint changes its address and its ports only. -/
theorem blueGreen_restore (G : String → Service → Rollout → GoMap Nat) (r : Rollout)
    (weightedServices : GoMap WeightedService) (cnames cnames' : GoMap String)
    (ep ep' : Endpoint) (sourceCluster meshHost : String)
    (h : updateEndpointsForBlueGreen G r weightedServices cnames ep sourceCluster meshHost =
      some (cnames', ep')) :
    ({ ep' with Address := ep.Address, Ports := ep.Ports } : Endpoint) = ep := by
  unfold updateEndpointsForBlueGreen at h
  split at h
  · exact absurd h (by simp)
  · dsimp only at h
    split at h
    · simp only [Option.some.injEq, Prod.mk.injEq] at h
      rw [← h.2]
    · split at h
      · simp only [Option.some.injEq, Prod.mk.injEq] at h
        rw [← h.2]
      · simp only [Option.some.injEq, Prod.mk.injEq] at h
        rw [← h.2]

/-- A blue-green rollout is rewritten without a panic. -/
theorem blueGreen_isSome (G : String → Service → Rollout → GoMap Nat) (r : Rollout)
    (weightedServices : GoMap WeightedService) (cnames : GoMap String)
    (ep : Endpoint) (sourceCluster meshHost : String) (h : r.BlueGreen.isSome = true) :
    ∃ cnames' ep', updateEndpointsForBlueGreen G r weightedServices cnames ep sourceCluster
      meshHost = some (cnames', ep') := by
  unfold updateEndpointsForBlueGreen
  cases hb : r.BlueGreen with
  | none => rw [hb] at h; exact absurd h (by simp)
  | some b =>
    simp only []
    split
    · exact ⟨_, _, rfl⟩
    · split
      · exact ⟨_, _, rfl⟩
      · exact ⟨_, _, rfl⟩

/-- C20 (counterexample): the rollout of the west cluster is blue-green, with only its
preview service among the services, and the entry is the one of the active host.  The
second endpoint of the shared entry is at the ingress `10.0.0.1` and matches, and the
object written to the cluster is the shared entry as it was: its endpoint carries the
ingress address and port, not a local name and mesh ports. -/
theorem blueGreen_write_keeps_ingress :
    canarySe.Endpoints.get? 1 = some ingressEndpoint ∧
    ingressEndpoint.Address = "10.0.0.1" ∧
    (rewriteEndpoint exampleHelpers exampleRegistry "west" "10.0.0.1"
      "foo-a.ns.svc.cluster.local" [("http", 8080)] true (some blueGreenRollout)
      previewOnlyServices "stage.foo.global" rewriteStart 1).map
        (fun st => writtenEntries st.ops) = some [canarySe] := by
  refine ⟨rfl, rfl, ?_⟩
  decide

/-- C20 (amended): in the rewrite of `modifyServiceEntryForNewServiceOrPod` for a source
cluster, take an endpoint of the shared service entry whose address is the cluster ingress.
In the plain branch (no blue-green rollout, at most one weighted service) the object
written to the source cluster is the entry with that endpoint at the local FQDN and the
mesh ports.  In the blue-green branch the rewrite does not panic and the object written
is the entry with that endpoint as `updateEndpointsForBlueGreen` leaves it.  In both, once
the write is made, the address and the ports of the endpoint are again the ones from
before the rewrite, and in every branch the shared service entry after the step is the
one from before. -/
theorem rewrite_restores_endpoint {DR : Type} (H : Helpers DR) (rr : RemoteRegistry)
    (sourceCluster clusterIngress localFqdn : String) (meshPorts : GoMap Nat)
    (blueGreenStrategy : Bool) (rollout : Option Rollout)
    (weightedServices : GoMap WeightedService) (key : String) (st : RewriteState DR)
    (i : Nat) (ep : Endpoint)
    (hbg : blueGreenStrategy = isBlueGreenStrategy rollout)
    (hep : st.serviceEntry.Endpoints.get? i = some ep)
    (haddr : ep.Address = clusterIngress) :
    (blueGreenStrategy = false → weightedServices.length ≤ 1 →
      rewriteEndpoint H rr sourceCluster clusterIngress localFqdn meshPorts
          blueGreenStrategy rollout weightedServices key st i =
        writeToSource H rr sourceCluster key
          (setEndpoint st.serviceEntry i { ep with Address := localFqdn, Ports := meshPorts })
          st.serviceEntry st.cnames st) ∧
    (blueGreenStrategy = true →
      ∃ r cnames ep', rollout = some r ∧
        updateEndpointsForBlueGreen (fun c s ro => H.GetMeshPortsForRollout c s (some ro)) r
          weightedServices st.cnames ep sourceCluster key = some (cnames, ep') ∧
        rewriteEndpoint H rr sourceCluster clusterIngress localFqdn meshPorts
            blueGreenStrategy rollout weightedServices key st i =
          writeToSource H rr sourceCluster key (setEndpoint st.serviceEntry i ep')
            st.serviceEntry cnames st) ∧
    (∀ st', rewriteEndpoint H rr sourceCluster clusterIngress localFqdn meshPorts
        blueGreenStrategy rollout weightedServices key st i = some st' →
      st'.serviceEntry = st.serviceEntry) := by
  have hplain : blueGreenStrategy = false → weightedServices.length ≤ 1 →
      rewriteEndpoint H rr sourceCluster clusterIngress localFqdn meshPorts
          blueGreenStrategy rollout weightedServices key st i =
        writeToSource H rr sourceCluster key
          (setEndpoint st.serviceEntry i { ep with Address := localFqdn, Ports := meshPorts })
          st.serviceEntry st.cnames st := by
    intro hb hw
    have hw' : ¬ weightedServices.length > 1 := by omega
    have hr : setEndpoint st.serviceEntry i
        { ep with Address := clusterIngress, Ports := ep.Ports } = st.serviceEntry := by
      rw [← haddr]
      exact setEndpoint_self _ _ _ hep
    unfold rewriteEndpoint
    rw [hep]
    simp only [haddr, true_or, if_true, hb, Bool.false_eq_true, if_false, hw']
    rw [hr]
  have hblue : blueGreenStrategy = true →
      ∃ r cnames ep', rollout = some r ∧
        updateEndpointsForBlueGreen (fun c s ro => H.GetMeshPortsForRollout c s (some ro)) r
          weightedServices st.cnames ep sourceCluster key = some (cnames, ep') ∧
        rewriteEndpoint H rr sourceCluster clusterIngress localFqdn meshPorts
            blueGreenStrategy rollout weightedServices key st i =
          writeToSource H rr sourceCluster key (setEndpoint st.serviceEntry i ep')
            st.serviceEntry cnames st := by
    intro hb
    rw [hb] at hbg
    cases hro : rollout with
    | none => rw [hro] at hbg; exact absurd hbg (by simp [isBlueGreenStrategy])
    | some r =>
      rw [hro] at hbg
      have hsome : r.BlueGreen.isSome = true := by
        simpa [isBlueGreenStrategy] using hbg.symm
      obtain ⟨cnames, ep', hu⟩ := blueGreen_isSome
        (fun c s ro => H.GetMeshPortsForRollout c s (some ro)) r weightedServices st.cnames ep
        sourceCluster key hsome
      refine ⟨r, cnames, ep', rfl, hu, ?_⟩
      have hr : setEndpoint st.serviceEntry i
          { ep' with Address := clusterIngress, Ports := ep.Ports } = st.serviceEntry := by
        rw [← haddr, blueGreen_restore _ _ _ _ _ _ _ _ _ hu]
        exact setEndpoint_self _ _ _ hep
      unfold rewriteEndpoint
      rw [hep]
      simp only [haddr, true_or, if_true, hb, hu]
      rw [hr]
  refine ⟨hplain, hblue, ?_⟩
  intro st' hst'
  have hwrite : ∀ (se : ServiceEntry) (cnames : GoMap String),
      writeToSource H rr sourceCluster key se st.serviceEntry cnames st = some st' →
      st'.serviceEntry = st.serviceEntry := by
    intro se cnames hw
    unfold writeToSource at hw
    split at hw
    · exact absurd hw (by simp)
    · simp only [Option.some.injEq] at hw
      rw [← hw]
  cases hb : blueGreenStrategy with
  | true =>
    obtain ⟨r, cnames, ep', _, _, he⟩ := hblue hb
    rw [hb] at he hst'
    rw [he] at hst'
    exact hwrite _ _ hst'
  | false =>
    by_cases hw : weightedServices.length ≤ 1
    · have he := hplain hb hw
      rw [hb] at he hst'
      rw [he] at hst'
      exact hwrite _ _ hst'
    · have hw' : weightedServices.length > 1 := by omega
      rw [hb] at hst'
      unfold rewriteEndpoint at hst'
      rw [hep] at hst'
      simp only [haddr, true_or, if_true, Bool.false_eq_true, if_false, hw'] at hst'
      exact hwrite _ _ hst'

theorem rewrite_restores_endpoint_witness :
    (rewriteEndpoint exampleHelpers exampleRegistry "west" "10.0.0.1"
      "foo.ns.svc.cluster.local" [("http", 8080)] false none [] "stage.foo.global"
      rewriteStart 1).map (fun st => (writtenEntries st.ops, st.serviceEntry)) =
        some ([canarySeAt "foo.ns.svc.cluster.local" [("http", 8080)]], canarySe) ∧
    (∀ st', rewriteEndpoint exampleHelpers exampleRegistry "west" "10.0.0.1"
        "foo-a.ns.svc.cluster.local" [("http", 8080)] true (some blueGreenRollout)
        blueGreenServices "stage.foo.global" rewriteStart 1 = some st' →
      st'.serviceEntry = canarySe) ∧
    (rewriteEndpoint exampleHelpers exampleRegistry "west" "10.0.0.1"
      "foo-a.ns.svc.cluster.local" [("http", 8080)] true (some blueGreenRollout)
      blueGreenServices "stage.foo.global" rewriteStart 1).map
        (fun st => writtenEntries st.ops) =
          some [canarySeAt "foo-a.ns.svc.cluster.local" [("http", 8080)]] := by
  refine ⟨?_, ?_, ?_⟩
  · rw [(rewrite_restores_endpoint exampleHelpers exampleRegistry "west" "10.0.0.1"
      "foo.ns.svc.cluster.local" [("http", 8080)] false none [] "stage.foo.global"
      rewriteStart 1 ingressEndpoint rfl rfl rfl).1 rfl (by decide)]
    decide
  · exact (rewrite_restores_endpoint exampleHelpers exampleRegistry "west" "10.0.0.1"
      "foo-a.ns.svc.cluster.local" [("http", 8080)] true (some blueGreenRollout)
      blueGreenServices "stage.foo.global" rewriteStart 1 ingressEndpoint rfl rfl rfl).2.2
  · decide

/-- An endpoint that matches by its empty address, while the cluster has an ingress, is
left at the ingress of the cluster by the assignment after the write: the plain branch
writes it with the local FQDN and the mesh ports and then gives it the address
`10.0.0.1`. -/
theorem empty_address_takes_ingress :
    (rewriteEndpoint exampleHelpers exampleRegistry "west" "10.0.0.1"
      "foo.ns.svc.cluster.local" [("http", 8080)] false none [] "stage.foo.global"
      { rewriteStart with serviceEntry := pendingSe } 1).map
        (fun st => (writtenEntries st.ops, st.serviceEntry)) =
      some ([canarySeAt "foo.ns.svc.cluster.local" [("http", 8080)]], canarySe) ∧
    pendingSe ≠ canarySe := by
  refine ⟨?_, ?_⟩
  · decide
  · decide

/-! ## The rollout cache as a map -/

theorem GoMap.lookup_erase_ne {V : Type} (m : GoMap V) (k k' : String) (h : k ≠ k') :
    GoMap.lookup (GoMap.erase m k) k' = GoMap.lookup m k' := by
  induction m with
  | nil => rfl
  | cons kv t ih =>
    obtain ⟨k₀, v₀⟩ := kv
    by_cases h0 : k₀ = k
    · subst h0
      simp [GoMap.erase, GoMap.lookup, h, ih]
    · by_cases h1 : k₀ = k'
      · subst h1
        simp [GoMap.erase, GoMap.lookup, h0]
      · simp [GoMap.erase, GoMap.lookup, h0, h1, ih]

theorem wellKept_put (cache : GoMap RolloutClusterEntry) (hk : WellKept cache)
    (e : RolloutClusterEntry) (he : e.Rollouts ≠ none) :
    WellKept (rolloutCache.Put cache e) := by
  intro k rce h
  unfold rolloutCache.Put at h
  rw [GoMap.lookup_insert] at h
  split at h
  · rename_i hek
    simp only [Option.some.injEq] at h
    rw [← h]
    exact ⟨hek, he⟩
  · exact hk k rce h

theorem wellKept_delete (cache : GoMap RolloutClusterEntry) (hk : WellKept cache)
    (e : RolloutClusterEntry) : WellKept (rolloutCache.Delete cache e) := by
  intro k rce h
  unfold rolloutCache.Delete at h
  by_cases he : e.Identity = k
  · rw [← he, GoMap.lookup_erase_self] at h
    cases h
  · rw [GoMap.lookup_erase_ne _ _ _ he] at h
    exact hk k rce h

/-- On a cache that keeps every entry under its identity and with a map, the method
`UpdateRolloutToClusterCache` returns, and is one assignment under the key. -/
theorem update_wellKept_eq (GetEnvForRollout : Rollout → String)
    (cache : GoMap RolloutClusterEntry) (hk : WellKept cache) (key : String)
    (rollout : Rollout) :
    rolloutCache.UpdateRolloutToClusterCache GetEnvForRollout cache key rollout =
      some (GoMap.insert cache key
        { Identity := key
          Rollouts := some (GoMap.insert
            (match GoMap.lookup cache key with
              | some rce => rce.Rollouts.getD []
              | none => [])
            (GetEnvForRollout rollout) rollout) }) := by
  unfold rolloutCache.UpdateRolloutToClusterCache
  cases hl : GoMap.lookup cache key with
  | none => rfl
  | some rce =>
    obtain ⟨hid, hm⟩ := hk key rce hl
    cases hr : rce.Rollouts with
    | none => exact absurd hr hm
    | some rollouts =>
      simp only [hid, hr, Option.getD_some]
      have hins : ∀ (m : GoMap RolloutClusterEntry) (v : RolloutClusterEntry),
          GoMap.insert (GoMap.insert m key v) key v = GoMap.insert m key v := by
        intro m v
        induction m with
        | nil => simp [GoMap.insert]
        | cons kv t ih =>
          obtain ⟨k₀, v₀⟩ := kv
          by_cases h0 : k₀ = key
          · simp [GoMap.insert, h0]
          · simp [GoMap.insert, h0, ih]
      rw [hins]

theorem wellKept_update (GetEnvForRollout : Rollout → String)
    (cache cache' : GoMap RolloutClusterEntry) (hk : WellKept cache) (key : String)
    (rollout : Rollout)
    (h : rolloutCache.UpdateRolloutToClusterCache GetEnvForRollout cache key rollout =
      some cache') : WellKept cache' := by
  rw [update_wellKept_eq GetEnvForRollout cache hk] at h
  simp only [Option.some.injEq] at h
  rw [← h]
  intro k rce hl
  rw [GoMap.lookup_insert] at hl
  split at hl
  · rename_i he
    simp only [Option.some.injEq] at hl
    rw [← hl]
    exact ⟨he, by simp⟩
  · exact hk k rce hl

theorem wellKept_deleteFrom (GetEnvForRollout : Rollout → String)
    (cache : GoMap RolloutClusterEntry) (hk : WellKept cache) (key : String)
    (rollout : Rollout) :
    WellKept
      (rolloutCache.DeleteFromRolloutToClusterCache GetEnvForRollout cache key rollout) := by
  unfold rolloutCache.DeleteFromRolloutToClusterCache
  cases hl : GoMap.lookup cache key with
  | none => exact hk
  | some rce0 =>
    intro k rce h
    simp only at h
    rw [GoMap.lookup_insert] at h
    split at h
    · rename_i he
      simp only [Option.some.injEq] at h
      obtain ⟨hid, hm⟩ := hk key rce0 hl
      rw [← h, ← he]
      refine ⟨hid, ?_⟩
      cases hr : rce0.Rollouts with
      | none => exact absurd hr hm
      | some m => simp
    · exact hk k rce h

theorem rolloutGet_update_other (GetEnvForRollout : Rollout → String)
    (cache cache' : GoMap RolloutClusterEntry) (hk : WellKept cache) (key : String)
    (rollout : Rollout)
    (hu : rolloutCache.UpdateRolloutToClusterCache GetEnvForRollout cache key rollout =
      some cache')
    (key' env' : String) (h : key' ≠ key ∨ env' ≠ GetEnvForRollout rollout) :
    rolloutCache.Get cache' key' env' = rolloutCache.Get cache key' env' := by
  rw [update_wellKept_eq GetEnvForRollout cache hk] at hu
  simp only [Option.some.injEq] at hu
  rw [← hu]
  unfold rolloutCache.Get
  rw [GoMap.lookup_insert]
  by_cases hkk : key = key'
  · subst hkk
    have henv : GetEnvForRollout rollout ≠ env' := by
      rcases h with h | h
      · exact absurd rfl h
      · exact fun e => h e.symm
    rw [if_pos rfl]
    simp only
    rw [GoMap.lookup_insert_ne _ _ _ _ henv]
    cases hl : GoMap.lookup cache key with
    | none => rfl
    | some rce =>
      simp only
      cases hr : rce.Rollouts with
      | none => exact absurd hr (hk key rce hl).2
      | some m => rfl
  · rw [if_neg hkk]

theorem rolloutGet_delete_other (GetEnvForRollout : Rollout → String)
    (cache : GoMap RolloutClusterEntry) (key : String)
    (rollout : Rollout) (key' env' : String)
    (h : key' ≠ key ∨ env' ≠ GetEnvForRollout rollout) :
    rolloutCache.Get
        (rolloutCache.DeleteFromRolloutToClusterCache GetEnvForRollout cache key rollout)
        key' env' = rolloutCache.Get cache key' env' := by
  unfold rolloutCache.DeleteFromRolloutToClusterCache
  cases hl : GoMap.lookup cache key with
  | none => rfl
  | some rce =>
    unfold rolloutCache.Get
    simp only
    rw [GoMap.lookup_insert]
    by_cases hkk : key = key'
    · subst hkk
      have henv : GetEnvForRollout rollout ≠ env' := by
        rcases h with h | h
        · exact absurd rfl h
        · exact fun e => h e.symm
      rw [if_pos rfl, hl]
      simp only
      cases hr : rce.Rollouts with
      | none => rfl
      | some m =>
        simp only [Option.map_some']
        exact GoMap.lookup_erase_ne _ _ _ henv
    · rw [if_neg hkk]

/-- C23: on a cache of rollouts that keeps every entry under its own identity and with a
map that is not nil (the empty cache does, and `UpdateRolloutToClusterCache`,
`DeleteFromRolloutToClusterCache` and `Delete` keep it so, as does `Put` of an entry that
has a map), the cache is a map from (identity, env): `UpdateRolloutToClusterCache(key, r)`
returns, and after it `Get(key, env of r)` returns `r`; after
`DeleteFromRolloutToClusterCache(key, r)`, `Get(key, env of r)` returns nil; `Get` of an
identity without entry returns nil; and each of the two methods leaves the result of `Get`
as it was for every other pair of identity and env. -/
theorem rolloutCache_is_map (GetEnvForRollout : Rollout → String)
    (cache : GoMap RolloutClusterEntry) (hk : WellKept cache) (key : String)
    (rollout : Rollout) :
    (∃ cache',
      rolloutCache.UpdateRolloutToClusterCache GetEnvForRollout cache key rollout =
        some cache' ∧
      rolloutCache.Get cache' key (GetEnvForRollout rollout) = some rollout ∧
      (∀ key' env', key' ≠ key ∨ env' ≠ GetEnvForRollout rollout →
        rolloutCache.Get cache' key' env' = rolloutCache.Get cache key' env') ∧
      WellKept cache') ∧
    rolloutCache.Get
        (rolloutCache.DeleteFromRolloutToClusterCache GetEnvForRollout cache key rollout) key
        (GetEnvForRollout rollout) = none ∧
    (∀ identity env, GoMap.lookup cache identity = none →
      rolloutCache.Get cache identity env = none) ∧
    (∀ identity env, rolloutCache.Get [] identity env = none) ∧
    (∀ key' env', key' ≠ key ∨ env' ≠ GetEnvForRollout rollout →
      rolloutCache.Get
          (rolloutCache.DeleteFromRolloutToClusterCache GetEnvForRollout cache key rollout)
          key' env' = rolloutCache.Get cache key' env') ∧
    WellKept [] ∧
    WellKept
      (rolloutCache.DeleteFromRolloutToClusterCache GetEnvForRollout cache key rollout) ∧
    (∀ e, e.Rollouts ≠ none → WellKept (rolloutCache.Put cache e)) ∧
    (∀ e, WellKept (rolloutCache.Delete cache e)) := by
  refine ⟨⟨_, update_wellKept_eq GetEnvForRollout cache hk key rollout, ?_, ?_, ?_⟩,
    rolloutGet_delete _ _ _ _, ?_, ?_,
    fun key' env' h => rolloutGet_delete_other _ _ _ _ _ _ h, ?_,
    wellKept_deleteFrom _ _ hk _ _, fun e he => wellKept_put _ hk e he,
    wellKept_delete _ hk⟩
  · exact rolloutGet_update _ _ _ _ _ (update_wellKept_eq GetEnvForRollout cache hk key rollout)
  · intro key' env' h
    exact rolloutGet_update_other _ _ _ hk _ _
      (update_wellKept_eq GetEnvForRollout cache hk key rollout) _ _ h
  · exact wellKept_update _ _ _ hk _ _
      (update_wellKept_eq GetEnvForRollout cache hk key rollout)
  · intro identity env h
    unfold rolloutCache.Get
    rw [h]
  · intro identity env
    rfl
  · intro k rce h
    cases h

theorem rolloutCache_is_map_witness :
    WellKept fooCache ∧
    (rolloutCache.UpdateRolloutToClusterCache exampleEnv fooCache "foo" qalRollout).map
      (fun c => (rolloutCache.Get c "foo" "qal", rolloutCache.Get c "foo" "default")) =
      some (some qalRollout, some injectedRollout) ∧
    (∃ c, rolloutCache.UpdateRolloutToClusterCache exampleEnv fooCache "foo" qalRollout =
        some c ∧ rolloutCache.Get c "foo" "qal" = some qalRollout) ∧
    rolloutCache.Get (rolloutCache.DeleteFromRolloutToClusterCache exampleEnv fooCache "foo"
      injectedRollout) "foo" "default" = none := by
  have hk : WellKept fooCache := by
    intro k rce h
    simp only [fooCache, GoMap.lookup] at h
    split at h
    · rename_i hkey
      simp only [Option.some.injEq] at h
      rw [← h]
      exact ⟨hkey, by simp⟩
    · cases h
  refine ⟨hk, by decide, ?_, ?_⟩
  · obtain ⟨c, hc, hg, -⟩ := (rolloutCache_is_map exampleEnv fooCache hk "foo" qalRollout).1
    exact ⟨c, hc, hg⟩
  · exact (rolloutCache_is_map exampleEnv fooCache hk "foo" injectedRollout).2.1

/-- A cache that does not keep its entries under their identities is no map: the update
under `a` finds an entry that names the identity `b`, stores it under `b` as well, and the
rollout that `b` had is gone. -/
theorem update_of_misfiled_entry :
    rolloutCache.Get misfiledCache "b" "default" = some injectedRollout ∧
    (rolloutCache.UpdateRolloutToClusterCache exampleEnv misfiledCache "a" qalRollout).map
      (fun c => rolloutCache.Get c "b" "default") = some none := by
  refine ⟨?_, ?_⟩
  · decide
  · decide

/-- An entry that `Put` stored without a map cannot be updated: the assignment to a key of
its nil map panics.  Reads and deletes go through. -/
theorem update_of_nil_map_entry :
    rolloutCache.UpdateRolloutToClusterCache exampleEnv nilMapCache "foo" qalRollout = none ∧
    rolloutCache.Get nilMapCache "foo" "qal" = none ∧
    rolloutCache.DeleteFromRolloutToClusterCache exampleEnv nilMapCache "foo" qalRollout =
      nilMapCache := by
  refine ⟨?_, ?_, ?_⟩
  · decide
  · decide
  · decide

/-! ## The scan for a free address ends -/

/-- The scan returns the first candidate that is free, whatever the fuel beyond it. -/
theorem scanAddress_of_first (pfx : String) (addresses : List String) :
    ∀ (j fuel : Nat) (p : Nat × Nat), j < fuel →
      (∀ i, i < j → candidate pfx p i ∈ addresses) → candidate pfx p j ∉ addresses →
      scanAddress pfx addresses fuel p = some (candidate pfx p j) := by
  intro j
  induction j with
  | zero =>
    intro fuel p hf _ hfree
    cases fuel with
    | zero => omega
    | succ fuel =>
      have hfree' : renderAddress pfx p.1 p.2 ∉ addresses := by
        simpa [candidate] using hfree
      simp only [scanAddress, if_neg hfree']
      simp [candidate]
  | succ j ih =>
    intro fuel p hf hbefore hfree
    cases fuel with
    | zero => omega
    | succ fuel =>
      have h0 : renderAddress pfx p.1 p.2 ∈ addresses := by
        simpa [candidate] using hbefore 0 (by omega)
      simp only [scanAddress, if_pos h0]
      rw [← candidate_succ]
      apply ih fuel (nextIndex p) (by omega)
      · intro i hi
        rw [candidate_succ]
        exact hbefore (i + 1) (by omega)
      · rw [candidate_succ]
        exact hfree

/-- C21: for every address list and every IP prefix, the scan of
`GenerateNewAddressAndAddToConfigMap` ends.  The pairs `(secondIndex, firstIndex)` it
visits, from `(n / 255 + 10, n % 255 + 1)` for a list of `n` addresses, are strictly
increasing, and they render to pairwise distinct addresses; so among the first `n + 1`
addresses tested one is free: the scan ends on the first such address, after at most
`n + 1` tests (whatever number of tests beyond that it is allowed), and the address it
ends on is not in the list. -/
theorem scan_terminates (pfx : String) (addresses : List String) :
    (∀ i j, i < j →
      indexLess (nextIndex^[i] (scanStart addresses)) (nextIndex^[j] (scanStart addresses))) ∧
    (∀ i j, candidate pfx (scanStart addresses) i = candidate pfx (scanStart addresses) j →
      i = j) ∧
    (∃ j, j ≤ addresses.length ∧
      candidate pfx (scanStart addresses) j ∉ addresses ∧
      (∀ i, i < j → candidate pfx (scanStart addresses) i ∈ addresses) ∧
      ∀ fuel, j < fuel →
        scanAddress pfx addresses fuel (scanStart addresses) =
          some (candidate pfx (scanStart addresses) j)) := by
  have hs : (scanStart addresses).2 ≤ 255 := by
    simp only [scanStart]
    omega
  refine ⟨?_, fun i j h => candidate_inj pfx _ hs i j h, ?_⟩
  · intro i j hij
    rw [iterate_nextIndex _ hs, iterate_nextIndex _ hs]
    unfold indexLess indexAt
    simp only
    omega
  · obtain ⟨a, ha⟩ := scanAddress_isSome pfx addresses (scanStart addresses) hs
    obtain ⟨j, hj, haj, hfree, hbefore⟩ := scanAddress_eq_some _ _ _ _ _ ha
    rw [haj] at hfree
    refine ⟨j, by omega, hfree, hbefore, ?_⟩
    intro fuel hf
    exact scanAddress_of_first pfx addresses j fuel _ hf hbefore hfree

/-! ## A Delete event leaves no endpoint -/

theorem GoMap.mem_values_insert {V : Type} (m : GoMap V) (k : String) (v x : V)
    (h : x ∈ GoMap.values (GoMap.insert m k v)) : x = v ∨ x ∈ GoMap.values m := by
  induction m with
  | nil =>
    simp only [GoMap.insert, GoMap.values, List.map_cons, List.map_nil,
      List.mem_singleton] at h
    exact Or.inl h
  | cons kv t ih =>
    obtain ⟨k₀, v₀⟩ := kv
    by_cases h0 : k₀ = k
    · simp only [GoMap.insert, h0, if_true, GoMap.values, List.map_cons, List.mem_cons] at h
      rcases h with h | h
      · exact Or.inl h
      · exact Or.inr (by simp only [GoMap.values, List.map_cons, List.mem_cons]
                         exact Or.inr h)
    · simp only [GoMap.insert, h0, if_false, GoMap.values, List.map_cons, List.mem_cons] at h
      simp only [GoMap.values] at ih
      rcases h with h | h
      · exact Or.inr (by simp only [GoMap.values, List.map_cons, List.mem_cons]
                         exact Or.inl h)
      · rcases ih h with h' | h'
        · exact Or.inl h'
        · exact Or.inr (by simp only [GoMap.values, List.map_cons, List.mem_cons]
                           exact Or.inr h')

theorem allDrained_insert (m : GoMap ServiceEntry) (k : String) (se : ServiceEntry)
    (hm : AllDrained m) (hse : se.Endpoints = []) : AllDrained (GoMap.insert m k se) := by
  intro x hx
  rcases GoMap.mem_values_insert m k se x hx with h | h
  · rw [h]; exact hse
  · exact hm x h

/-- For a Delete event `generateServiceEntry` keeps a map without endpoints so. -/
theorem generate_delete_drained (admiralCache : AdmiralCache) (meshPorts : GoMap Nat)
    (globalFqdn : String) (rc : RemoteController) (serviceEntries : GoMap ServiceEntry)
    (address : String) (san : List String) (hm : AllDrained serviceEntries) :
    AllDrained (generateServiceEntry EventType.Delete admiralCache meshPorts globalFqdn rc
      serviceEntries address san).2.1 := by
  obtain ⟨h1, h2⟩ := generateServiceEntry_eq EventType.Delete admiralCache meshPorts
    globalFqdn rc serviceEntries address san
  rw [h2]
  apply allDrained_insert _ _ _ hm
  rw [h1]
  have hne : ¬ (EventType.Delete = EventType.Add ∨ EventType.Delete = EventType.Update) := by
    decide
  simp only [hne, if_false, if_true]
  have hb : (baseEntry serviceEntries globalFqdn meshPorts address san).Endpoints = [] := by
    unfold baseEntry
    cases hl : GoMap.lookup serviceEntries globalFqdn with
    | none => rfl
    | some se => exact hm se (GoMap.mem_values_of_lookup _ _ _ hl)
  rw [hb]
  rfl

theorem generateAll_drained :
    ∀ (calls : List GenerateCall) (serviceEntries : GoMap ServiceEntry) (cache : AdmiralCache),
      AllDrained serviceEntries →
      AllDrained (generateAll EventType.Delete calls serviceEntries cache).1 := by
  intro calls
  induction calls with
  | nil => intro m c hm; exact hm
  | cons call rest ih =>
    intro m c hm
    simp only [generateAll]
    exact ih _ _ (generate_delete_drained c call.meshPorts call.globalFqdn call.rc m
      call.address call.san hm)

theorem createServiceEntry_drained {DR : Type} (H : Helpers DR) (rc : RemoteController)
    (admiralCache : AdmiralCache) (meshPorts : GoMap Nat) (destDeployment : Deployment)
    (serviceEntries : GoMap ServiceEntry) (hm : AllDrained serviceEntries) :
    AllDrained (createServiceEntry H EventType.Delete rc admiralCache meshPorts destDeployment
      serviceEntries).2.1 := by
  unfold createServiceEntry
  simp only
  split
  · exact hm
  · exact generate_delete_drained _ _ _ _ _ _ _ hm

theorem createServiceEntryForRollout_drained {DR : Type} (H : Helpers DR)
    (rc : RemoteController) (admiralCache : AdmiralCache) (meshPorts : GoMap Nat)
    (destRollout : Rollout) (serviceEntries : GoMap ServiceEntry)
    (hm : AllDrained serviceEntries) :
    AllDrained (createServiceEntryForRollout H EventType.Delete rc admiralCache meshPorts
      destRollout serviceEntries).2.1 := by
  unfold createServiceEntryForRollout
  rcases getUniqueAddress admiralCache (H.GetCnameForRollout destRollout) with ⟨address, c1⟩
  dsimp only
  split
  · exact hm
  · apply generate_delete_drained
    split
    · exact hm
    · split
      · split
        · exact hm
        · rcases getUniqueAddress c1
            (BlueGreenRolloutPreviewPrefix ++ Sep ++ H.GetCnameForRollout destRollout)
            with ⟨previewAddress, c2⟩
          split
          · exact generate_delete_drained _ _ _ _ _ _ _ hm
          · exact hm
      · exact hm

theorem resolveCluster_drained {DR : Type} (H : Helpers DR) (env sourceIdentity : String)
    (rr : RemoteRegistry) (st : ResolveState) (clusterId : String)
    (hm : AllDrained st.serviceEntries) :
    AllDrained
      (resolveCluster H EventType.Delete env sourceIdentity rr st clusterId).serviceEntries := by
  unfold resolveCluster
  split
  · exact hm
  · simp only
    split
    · split
      · split <;> split <;> exact hm
      · unfold recordSource
        simp only
        apply createServiceEntry_drained
        split <;> split <;> exact hm
    · split
      · split <;> split <;> exact hm
      · unfold recordSource
        simp only
        apply createServiceEntryForRollout_drained
        split <;> split <;> exact hm
    · split <;> split <;> exact hm

theorem resolveAll_drained {DR : Type} (H : Helpers DR) (env sourceIdentity : String)
    (rr : RemoteRegistry) :
    ∀ (clusters : List String) (st : ResolveState), AllDrained st.serviceEntries →
      AllDrained (clusters.foldl (resolveCluster H EventType.Delete env sourceIdentity rr)
        st).serviceEntries := by
  intro clusters
  induction clusters with
  | nil => intro st hm; exact hm
  | cons c rest ih =>
    intro st hm
    simp only [List.foldl_cons]
    exact ih _ (resolveCluster_drained H env sourceIdentity rr st c hm)

theorem seDrForPolicy_endpoints {DR : Type}
    (getDestinationRule : ServiceEntry → String → Option TrafficPolicy → DR)
    (env region : String) (se : ServiceEntry) (defaultHost : String) (cache : AdmiralCache)
    (p : TrafficPolicy) (host : String) (seDr : SeDrTuple DR) (cache' : AdmiralCache)
    (h : seDrForPolicy getDestinationRule env region se defaultHost cache p =
      some (host, seDr, cache')) : seDr.ServiceEntry.Endpoints = se.Endpoints := by
  unfold seDrForPolicy at h
  split at h
  · simp only [copyServiceEntry] at h
    split at h
    · cases h
    · simp only [Option.some.injEq, Prod.mk.injEq] at h
      rw [← h.2.1]
  · simp only [Option.some.injEq, Prod.mk.injEq] at h
    rw [← h.2.1]

theorem seDrPolicyLoop_endpoints {DR : Type}
    (getDestinationRule : ServiceEntry → String → Option TrafficPolicy → DR)
    (env region : String) (se : ServiceEntry) (defaultHost : String) :
    ∀ (policies : List TrafficPolicy) (seDrSet : GoMap (SeDrTuple DR)) (cache : AdmiralCache)
      (seDrSet' : GoMap (SeDrTuple DR)) (cache' : AdmiralCache),
      seDrPolicyLoop getDestinationRule env region se defaultHost policies seDrSet cache =
        some (seDrSet', cache') →
      (∀ t ∈ GoMap.values seDrSet, t.ServiceEntry.Endpoints = se.Endpoints) →
      ∀ t ∈ GoMap.values seDrSet', t.ServiceEntry.Endpoints = se.Endpoints := by
  intro policies
  induction policies with
  | nil =>
    intro seDrSet cache seDrSet' cache' h hv
    simp only [seDrPolicyLoop, Option.some.injEq, Prod.mk.injEq] at h
    rw [← h.1]
    exact hv
  | cons p rest ih =>
    intro seDrSet cache seDrSet' cache' h hv
    simp only [seDrPolicyLoop] at h
    split at h
    · cases h
    · rename_i host seDr cache1 hstep
      apply ih _ _ _ _ h
      intro t ht
      rcases GoMap.mem_values_insert _ _ _ _ ht with ht' | ht'
      · rw [ht']
        exact seDrForPolicy_endpoints _ _ _ _ _ _ _ _ _ _ hstep
      · exact hv t ht'

/-- Every tuple of the set of `createSeAndDrSetFromGtp` has the endpoints of the entry the
set is made for. -/
theorem createSeAndDrSet_endpoints {DR : Type}
    (getDestinationRule : ServiceEntry → String → Option TrafficPolicy → DR)
    (env region : String) (se : ServiceEntry)
    (globalTrafficPolicy : Option GlobalTrafficPolicy) (cache : AdmiralCache)
    (seDrSet : GoMap (SeDrTuple DR)) (cache' : AdmiralCache)
    (h : createSeAndDrSetFromGtp getDestinationRule env region se globalTrafficPolicy cache =
      some (seDrSet, cache')) :
    ∀ t ∈ GoMap.values seDrSet, t.ServiceEntry.Endpoints = se.Endpoints := by
  unfold createSeAndDrSetFromGtp at h
  have hfin : ∀ (defaultHost : String) (looped : GoMap (SeDrTuple DR)) (c : AdmiralCache),
      (∀ t ∈ GoMap.values looped, t.ServiceEntry.Endpoints = se.Endpoints) →
      (match GoMap.lookup looped defaultHost with
        | some _ => some (looped, c)
        | none =>
          some (GoMap.insert looped defaultHost
            { DrName := getIstioResourceName defaultHost "-default-dr"
              SeName := getIstioResourceName defaultHost "-se"
              DestinationRule := getDestinationRule se region none
              ServiceEntry := se }, c)) = some (seDrSet, cache') →
      ∀ t ∈ GoMap.values seDrSet, t.ServiceEntry.Endpoints = se.Endpoints := by
    intro defaultHost looped c hv hr
    split at hr
    · simp only [Option.some.injEq, Prod.mk.injEq] at hr
      rw [← hr.1]
      exact hv
    · simp only [Option.some.injEq, Prod.mk.injEq] at hr
      rw [← hr.1]
      intro t ht
      rcases GoMap.mem_values_insert _ _ _ _ ht with ht' | ht'
      · rw [ht']
      · exact hv t ht'
  cases hh : se.Hosts with
  | nil => rw [hh] at h; cases h
  | cons defaultHost tl =>
    rw [hh] at h
    cases globalTrafficPolicy with
    | none =>
      exact hfin defaultHost [] cache (fun t ht => by cases ht) h
    | some gtp =>
      simp only at h
      cases hl : seDrPolicyLoop getDestinationRule env region se defaultHost gtp.Policy []
          cache with
      | none => rw [hl] at h; cases h
      | some r =>
        obtain ⟨looped, c⟩ := r
        rw [hl] at h
        exact hfin defaultHost looped c
          (seDrPolicyLoop_endpoints _ _ _ _ _ _ _ _ _ _ hl (fun t ht => by cases ht)) h

theorem seDrOps_drained {DR : Type} (H : Helpers DR) (identityId : String)
    (rc : RemoteController) (seDr : SeDrTuple DR) (h : seDr.ServiceEntry.Endpoints = []) :
    seDrOps H identityId rc seDr = deletesOf rc seDr := by
  unfold seDrOps deletesOf
  rw [if_pos h]

/-- For a service entry without endpoints the writer makes, in a cluster that it writes
to, the two deletes of every tuple of the set and no other call. -/
theorem writeToCluster_drained {DR : Type} (H : Helpers DR) (rr : RemoteRegistry)
    (env identityId : String) (se : ServiceEntry)
    (globalTrafficPolicy : Option GlobalTrafficPolicy) (sourceCluster : String)
    (cache : AdmiralCache) (hse : se.Endpoints = [])
    (hRange : ∀ m, (H.RangeSeDr m).Perm m)
    (ops : List (ClusterOp DR)) (cache' : AdmiralCache)
    (h : writeToCluster H rr env identityId se globalTrafficPolicy sourceCluster cache =
      some (ops, cache')) :
    (∀ op ∈ ops, writesNothing op = true) ∧
    ∀ rc locality, rr.GetRemoteController sourceCluster = some rc →
      rc.Locality = some locality →
      ∃ seDrSet c1, createSeAndDrSetFromGtp H.getDestinationRule env locality.Region se
          globalTrafficPolicy cache = some (seDrSet, c1) ∧
        ops = ((H.RangeSeDr seDrSet).map (fun kv => deletesOf rc kv.2)).flatten := by
  unfold writeToCluster at h
  cases hrc : rr.GetRemoteController sourceCluster with
  | none =>
    rw [hrc] at h
    simp only [Option.some.injEq, Prod.mk.injEq] at h
    rw [← h.1]
    exact ⟨(fun op hop => by cases hop), (fun rc l hr => by cases hr)⟩
  | some rc =>
    rw [hrc] at h
    simp only at h
    cases hloc : rc.Locality with
    | none =>
      rw [hloc] at h
      simp only [Option.some.injEq, Prod.mk.injEq] at h
      rw [← h.1]
      refine ⟨(fun op hop => by cases hop), fun rc' l hr hl => ?_⟩
      simp only [Option.some.injEq] at hr
      rw [← hr, hloc] at hl
      cases hl
    | some locality =>
      rw [hloc] at h
      simp only at h
      cases hset : createSeAndDrSetFromGtp H.getDestinationRule env locality.Region se
          globalTrafficPolicy cache with
      | none => rw [hset] at h; cases h
      | some r =>
        obtain ⟨seDrSet, c1⟩ := r
        rw [hset] at h
        simp only at h
        have hends := createSeAndDrSet_endpoints _ _ _ _ _ _ _ _ hset
        have hops := writeSeDrSet_ops H identityId rc _ _ _ _ h
        have hdr : ∀ kv ∈ H.RangeSeDr seDrSet, kv.2.ServiceEntry.Endpoints = [] := by
          intro kv hkv
          have hmem : kv ∈ seDrSet := (hRange seDrSet).mem_iff.1 hkv
          rw [hends kv.2 (List.mem_map_of_mem Prod.snd hmem)]
          exact hse
        have hmap : (H.RangeSeDr seDrSet).map (fun kv => seDrOps H identityId rc kv.2) =
            (H.RangeSeDr seDrSet).map (fun kv => deletesOf rc kv.2) := by
          apply List.map_congr_left
          intro kv hkv
          exact seDrOps_drained H identityId rc kv.2 (hdr kv hkv)
        rw [hmap] at hops
        constructor
        · intro op hop
          rw [hops] at hop
          obtain ⟨l, hl, hopl⟩ := List.mem_flatten.1 hop
          obtain ⟨kv, -, rfl⟩ := List.mem_map.1 hl
          simp only [deletesOf, List.mem_cons, List.mem_singleton, List.not_mem_nil,
            or_false] at hopl
          rcases hopl with rfl | rfl <;> rfl
        · intro rc' l hr hl
          simp only [Option.some.injEq] at hr
          subst hr
          rw [hloc] at hl
          simp only [Option.some.injEq] at hl
          subst hl
          exact ⟨seDrSet, c1, hset, hops⟩

theorem writeToClusters_drained {DR : Type} (H : Helpers DR) (rr : RemoteRegistry)
    (env identityId : String) (se : ServiceEntry)
    (globalTrafficPolicy : Option GlobalTrafficPolicy) (hse : se.Endpoints = [])
    (hRange : ∀ m, (H.RangeSeDr m).Perm m) :
    ∀ (clusters : List (String × String)) (cache : AdmiralCache) (ops : List (ClusterOp DR))
      (cache' : AdmiralCache),
      writeToClusters H rr env identityId se globalTrafficPolicy clusters cache =
        some (ops, cache') →
      ∀ op ∈ ops, writesNothing op = true := by
  intro clusters
  induction clusters with
  | nil =>
    intro cache ops cache' h
    simp only [writeToClusters, Option.some.injEq, Prod.mk.injEq] at h
    rw [← h.1]
    intro op hop
    cases hop
  | cons kv rest ih =>
    intro cache ops cache' h
    simp only [writeToClusters] at h
    cases h1 : writeToCluster H rr env identityId se globalTrafficPolicy kv.2 cache with
    | none => rw [h1] at h; cases h
    | some r1 =>
      obtain ⟨ops1, c1⟩ := r1
      rw [h1] at h
      simp only at h
      cases h2 : writeToClusters H rr env identityId se globalTrafficPolicy rest c1 with
      | none => rw [h2] at h; cases h
      | some r2 =>
        obtain ⟨ops2, c2⟩ := r2
        rw [h2] at h
        simp only [Option.some.injEq, Prod.mk.injEq] at h
        rw [← h.1]
        intro op hop
        rcases List.mem_append.1 hop with hop | hop
        · exact (writeToCluster_drained H rr env identityId se globalTrafficPolicy kv.2 cache
            hse hRange ops1 c1 h1).1 op hop
        · exact ih c1 ops2 c2 h2 op hop

theorem writeServiceEntry_drained {DR : Type} (H : Helpers DR) (rr : RemoteRegistry)
    (sourceClusters : GoMap String) (se : ServiceEntry) (cache : AdmiralCache)
    (hse : se.Endpoints = []) (hRange : ∀ m, (H.RangeSeDr m).Perm m)
    (ops : List (ClusterOp DR)) (cache' : AdmiralCache)
    (h : writeServiceEntry H rr sourceClusters se cache = some (ops, cache')) :
    ∀ op ∈ ops, writesNothing op = true := by
  unfold writeServiceEntry at h
  split at h
  · cases h
  · exact writeToClusters_drained H rr _ _ se _ hse hRange _ _ _ _ h

/-- The writer makes no upsert for a map of service entries without endpoints. -/
theorem addServiceEntries_drained {DR : Type} (H : Helpers DR) (rr : RemoteRegistry)
    (sourceClusters : GoMap String) (hRange : ∀ m, (H.RangeSeDr m).Perm m) :
    ∀ (serviceEntries : GoMap ServiceEntry) (cache : AdmiralCache)
      (ops : List (ClusterOp DR)) (cache' : AdmiralCache),
      AllDrained serviceEntries →
      AddServiceEntriesWithDr H rr sourceClusters serviceEntries cache = some (ops, cache') →
      ∀ op ∈ ops, writesNothing op = true := by
  intro serviceEntries
  induction serviceEntries with
  | nil =>
    intro cache ops cache' _ h
    simp only [AddServiceEntriesWithDr, Option.some.injEq, Prod.mk.injEq] at h
    rw [← h.1]
    intro op hop
    cases hop
  | cons kv rest ih =>
    intro cache ops cache' hm h
    simp only [AddServiceEntriesWithDr] at h
    have hkv : kv.2.Endpoints = [] := hm kv.2 (by simp [GoMap.values])
    have hrest : AllDrained rest := by
      intro se hse
      exact hm se (by
        simp only [GoMap.values, List.map_cons, List.mem_cons]
        exact Or.inr hse)
    cases h1 : writeServiceEntry H rr sourceClusters kv.2 cache with
    | none => rw [h1] at h; cases h
    | some r1 =>
      obtain ⟨ops1, c1⟩ := r1
      rw [h1] at h
      simp only at h
      cases h2 : AddServiceEntriesWithDr H rr sourceClusters rest c1 with
      | none => rw [h2] at h; cases h
      | some r2 =>
        obtain ⟨ops2, c2⟩ := r2
        rw [h2] at h
        simp only [Option.some.injEq, Prod.mk.injEq] at h
        rw [← h.1]
        intro op hop
        rcases List.mem_append.1 hop with hop | hop
        · exact writeServiceEntry_drained H rr sourceClusters kv.2 cache hkv hRange ops1 c1 h1
            op hop
        · exact ih c1 ops2 c2 hrest h2 op hop

theorem writeToSource_drained {DR : Type} (H : Helpers DR) (rr : RemoteRegistry)
    (sourceCluster key : String) (se shared : ServiceEntry) (cnames : GoMap String)
    (st st' : RewriteState DR) (hse : se.Endpoints = [])
    (hRange : ∀ m, (H.RangeSeDr m).Perm m)
    (hq : ∀ op ∈ st.ops, writesNothing op = true)
    (h : writeToSource H rr sourceCluster key se shared cnames st = some st') :
    st'.serviceEntry = shared ∧ ∀ op ∈ st'.ops, writesNothing op = true := by
  unfold writeToSource at h
  cases h1 : AddServiceEntriesWithDr H rr [(sourceCluster, sourceCluster)] [(key, se)]
      st.cache with
  | none => rw [h1] at h; cases h
  | some r =>
    obtain ⟨ops, c⟩ := r
    rw [h1] at h
    simp only [Option.some.injEq] at h
    rw [← h]
    refine ⟨rfl, ?_⟩
    intro op hop
    rcases List.mem_append.1 hop with hop | hop
    · exact hq op hop
    · refine addServiceEntries_drained H rr _ hRange [(key, se)] st.cache ops c ?_ h1 op hop
      intro x hx
      simp only [GoMap.values, List.map_cons, List.map_nil, List.mem_singleton] at hx
      rw [hx]
      exact hse

/-- The rewrite of an entry without endpoints leaves it as it is and makes no upsert. -/
theorem rewriteEntry_drained {DR : Type} (H : Helpers DR) (rr : RemoteRegistry)
    (sourceCluster : String) (rc : Option RemoteController) (localFqdn : String)
    (meshPorts : GoMap Nat) (blueGreenStrategy : Bool) (rollout : Option Rollout)
    (weightedServices : GoMap WeightedService) (key : String) (st st' : RewriteState DR)
    (hse : st.serviceEntry.Endpoints = []) (hRange : ∀ m, (H.RangeSeDr m).Perm m)
    (hq : ∀ op ∈ st.ops, writesNothing op = true)
    (h : rewriteEntry H rr sourceCluster rc localFqdn meshPorts blueGreenStrategy rollout
      weightedServices key st = some st') :
    st'.serviceEntry = st.serviceEntry ∧ ∀ op ∈ st'.ops, writesNothing op = true := by
  unfold rewriteEntry at h
  have hlen : st.serviceEntry.Endpoints.length = 0 := by rw [hse]; rfl
  simp only [hlen, if_true] at h
  cases h1 : writeToSource H rr sourceCluster key st.serviceEntry st.serviceEntry st.cnames
      st with
  | none => rw [h1] at h; cases h
  | some st1 =>
    rw [h1] at h
    obtain ⟨hs1, hq1⟩ := writeToSource_drained H rr sourceCluster key _ _ _ st st1 hse hRange
      hq h1
    cases rc with
    | none => cases h
    | some rc =>
      simp only at h
      rw [hs1, hlen] at h
      simp only [List.range_zero, rewriteEndpoints, Option.some.injEq] at h
      rw [← h]
      exact ⟨hs1, hq1⟩

theorem rewriteEntries_drained {DR : Type} (H : Helpers DR) (rr : RemoteRegistry)
    (sourceCluster : String) (rc : Option RemoteController) (localFqdn : String)
    (meshPorts : GoMap Nat) (blueGreenStrategy : Bool) (rollout : Option Rollout)
    (weightedServices : GoMap WeightedService) (hRange : ∀ m, (H.RangeSeDr m).Perm m) :
    ∀ (keys : List String) (st st' : SourceState DR),
      AllDrained st.serviceEntries → (∀ op ∈ st.ops, writesNothing op = true) →
      rewriteEntries H rr sourceCluster rc localFqdn meshPorts blueGreenStrategy rollout
        weightedServices keys st = some st' →
      AllDrained st'.serviceEntries ∧ ∀ op ∈ st'.ops, writesNothing op = true := by
  intro keys
  induction keys with
  | nil =>
    intro st st' hm hq h
    simp only [rewriteEntries, Option.some.injEq] at h
    rw [← h]
    exact ⟨hm, hq⟩
  | cons key rest ih =>
    intro st st' hm hq h
    simp only [rewriteEntries] at h
    cases hl : GoMap.lookup st.serviceEntries key with
    | none =>
      rw [hl] at h
      exact ih st st' hm hq h
    | some serviceEntry =>
      rw [hl] at h
      simp only at h
      have hse : serviceEntry.Endpoints = [] :=
        hm serviceEntry (GoMap.mem_values_of_lookup _ _ _ hl)
      cases h1 : rewriteEntry H rr sourceCluster rc localFqdn meshPorts blueGreenStrategy
          rollout weightedServices key
          { serviceEntry := serviceEntry, cnames := st.cnames, cache := st.cache,
            ops := st.ops } with
      | none => rw [h1] at h; cases h
      | some r =>
        rw [h1] at h
        simp only at h
        obtain ⟨hs, hq1⟩ := rewriteEntry_drained H rr sourceCluster rc localFqdn meshPorts
          blueGreenStrategy rollout weightedServices key _ r hse hRange hq h1
        refine ih _ st' ?_ hq1 h
        apply allDrained_insert _ _ _ hm
        rw [hs]
        exact hse

theorem rewriteForSource_drained {DR : Type} (H : Helpers DR) (sourceIdentity : String)
    (rr : RemoteRegistry) (rs : ResolveState) (dependents : GoMap String)
    (hRange : ∀ m, (H.RangeSeDr m).Perm m) (st st' : SourceState DR)
    (source : String × Service) (hm : AllDrained st.serviceEntries)
    (hq : ∀ op ∈ st.ops, writesNothing op = true)
    (h : rewriteForSource H sourceIdentity rr rs dependents st source = some st') :
    AllDrained st'.serviceEntries ∧ ∀ op ∈ st'.ops, writesNothing op = true := by
  unfold rewriteForSource at h
  simp only at h
  split at h
  · cases h
  · rename_i st1 h1
    obtain ⟨hm1, hq1⟩ := rewriteEntries_drained H rr _ _ _ _ _ _ _ hRange _ st st1 hm hq h1
    split at h
    · cases h
    · rename_i ops hops
      simp only [Option.some.injEq] at h
      rw [← h]
      refine ⟨hm1, ?_⟩
      intro op hop
      rcases List.mem_append.1 hop with hop | hop
      · exact hq1 op hop
      · split at hops
        · split at hops
          · cases hops
          · split at hops
            · simp only [Option.some.injEq] at hops
              rw [← hops] at hop
              cases hop
            · cases hops
            · simp only [Option.some.injEq] at hops
              rw [← hops] at hop
              simp only [List.mem_singleton] at hop
              rw [hop]
              rfl
        · simp only [Option.some.injEq] at hops
          rw [← hops] at hop
          cases hop

theorem rewriteForSources_drained {DR : Type} (H : Helpers DR) (sourceIdentity : String)
    (rr : RemoteRegistry) (rs : ResolveState) (dependents : GoMap String)
    (hRange : ∀ m, (H.RangeSeDr m).Perm m) :
    ∀ (sources : List (String × Service)) (st st' : SourceState DR),
      AllDrained st.serviceEntries → (∀ op ∈ st.ops, writesNothing op = true) →
      rewriteForSources H sourceIdentity rr rs dependents sources st = some st' →
      AllDrained st'.serviceEntries ∧ ∀ op ∈ st'.ops, writesNothing op = true := by
  intro sources
  induction sources with
  | nil =>
    intro st st' hm hq h
    simp only [rewriteForSources, Option.some.injEq] at h
    rw [← h]
    exact ⟨hm, hq⟩
  | cons source rest ih =>
    intro st st' hm hq h
    simp only [rewriteForSources] at h
    cases h1 : rewriteForSource H sourceIdentity rr rs dependents st source with
    | none => rw [h1] at h; cases h
    | some st1 =>
      rw [h1] at h
      obtain ⟨hm1, hq1⟩ := rewriteForSource_drained H sourceIdentity rr rs dependents hRange
        st st1 source hm hq h1
      exact ih st1 st' hm1 hq1 h

/-- For a Delete event the resolver returns entries without endpoints and makes no
upsert. -/
theorem modify_delete_drained {DR : Type} (H : Helpers DR) (env sourceIdentity : String)
    (rr : RemoteRegistry) (cache : AdmiralCache) (hRange : ∀ m, (H.RangeSeDr m).Perm m)
    (entries : Option (GoMap ServiceEntry)) (ops : List (ClusterOp DR))
    (cache' : AdmiralCache)
    (h : modifyServiceEntryForNewServiceOrPod H EventType.Delete env sourceIdentity rr cache =
      some (entries, ops, cache')) :
    (∀ m, entries = some m → AllDrained m) ∧ ∀ op ∈ ops, writesNothing op = true := by
  unfold modifyServiceEntryForNewServiceOrPod at h
  split at h
  · simp only [Option.some.injEq, Prod.mk.injEq] at h
    rw [← h.1, ← h.2.1]
    exact ⟨(fun m hm => by cases hm), (fun op hop => by cases hop)⟩
  · split at h
    · simp only [Option.some.injEq, Prod.mk.injEq] at h
      rw [← h.1, ← h.2.1]
      exact ⟨(fun m hm => by cases hm), (fun op hop => by cases hop)⟩
    · simp only at h
      have hrs := resolveAll_drained H env sourceIdentity rr rr.ClusterIds { cache := cache }
        (fun se hse => by cases hse)
      split at h
      · cases h
      · rename_i st hst
        obtain ⟨hm1, hq1⟩ := rewriteForSources_drained H sourceIdentity rr _ _ hRange _ _ st
          hrs (fun op hop => by cases hop) hst
        split at h
        · cases h
        · rename_i ops2 c2 hadd
          simp only [Option.some.injEq, Prod.mk.injEq] at h
          rw [← h.1, ← h.2.1]
          refine ⟨fun m hm => ?_, fun op hop => ?_⟩
          · simp only [Option.some.injEq] at hm
            rw [← hm]
            exact hm1
          · rcases List.mem_append.1 hop with hop | hop
            · exact hq1 op hop
            · exact addServiceEntries_drained H rr _ hRange _ _ _ _ hm1 hadd op hop

/-- C22: for a Delete event, a run of calls of `generateServiceEntry` that starts from the
empty map, for any clusters, hosts, ports and addresses, leaves a map in which every
service entry has no endpoint; so does the first loop of
`modifyServiceEntryForNewServiceOrPod`, whatever the clusters still hold.  When the loop
over a set of tuples visits the tuples of the set, the function then returns entries
without endpoints and makes no upsert of a service entry or a destination rule on any
cluster, and for an entry without endpoints the writer makes, in a cluster with a
controller and a locality, the delete of the service entry and of the destination rule of
every tuple of the set. -/
theorem delete_event_drains_entries {DR : Type} (H : Helpers DR) (env sourceIdentity : String)
    (rr : RemoteRegistry) (cache : AdmiralCache) :
    (∀ calls, AllDrained (generateAll EventType.Delete calls [] cache).1) ∧
    AllDrained (rr.ClusterIds.foldl (resolveCluster H EventType.Delete env sourceIdentity rr)
      { cache := cache }).serviceEntries ∧
    ((∀ m, (H.RangeSeDr m).Perm m) →
      (∀ entries ops cache',
        modifyServiceEntryForNewServiceOrPod H EventType.Delete env sourceIdentity rr cache =
          some (entries, ops, cache') →
        (∀ m, entries = some m → AllDrained m) ∧ ∀ op ∈ ops, writesNothing op = true) ∧
      (∀ (se : ServiceEntry) (hostEnv identityId sourceCluster : String)
        (globalTrafficPolicy : Option GlobalTrafficPolicy) (c : AdmiralCache)
        (rc : RemoteController) (locality : Locality) (ops : List (ClusterOp DR))
        (c' : AdmiralCache),
        se.Endpoints = [] → rr.GetRemoteController sourceCluster = some rc →
        rc.Locality = some locality →
        writeToCluster H rr hostEnv identityId se globalTrafficPolicy sourceCluster c =
          some (ops, c') →
        ∃ seDrSet c1,
          createSeAndDrSetFromGtp H.getDestinationRule hostEnv locality.Region se
            globalTrafficPolicy c = some (seDrSet, c1) ∧
          ops = ((H.RangeSeDr seDrSet).map (fun kv => deletesOf rc kv.2)).flatten)) := by
  refine ⟨?_, ?_, ?_⟩
  · intro calls
    exact generateAll_drained calls [] cache (fun se hse => by cases hse)
  · exact resolveAll_drained H env sourceIdentity rr rr.ClusterIds { cache := cache }
      (fun se hse => by cases hse)
  · intro hRange
    constructor
    · intro entries ops cache' h
      exact modify_delete_drained H env sourceIdentity rr cache hRange entries ops cache' h
    · intro se hostEnv identityId sourceCluster globalTrafficPolicy c rc locality ops c' hse
        hrc hloc h
      exact (writeToCluster_drained H rr hostEnv identityId se globalTrafficPolicy
        sourceCluster c hse hRange ops c' h).2 rc locality hrc hloc

/-- C22 at the west cluster, which still holds the deployment and its service: the entry
of the host has no endpoint and the two deletes are the only calls; for an Add event the
entry has the endpoint of the cluster. -/
theorem delete_event_drains_entries_witness :
    endpointsOf (modifyServiceEntryForNewServiceOrPod servedHelpers EventType.Delete "stage"
      "foo" (registryOf deployedCluster) plainCache) = some [("stage.foo.global", [])] ∧
    opsOf (modifyServiceEntryForNewServiceOrPod servedHelpers EventType.Delete "stage"
      "foo" (registryOf deployedCluster) plainCache) =
      [ClusterOp.deleteServiceEntry "west" "stage.foo.global-se",
        ClusterOp.deleteDestinationRule "west" "stage.foo.global-default-dr"] ∧
    endpointsOf (modifyServiceEntryForNewServiceOrPod servedHelpers EventType.Add "stage"
      "foo" (registryOf deployedCluster) plainCache) =
      some [("stage.foo.global", [ingressEndpoint])] ∧
    (∀ op ∈ opsOf (modifyServiceEntryForNewServiceOrPod servedHelpers EventType.Delete
      "stage" "foo" (registryOf deployedCluster) plainCache), writesNothing op = true) := by
  refine ⟨?_, ?_, ?_, ?_⟩
  · decide
  · decide
  · decide
  · cases h : modifyServiceEntryForNewServiceOrPod servedHelpers EventType.Delete "stage"
        "foo" (registryOf deployedCluster) plainCache with
    | none =>
      intro op hop
      cases hop
    | some r =>
      obtain ⟨entries, ops, cache'⟩ := r
      exact (((delete_event_drains_entries servedHelpers "stage" "foo"
        (registryOf deployedCluster) plainCache).2.2
        (fun m => List.Perm.refl m)).1 entries ops cache' h).2

end Admiral
